import Mathlib

/-!
# NOVA microhypervisor: EC continuation engine and the IPC path

A shallow embedding of `nova/inc/ec.hpp`, `nova/inc/pd.hpp`, `src/x86_64/syscall.cpp` and the
replay loop of `nova/inc/console_uart.hpp`.

* Kernel objects live in heaps indexed by pointers (`Nat`); a nullable pointer is an `Option`.
* `unsigned` counters are `Nat` reduced modulo `2 ^ 32`.
* A function that dereferences a null pointer returns `none`.
* Functions marked `[[noreturn]]` end a kernel path: the embedding of a path returns the state it
  leaves behind together with the `Transfer` naming the function it tail-called.
* Atomic loads and stores of `cont` are single steps of a sequentially consistent memory; the
  memory orderings themselves are not represented.
-/

namespace Nova

/-! ## Data model -/

/-- Pointer to an `Ec`. -/
abbrev EcPtr := Nat

/-- Pointer to an `Sc`. -/
abbrev ScPtr := Nat

/-- Pointer to a `Pt`. -/
abbrev PtPtr := Nat

/-- Modelled from the spec: the `Status` enumeration (its header is not under src/), in the order
of section 6: `SUCCESS=0, TIMEOUT, ABORTED, BAD_HYP, BAD_CAP, BAD_PAR, BAD_FTR, BAD_CPU, BAD_DEV,
MEM_OBJ, MEM_CAP`. -/
inductive Status
  | SUCCESS | TIMEOUT | ABORTED | BAD_HYP | BAD_CAP | BAD_PAR | BAD_FTR | BAD_CPU | BAD_DEV
  | MEM_OBJ | MEM_CAP
  deriving DecidableEq, Repr

/-- The numeric value `std::to_underlying (s)`. -/
def Status.to_underlying : Status → Nat
  | .SUCCESS => 0
  | .TIMEOUT => 1
  | .ABORTED => 2
  | .BAD_HYP => 3
  | .BAD_CAP => 4
  | .BAD_PAR => 5
  | .BAD_FTR => 6
  | .BAD_CPU => 7
  | .BAD_DEV => 8
  | .MEM_OBJ => 9
  | .MEM_CAP => 10

/-- The non-null values of `cont_t`: the kernel functions an EC can continue with. The null
continuation is `none : Option Cont`. -/
inductive Cont
  | blocking
  | dead
  | idle
  | recv_kern
  | recv_user
  | ret_user_sysexit
  | ret_user_iret
  | ret_user_vmresume
  | ret_user_vmrun
  | ret_user_exception
  | ret_user_vmexit_vmx
  | ret_user_vmexit_svm
  | send_msg (c : Cont)
  | sys_call
  | sys_reply
  | sys_create_pd
  | sys_create_ec
  | sys_create_sc
  | sys_create_pt
  | sys_create_sm
  | sys_ctrl_pd
  | sys_ctrl_ec
  | sys_ctrl_sc
  | sys_ctrl_pt
  | sys_ctrl_sm
  | sys_ctrl_hw
  | sys_assign_int
  | sys_assign_dev
  | sys_finish (S : Status) (T : Bool)
  deriving DecidableEq, Repr

/-- The syscall register frame seen through `Sys_abi`: the parameters `p0 .. p5`. -/
structure Sys_regs where
  p0 : Nat
  p1 : Nat
  p2 : Nat
  p3 : Nat
  p4 : Nat
  p5 : Nat
  deriving DecidableEq, Repr

/-- The exception register frame `regs.exc`: the syscall frame, the saved instruction pointer
`ip()` and the exception vector `ep()`. -/
structure Exc_regs where
  sys : Sys_regs
  ip : Nat
  ep : Nat
  deriving DecidableEq, Repr

/-- The register state `regs` of an EC: the exception frame, the hazard set and the object space
returned by `get_obj()`. -/
structure Cpu_regs where
  exc : Exc_regs
  hazard : Nat
  obj : Nat
  deriving DecidableEq, Repr

/-- The fields of `class Ec` that the continuation engine and the IPC path read or write.
`queue` is the inherited `Queue<Sc>`, head first; `timeout` records whether the hypercall
timeout is enqueued; `glb` is the flag tested by `syscall.cpp`. -/
structure Ec where
  regs : Cpu_regs
  evt : Nat
  cpu : Nat
  glb : Bool
  callee : Option EcPtr
  caller : Option EcPtr
  cont : Option Cont
  timeout : Bool
  queue : List ScPtr
  deriving DecidableEq, Repr

/-- Modelled from the spec: `syscall.cpp` reads the field `xcpu` of the server EC, which `ec.hpp`
does not declare; the spec's check is `current.cpu ≠ s.cpu`, so `xcpu` is the home CPU. -/
def Ec.xcpu (e : Ec) : Nat := e.cpu

/-- Modelled from the spec: `syscall.cpp` calls the callee pointer `partner`; `ec.hpp` declares it
as `callee` (the spec's partner chain follows `callee` pointers). -/
def Ec.partner (e : Ec) : Option EcPtr := e.callee

/-- Modelled from the spec: `syscall.cpp` calls the caller pointer `rcap`; `ec.hpp` declares it
as `caller` (the spec's reply reads `current.caller`). -/
def Ec.rcap (e : Ec) : Option EcPtr := e.caller

/-- A scheduling context: the EC it is bound to. -/
structure Sc where
  ec : EcPtr
  deriving DecidableEq, Repr

/-- Modelled from the spec: a portal `(server_ec, entry_ip, mtd, badge_id)`, with the field names
used by `syscall.cpp` (`pt.hpp` is not under src/). -/
structure Pt where
  ec : EcPtr
  ip : Nat
  mtd : Nat
  id : Nat
  deriving DecidableEq, Repr

/-- The `Kobject::Type` tag of a kernel object. -/
inductive Kobject_type
  | PD | EC | SC | PT | SM
  deriving DecidableEq, Repr

/-- A non-null object pointer held by a capability, with the type of the object it points to. -/
structure Kobject_ref where
  type : Kobject_type
  ptr : Nat
  deriving DecidableEq, Repr

/-- Modelled from the spec: a capability is an object pointer (or null for an empty slot) with a
permission bitset (`capability.hpp` is not under src/). -/
structure Capability where
  obj : Option Kobject_ref
  prm : Nat
  deriving DecidableEq, Repr

/-- Modelled from the spec: validation against a required permission bit set succeeds when the
slot holds an object of the kind the permission belongs to and every required bit is present. -/
def Capability.validate (c : Capability) (t : Kobject_type) (p : Nat) : Bool :=
  match c.obj with
  | none => false
  | some o => decide (o.type = t) && decide (c.prm &&& p = p)

/-- Modelled from the spec: the permission bits of a portal capability (`Perm_pt`); the bit
positions are those of the upstream header, which is not under src/. -/
def Perm_pt.CTRL : Nat := 1

/-- Modelled from the spec: the `Perm_pt::CALL` permission bit. -/
def Perm_pt.CALL : Nat := 2

/-- Modelled from the spec: the `Perm_pt::EVENT` permission bit. -/
def Perm_pt.EVENT : Nat := 4

/-- Width of the C++ type `unsigned` on x86_64. -/
def UNSIGNED_BITS : Nat := 32

/-- The kernel state seen from the executing CPU: the object heaps, the object spaces
(`space_obj o sel` is `o->lookup (sel)`, total), and the CPU-local variables `Ec::current`,
`Sc::current` and `Ec::donations`. -/
structure State where
  ecs : EcPtr → Ec
  scs : ScPtr → Sc
  pts : PtPtr → Pt
  space_obj : Nat → Nat → Capability
  current : EcPtr
  sc_current : ScPtr
  donations : Nat

/-- Overwrite the EC stored at `p`. -/
def State.set_ec (s : State) (p : EcPtr) (e : Ec) : State :=
  { s with ecs := Function.update s.ecs p e }

/-! ## `ec.hpp`: block / unblock -/

/-- The method `Ec::block`: `cont.store (blocking, __ATOMIC_RELAXED)`. -/
def Ec.block (e : Ec) : Ec := { e with cont := some Cont.blocking }

/-- The method `Ec::unblock`: `cont.store (c, same_cpu ? __ATOMIC_RELAXED : __ATOMIC_RELEASE)`. -/
def Ec.unblock (e : Ec) (c : Option Cont) (same_cpu : Bool) : Ec :=
  if same_cpu then { e with cont := c } else { e with cont := c }

/-- The method `Ec::blocked`:
`c = cont.load (__ATOMIC_ACQUIRE); return c == blocking || c == nullptr`. -/
def Ec.blocked (e : Ec) : Bool :=
  let c := e.cont
  c == some Cont.blocking || c == none

/-- Modelled from the spec: `Queue<Sc>::enqueue_tail` (`queue.hpp` is not under src/): the
element is appended behind the last element of the queue. -/
def enqueue_tail (q : List ScPtr) (sc : ScPtr) : List ScPtr := q ++ [sc]

/-- The method `Ec::block_sc`, run on a CPU whose `Scheduler::get_current()` is `cur`: under the
EC lock, return false if the EC is no longer blocked, otherwise enqueue `cur` at the tail and
return true. -/
def Ec.block_sc (e : Ec) (cur : ScPtr) : Ec × Bool :=
  if !e.blocked then (e, false)
  else ({ e with queue := enqueue_tail e.queue cur }, true)

/-- The loop of `Ec::unblock_sc`: `for (Sc *sc; (sc = dequeue_head()); Scheduler::unblock (sc)) ;`
run on queue `q`; `out` collects the SCs passed to `Scheduler::unblock`, oldest first. Returns
the queue left behind and the collected calls.
Modelled from the spec: `Queue<Sc>::dequeue_head` (`queue.hpp` is not under src/) removes and
returns the first element, and returns null on an empty queue, which ends the loop. -/
def unblock_sc_loop : List ScPtr → List ScPtr → List ScPtr × List ScPtr
  | [], out => ([], out)
  | sc :: rest, out => unblock_sc_loop rest (out ++ [sc])

/-- The method `Ec::unblock_sc`: under the EC lock, drain the SC queue; the second component
lists the SCs handed to `Scheduler::unblock`, in call order. -/
def Ec.unblock_sc (e : Ec) : Ec × List ScPtr :=
  let r := unblock_sc_loop e.queue []
  ({ e with queue := r.1 }, r.2)

/-! ## `ec.hpp`: partnering -/

/-- The method `Ec::set_partner`, invoked on the EC at `a` with argument `e`:
`callee = e; callee->caller = this; donations++`. -/
def set_partner (s : State) (a : EcPtr) (e : EcPtr) : State :=
  let s1 := s.set_ec a { s.ecs a with callee := some e }
  let s2 := s1.set_ec e { s1.ecs e with caller := some a }
  { s2 with donations := (s2.donations + 1) % 2 ^ UNSIGNED_BITS }

/-- The method `Ec::clr_partner`, invoked on the EC at `a`:
`callee->caller = nullptr; callee = nullptr; return donations--`. Dereferencing a null `callee`
has no defined result. The returned flag is the old counter value converted to `bool`. -/
def clr_partner (s : State) (a : EcPtr) : Option (State × Bool) :=
  match (s.ecs a).callee with
  | none => none
  | some c =>
    let s1 := s.set_ec c { s.ecs c with caller := none }
    let s2 := s1.set_ec a { s1.ecs a with callee := none }
    let d := s2.donations
    some ({ s2 with donations := (d + 2 ^ UNSIGNED_BITS - 1) % 2 ^ UNSIGNED_BITS },
      decide (d ≠ 0))

/-! ## `syscall.cpp`: the IPC path -/

/-- The `[[noreturn]]` function a kernel path ends in. `help` stands for a call of `Ec::help`
that did not return. -/
inductive Transfer
  | ret_user_sysexit
  | make_current (e : EcPtr)
  | activate (e : EcPtr)
  | schedule (yield : Bool)
  | help (e : EcPtr) (c : Cont)
  | die (msg : String)
  deriving DecidableEq, Repr

/-- What a kernel path leaves behind: the state, and the function it transferred control to. -/
structure Outcome where
  state : State
  next : Transfer

/-- Collaborators of `sys_call` that are declared outside src/: the `Sys_ipc_call` accessors
`pt()`, `mtd()` and `timeout()` decoding the caller's syscall frame, and `Ec::help (e, c)`, which
either returns with a new state or does not return (`none`). -/
structure Env where
  pt : Sys_regs → Nat
  mtd : Sys_regs → Nat
  timeout : Sys_regs → Bool
  help : EcPtr → Cont → State → Option State

/-- Store `c` into the `cont` field of the EC at `p`. -/
def State.set_cont (s : State) (p : EcPtr) (c : Option Cont) : State :=
  s.set_ec p { s.ecs p with cont := c }

/-- The store `ec->exc_regs().ip() = v`. -/
def State.set_ip (s : State) (p : EcPtr) (v : Nat) : State :=
  s.set_ec p { s.ecs p with regs.exc.ip := v }

/-- The store `Sys_abi (ec->sys_regs()).p0() = v`. -/
def State.set_p0 (s : State) (p : EcPtr) (v : Nat) : State :=
  s.set_ec p { s.ecs p with regs.exc.sys.p0 := v }

/-- The store `Sys_abi (ec->sys_regs()).p1() = v`. -/
def State.set_p1 (s : State) (p : EcPtr) (v : Nat) : State :=
  s.set_ec p { s.ecs p with regs.exc.sys.p1 := v }

/-- The method `Ec::clr_timeout`: `timeout.dequeue()`. -/
def clr_timeout (s : State) (p : EcPtr) : State :=
  s.set_ec p { s.ecs p with timeout := false }

/-- Modelled from the spec: `Ec::make_current` (not under src/): `make_current(s)` tail-transfers
into `s`, which becomes the current EC of the CPU. -/
def make_current (s : State) (e : EcPtr) : Outcome :=
  ⟨{ s with current := e }, Transfer.make_current e⟩

/-- The method `Ec::sys_finish_status`, invoked on the EC at `p`: write the status to `p0`, then
`ret_user_sysexit()`. -/
def sys_finish_status (s : State) (p : EcPtr) (st : Status) : Outcome :=
  ⟨s.set_p0 p st.to_underlying, Transfer.ret_user_sysexit⟩

/-- The function `Ec::sys_finish<S, T>`:
`if (T) current->clr_timeout(); current->sys_finish_status (S)`. -/
def sys_finish (S : Status) (T : Bool) (s : State) : Outcome :=
  let s1 := if T then clr_timeout s s.current else s
  sys_finish_status s1 s1.current S

/-- The function `Ec::sys_call`. `r` is a view of the caller's syscall frame, so its accessors
read the frame as it is when they are called. The result is `none` where the code dereferences
a null object pointer. -/
def sys_call (env : Env) (s : State) : Option Outcome :=
  let obj := (s.ecs s.current).regs.obj
  let cpt := s.space_obj obj (env.pt (s.ecs s.current).regs.exc.sys)
  if !cpt.validate Kobject_type.PT Perm_pt.CALL then
    some (sys_finish Status.BAD_CAP false s)
  else
    match cpt.obj with
    | none => none
    | some o =>
      let pt := s.pts o.ptr
      let ec := pt.ec
      if (s.ecs s.current).cpu != (s.ecs ec).xcpu then
        some (sys_finish Status.BAD_CPU false s)
      else if (s.ecs ec).cont = none then
        let s1 := s.set_cont s.current (some Cont.ret_user_sysexit)
        let s2 := set_partner s1 s1.current ec
        let s3 := s2.set_cont ec (some Cont.recv_user)
        let s4 := s3.set_ip ec (s3.pts o.ptr).ip
        let s5 := s4.set_p0 ec (s4.pts o.ptr).id
        let s6 := s5.set_p1 ec (env.mtd (s5.ecs s5.current).regs.exc.sys)
        some (make_current s6 ec)
      else if !env.timeout (s.ecs s.current).regs.exc.sys then
        match env.help ec Cont.sys_call s with
        | none => some ⟨s, Transfer.help ec Cont.sys_call⟩
        | some s' => some (sys_finish Status.TIMEOUT false s')
      else
        some (sys_finish Status.TIMEOUT false s)

/-- The capability `cpt` that `sys_call` looks up: `obj->lookup (r.pt())` in the object space of
the current EC. -/
def call_cap (env : Env) (s : State) : Capability :=
  s.space_obj (s.ecs s.current).regs.obj (env.pt (s.ecs s.current).regs.exc.sys)

/-- The path returned to user mode with status `st`: it ended in `ret_user_sysexit` and the
`p0` of the current EC holds the numeric value of `st`. -/
def Outcome.returns (o : Outcome) (st : Status) : Prop :=
  o.next = Transfer.ret_user_sysexit
    ∧ (o.state.ecs o.state.current).regs.exc.sys.p0 = st.to_underlying

instance (o : Outcome) (st : Status) : Decidable (o.returns st) := by
  unfold Outcome.returns
  infer_instance

/-- The function `Ec::reply (c)`: store `c` into the current EC's `cont`; a global EC
reschedules; otherwise the caller `rcap` is resumed if it is non-null and `clr_partner` returns
true, and the EC of the current SC is activated if not. `clr_partner` is evaluated only when
`ec` is non-null, and has no defined result when the `callee` of `ec` is null. -/
def reply (s : State) (c : Option Cont) : Option Outcome :=
  let s1 := s.set_cont s.current c
  if (s1.ecs s1.current).glb then
    some ⟨s1, Transfer.schedule true⟩
  else
    match (s1.ecs s1.current).rcap with
    | none => some ⟨s1, Transfer.activate (s1.scs s1.sc_current).ec⟩
    | some ec =>
      match clr_partner s1 ec with
      | none => none
      | some (s2, true) => some (make_current s2 ec)
      | some (s2, false) => some ⟨s2, Transfer.activate (s2.scs s2.sc_current).ec⟩

/-! ## Example states -/

/-- An EC at rest: no partner, no continuation, empty queue, zeroed registers, home CPU 0. -/
def ec0 : Ec :=
  { regs := { exc := { sys := ⟨0, 0, 0, 0, 0, 0⟩, ip := 0, ep := 0 }, hazard := 0, obj := 0 },
    evt := 0, cpu := 0, glb := false, callee := none, caller := none, cont := none,
    timeout := false, queue := [] }

/-- A state in which every EC is `ec0`, every object-space slot is empty, EC 0 is current and
no donation is outstanding. -/
def st0 : State :=
  { ecs := fun _ => ec0, scs := fun _ => ⟨0⟩, pts := fun _ => ⟨0, 0, 0, 0⟩,
    space_obj := fun _ _ => ⟨none, 0⟩, current := 0, sc_current := 0, donations := 0 }

/-- The state `st0` after EC 0 called EC 1: the two are partnered and one donation is
outstanding. -/
def st_partnered : State :=
  { st0 with
    ecs := fun p =>
      if p = 0 then { ec0 with callee := some 1, cont := some Cont.ret_user_sysexit }
      else if p = 1 then { ec0 with caller := some 0, cont := some Cont.recv_user }
      else ec0
    current := 1
    donations := 1 }

/-- Example decoders: the selector is `p0 >> 8`, the timeout flag is bit 4 of `p0`, the MTD is
`p1`; `help` never returns. -/
def env0 : Env :=
  { pt := fun r => r.p0 / 256, mtd := fun r => r.p1, timeout := fun r => (r.p0 / 16) % 2 == 1,
    help := fun _ _ _ => none }

/-- A client EC 0 about to call selector 5 with MTD 77, and a waiting server EC 1 on the same
CPU; selector 5 holds a callable capability for portal 9, which names EC 1. -/
def st_call : State :=
  { st0 with
    ecs := fun p =>
      if p = 0 then
        { ec0 with cont := some Cont.ret_user_sysexit, regs.exc.sys.p0 := 5 * 256,
                   regs.exc.sys.p1 := 77 }
      else ec0
    pts := fun p => if p = 9 then ⟨1, 4096, 3, 42⟩ else ⟨0, 0, 0, 0⟩
    space_obj := fun _ sel =>
      if sel = 5 then ⟨some ⟨Kobject_type.PT, 9⟩, Perm_pt.CALL⟩ else ⟨none, 0⟩ }

/-- As `st_call`, but the server EC 1 is busy and the call has the timeout flag set. -/
def st_busy : State :=
  { st_call with
    ecs := fun p =>
      if p = 0 then
        { ec0 with cont := some Cont.ret_user_sysexit, regs.exc.sys.p0 := 5 * 256 + 16,
                   regs.exc.sys.p1 := 77 }
      else if p = 1 then { ec0 with cont := some Cont.recv_user }
      else ec0 }

/-- As `st_call`, but the server EC 1 lives on CPU 1. -/
def st_remote : State :=
  { st_call with
    ecs := fun p =>
      if p = 0 then
        { ec0 with cont := some Cont.ret_user_sysexit, regs.exc.sys.p0 := 5 * 256,
                   regs.exc.sys.p1 := 77 }
      else if p = 1 then { ec0 with cpu := 1 }
      else ec0 }

/-- An EC with two SCs already queued. -/
def ec_queued : Ec := { ec0 with queue := [7, 8] }

/-! ## Sequences of block / unblock operations -/

/-- The operations that store into `cont`. -/
inductive BlockOp
  | block
  | unblock (c : Option Cont) (same_cpu : Bool)
  deriving DecidableEq, Repr

/-- Run one `block()` or `unblock(c, same_cpu)` on an EC. -/
def BlockOp.apply (e : Ec) : BlockOp → Ec
  | BlockOp.block => e.block
  | BlockOp.unblock c same_cpu => e.unblock c same_cpu

/-- Run a sequence of `block()` / `unblock(c, same_cpu)` operations on an EC, first to last. -/
def run_block_ops (e : Ec) (ops : List BlockOp) : Ec := ops.foldl BlockOp.apply e

/-! ## The partner invariant -/

/-- One hop along the partner chain: the callee pointer of `x` is `y`. -/
def callee_step (s : State) (x y : EcPtr) : Prop := (s.ecs x).callee = some y

/-- The partner-consistency predicate of the spec: every non-null callee points back to its
caller, and following callee pointers from any EC never comes back to an EC already visited. -/
def partner_consistent (s : State) : Prop :=
  (∀ a b, (s.ecs a).callee = some b → (s.ecs b).caller = some a)
  ∧ ∀ x, ¬ Relation.TransGen (callee_step s) x x

/-- The EC `y` is reachable from `x` through callee pointers (in zero or more hops). -/
def callee_reachable (s : State) (x y : EcPtr) : Prop :=
  Relation.ReflTransGen (callee_step s) x y

/-! ## The semaphore wakeup race -/

/-- The steps of the wakeup protocol documented above `Ec::block_sc`, at the granularity of
their accesses to the EC: `A: ec->block()` and `B: ec->block_sc()` on core X, `C: ec->unblock()`
and `D: ec->unblock_sc()` on core Y. A and C are one atomic store each. B takes the EC lock and
loads `cont` in `blocked()` (`B_test`), then returns false or enqueues the SC and returns true,
releasing the lock (`B_enq`). D holds the EC lock throughout. -/
inductive Step
  | A | B_test | B_enq | C | D
  deriving DecidableEq, Repr, Fintype

/-- What the two cores observe of one EC during the protocol: the EC itself, the value of
`blocked()` that B has read under the lock, the value returned by `block_sc` once B has
finished, and the SCs that D has handed to `Scheduler::unblock`. -/
structure Race where
  ec : Ec
  b_test : Option Bool
  b_result : Option Bool
  unblocked : List ScPtr
  deriving DecidableEq, Repr

/-- Run one step. `sc` is the current SC of core X (the one B enqueues), `c` the continuation
stored by C. -/
def Race.step (sc : ScPtr) (c : Cont) (same_cpu : Bool) (r : Race) : Step → Race
  | Step.A => { r with ec := r.ec.block }
  | Step.B_test => { r with b_test := some r.ec.blocked }
  | Step.B_enq =>
    match r.b_test with
    | none => r
    | some false => { r with b_result := some false }
    | some true =>
      { r with ec := { r.ec with queue := enqueue_tail r.ec.queue sc }, b_result := some true }
  | Step.C => { r with ec := r.ec.unblock (some c) same_cpu }
  | Step.D => { r with ec := r.ec.unblock_sc.1, unblocked := r.unblocked ++ r.ec.unblock_sc.2 }

/-- Run a sequence of steps, first to last. -/
def Race.run (sc : ScPtr) (c : Cont) (same_cpu : Bool) (r : Race) (l : List Step) : Race :=
  l.foldl (Race.step sc c same_cpu) r

/-- The protocol starts with nothing read, returned or handed over yet. -/
def Race.start (e : Ec) : Race := ⟨e, none, none, []⟩

/-- Step `x` runs before step `y` in the schedule `l`. -/
def before (x y : Step) (l : List Step) : Prop := l.indexOf x < l.indexOf y

instance (x y : Step) (l : List Step) : Decidable (before x y l) := by
  unfold before
  infer_instance

/-- The schedules the source allows: each step runs once; A before B, C before D, A before C;
B and D cannot run in parallel, so D does not fall between the two halves of B. -/
def interleaving (l : List Step) : Prop :=
  l.Perm [Step.A, Step.B_test, Step.B_enq, Step.C, Step.D]
    ∧ before Step.A Step.B_test l ∧ before Step.B_test Step.B_enq l
    ∧ before Step.C Step.D l ∧ before Step.A Step.C l
    ∧ ¬ (before Step.B_test Step.D l ∧ before Step.D Step.B_enq l)

/-! ## `syscall.cpp`: the dispatch table -/

/-- The table `syscall[16]` of system-call handlers, in source order. -/
def syscall : List Cont :=
  [ Cont.sys_call,
    Cont.sys_reply,
    Cont.sys_create_pd,
    Cont.sys_create_ec,
    Cont.sys_create_sc,
    Cont.sys_create_pt,
    Cont.sys_create_sm,
    Cont.sys_finish Status.BAD_HYP false,
    Cont.sys_ctrl_ec,
    Cont.sys_ctrl_sc,
    Cont.sys_ctrl_pt,
    Cont.sys_ctrl_sm,
    Cont.sys_ctrl_hw,
    Cont.sys_assign_int,
    Cont.sys_assign_dev,
    Cont.sys_finish Status.BAD_HYP false ]

/-- A current EC with a busy register frame, a queued SC and an armed hypercall timeout. -/
def st_frame : State :=
  { st0 with
    ecs := fun p =>
      if p = 0 then
        { ec0 with regs.exc.sys := ⟨7, 11, 12, 13, 14, 15⟩, regs.exc.ip := 64, timeout := true,
                   cont := some Cont.ret_user_sysexit, queue := [5] }
      else ec0 }

/-! ## `pd.hpp`: attaching spaces -/

/-- The space kinds of `Kobject::Subtype` that `syscall.cpp` switches on. -/
inductive Subtype
  | PD | OBJ | HST | GST | DMA | PIO | MSR
  deriving DecidableEq, Repr

/-- Modelled from the spec: the macro `BIT (n)` (its header is not under src/), the `unsigned`
value `1U << n` with bit `n` set. -/
def BIT (n : Nat) : Nat := 2 ^ n % 2 ^ UNSIGNED_BITS

/-- The bitwise complement `~x` of an `unsigned`. -/
def unsigned_not (x : Nat) : Nat := x ^^^ (2 ^ UNSIGNED_BITS - 1)

/-- Modelled from the spec: `Atomic<unsigned>::test_and_set (mask)` (`atomic.hpp` is not under
src/): in one atomic step, set the bits of `mask` and report whether one of them was set
before. -/
def test_and_set (v mask : Nat) : Nat × Bool := (v ||| mask, decide (v &&& mask ≠ 0))

/-- The fields of `class Pd` declared in `pd.hpp`: the bitset `spaces` and the three space
pointers. -/
structure Pd where
  spaces : Nat
  space_obj : Option Nat
  space_hst : Option Nat
  space_pio : Option Nat
  deriving DecidableEq, Repr

/-- The method `Pd::attach`: `return !spaces.test_and_set (BIT (std::to_underlying (s)))`. The
numeric values of the `Subtype` enumerators are declared outside src/; `u` gives them. -/
def Pd.attach (u : Subtype → Nat) (pd : Pd) (s : Subtype) : Pd × Bool :=
  let r := test_and_set pd.spaces (BIT (u s))
  ({ pd with spaces := r.1 }, !r.2)

/-- The method `Pd::detach`: `spaces &= ~BIT (std::to_underlying (s))`. -/
def Pd.detach (u : Subtype → Nat) (pd : Pd) (s : Subtype) : Pd :=
  { pd with spaces := pd.spaces &&& unsigned_not (BIT (u s)) }

/-- A call of `attach` or `detach` on a PD. -/
inductive PdOp
  | attach (s : Subtype)
  | detach (s : Subtype)
  deriving DecidableEq, Repr

/-- Run a sequence of `attach` / `detach` calls on a PD, first to last, and list the `attach`
calls with the value each returned. -/
def Pd.run (u : Subtype → Nat) : Pd → List PdOp → List (Subtype × Bool)
  | _, [] => []
  | pd, PdOp.attach s :: ops => (s, (pd.attach u s).2) :: Pd.run u (pd.attach u s).1 ops
  | pd, PdOp.detach s :: ops => Pd.run u (pd.detach u s) ops

/-- An example numbering of the space kinds. -/
def subtype_index : Subtype → Nat
  | Subtype.PD => 0
  | Subtype.OBJ => 1
  | Subtype.HST => 2
  | Subtype.GST => 3
  | Subtype.DMA => 4
  | Subtype.PIO => 5
  | Subtype.MSR => 6

/-- A PD to which nothing is attached. -/
def pd0 : Pd := ⟨0, none, none, none⟩

/-! ## `syscall.cpp`: `sys_ctrl_pt` and `send_msg` -/

/-- The arguments of `sys_ctrl_pt`, as the accessors `pt()` and `id()` of the view `Sys_ctrl_pt`
(declared outside src/) read them from the syscall frame of the current EC before the frame is
written. -/
structure Sys_ctrl_pt where
  pt : Nat
  id : Nat
  deriving DecidableEq, Repr

/-- Modelled from the spec: `Pt::set_id` (`pt.hpp` is not under src/) mutates only the badge ID
of the portal, in place. -/
def State.set_id (s : State) (p : PtPtr) (v : Nat) : State :=
  { s with pts := Function.update s.pts p { s.pts p with id := v } }

/-- The function `Ec::sys_ctrl_pt`: look up the selector, require `Perm_pt::CTRL` (else
BAD_CAP), set the badge ID of the portal, finish with SUCCESS. -/
def sys_ctrl_pt (r : Sys_ctrl_pt) (s : State) : Option Outcome :=
  let obj := (s.ecs s.current).regs.obj
  let cpt := s.space_obj obj r.pt
  if !cpt.validate Kobject_type.PT Perm_pt.CTRL then
    some (sys_finish Status.BAD_CAP false s)
  else
    match cpt.obj with
    | none => none
    | some o =>
      let s1 := s.set_id o.ptr r.id
      some (sys_finish Status.SUCCESS false s1)

/-- Width of the machine word (`unsigned long`, `uintptr_t`) on x86_64. -/
def WORD_BITS : Nat := 64

/-- The selector `current->evt + r.ep()` that `send_msg` looks up, an `unsigned long` sum. -/
def event_sel (s : State) : Nat :=
  ((s.ecs s.current).evt + (s.ecs s.current).regs.exc.ep) % 2 ^ WORD_BITS

/-- The capability `cpt` that `send_msg` looks up in the object space of the current EC. -/
def event_cap (s : State) : Capability :=
  s.space_obj (s.ecs s.current).regs.obj (event_sel s)

/-- The function `Ec::send_msg<C>`. `die (msg)` is declared outside src/ and ends the path; the
path also ends in `die ("IPC Timeout")` when `help` returns. -/
def send_msg (C : Cont) (env : Env) (s : State) : Option Outcome :=
  let r := (s.ecs s.current).regs.exc
  let obj := (s.ecs s.current).regs.obj
  let cpt := s.space_obj obj (((s.ecs s.current).evt + r.ep) % 2 ^ WORD_BITS)
  if !cpt.validate Kobject_type.PT Perm_pt.EVENT then
    some ⟨s, Transfer.die "PT not found"⟩
  else
    match cpt.obj with
    | none => none
    | some o =>
      let pt := s.pts o.ptr
      let ec := pt.ec
      if (s.ecs s.current).cpu != (s.ecs ec).xcpu then
        some ⟨s, Transfer.die "PT wrong CPU"⟩
      else if (s.ecs ec).cont = none then
        let s1 := s.set_cont s.current (some C)
        let s2 := set_partner s1 s1.current ec
        let s3 := s2.set_cont ec (some Cont.recv_kern)
        let s4 := s3.set_ip ec (s3.pts o.ptr).ip
        let s5 := s4.set_p0 ec (s4.pts o.ptr).id
        let s6 := s5.set_p1 ec (s5.pts o.ptr).mtd
        some (make_current s6 ec)
      else
        match env.help ec (Cont.send_msg C) s with
        | none => some ⟨s, Transfer.help ec (Cont.send_msg C)⟩
        | some s' => some ⟨s', Transfer.die "IPC Timeout"⟩

/-- An EC 0 with event base 32 taking exception vector 3, and a waiting server EC 1 on the same
CPU; selector 35 holds an event capability for portal 9, which names EC 1; selector 5 holds a
control capability for the same portal. -/
def st_event : State :=
  { st0 with
    ecs := fun p =>
      if p = 0 then
        { ec0 with cont := some (Cont.send_msg Cont.ret_user_iret), evt := 32,
                   regs.exc.ep := 3, regs.exc.sys.p1 := 77 }
      else ec0
    pts := fun p => if p = 9 then ⟨1, 4096, 3, 42⟩ else ⟨0, 0, 0, 0⟩
    space_obj := fun _ sel =>
      if sel = 35 then ⟨some ⟨Kobject_type.PT, 9⟩, Perm_pt.EVENT⟩
      else if sel = 5 then ⟨some ⟨Kobject_type.PT, 9⟩, Perm_pt.CTRL⟩
      else ⟨none, 0⟩ }

/-- As `st_event`, but the server EC 1 lives on CPU 1. -/
def st_event_remote : State :=
  { st_event with
    ecs := fun p =>
      if p = 0 then { ec0 with cont := some Cont.ret_user_sysexit, evt := 32, regs.exc.ep := 3 }
      else if p = 1 then { ec0 with cpu := 1 }
      else ec0 }

/-! ## `syscall.cpp`: object creation and control -/

/-- The interrupt requests of `Interrupt::Request` that `syscall.cpp` sends. -/
inductive Request
  | RKE
  deriving DecidableEq, Repr

/-- A call into a collaborating subsystem, recorded when it is made: `Interrupt::send_cpu`,
`Interrupt::send_exc`, `Acpi::set_transition`, `Smmu::configure` and `Sc::remote_enqueue`
(invoked on the SC at `sc`). -/
inductive Event
  | send_cpu (r : Request) (cpu : Nat)
  | send_exc (r : Request)
  | set_transition (t : Nat)
  | configure (smmu : Nat) (dma : Option Kobject_ref) (dad : Nat)
  | remote_enqueue (sc : ScPtr)
  deriving DecidableEq, Repr

/-- The kernel state around the IPC state `st`: the PD heap, the kernel objects allocated so
far, the executing CPU `Cpu::id`, its hazards `Cpu::hazard`, the current EC of every CPU as
`Ec::remote_current` reads it, the object space of the root PD `Pd::root->get_obj()`, and the
calls made into collaborating subsystems, oldest first. -/
structure Kern where
  st : State
  pds : Nat → Pd
  live : List Kobject_ref
  cpu_id : Nat
  cpu_hazard : Nat
  remote_current : Nat → EcPtr
  root_obj : Nat
  events : List Event

/-- What a syscall leaves behind: the kernel state, and the function it transferred control
to. -/
structure Kout where
  k : Kern
  next : Transfer

/-- The syscall returned to user mode with status `st`. -/
def Kout.returns (o : Kout) (st : Status) : Prop :=
  o.next = Transfer.ret_user_sysexit
    ∧ (o.k.st.ecs o.k.st.current).regs.exc.sys.p0 = st.to_underlying

instance (o : Kout) (st : Status) : Decidable (o.returns st) := by
  unfold Kout.returns
  infer_instance

/-- Run `sys_finish<S, T>` in the kernel state `k`. -/
def Kern.finish (k : Kern) (S : Status) (T : Bool) : Kout :=
  ⟨{ k with st := (sys_finish S T k.st).state }, (sys_finish S T k.st).next⟩

/-- Run `current->sys_finish_status (S)` in the kernel state `k`. -/
def Kern.finish_status (k : Kern) (S : Status) : Kout :=
  ⟨{ k with st := (sys_finish_status k.st k.st.current S).state },
   (sys_finish_status k.st k.st.current S).next⟩

/-- Record a call into a collaborating subsystem. -/
def Kern.log (k : Kern) (e : Event) : Kern := { k with events := k.events ++ [e] }

/-- The arguments of a `delegate` call on a destination space: the class of the destination
space, the destination and source objects of the two capabilities, and the range, permission
mask and (for a host-space source) memory attributes. -/
structure Delegate_args where
  kind : Subtype
  dst : Option Kobject_ref
  src : Option Kobject_ref
  ssb : Nat
  dsb : Nat
  ord : Nat
  pmm : Nat
  ma : Option Nat
  deriving DecidableEq, Repr

/-- The constants and collaborators of the syscall layer that are declared outside src/:
`Hip::hip->cpu_online` and `Hip::hip->feature`, the feature masks `Hip::FEAT_VMX` and
`Hip::FEAT_SVM`, `Space_hst::selectors()` and `PAGE_BITS`, the bit positions of the hazards
`Hazard::RECALL` and `Hazard::SLEEP`, `Acpi_fixed::supported`, the result of
`Acpi::set_transition`, `Smmu::lookup`, the result of `Smmu::configure`, the validation of a
space capability against `Perm_sp::ASSIGN` and a subtype, `Capability::validate_take_grant`
(which yields the source and destination subtypes when it accepts), the address of
`Space_hst::nova`, `Memattr::valid`, the `delegate` operations of the spaces, the address
returned by `new Ec`, and the `Ec` constructor called by `sys_create_ec`. -/
structure Hw where
  cpu_online : Nat → Bool
  feature : Nat
  feat_vmx : Nat
  feat_svm : Nat
  hst_selectors : Nat
  page_bits : Nat
  recall_bit : Nat
  sleep_bit : Nat
  supported : Nat → Bool
  set_transition : Nat → Bool
  smmu_lookup : Nat → Option Nat
  configure : Nat → Option Kobject_ref → Nat → Bool
  validate_assign : Capability → Subtype → Bool
  validate_take_grant : Capability → Capability → Option (Subtype × Subtype)
  nova_hst : Nat
  ma_valid : Nat → Bool
  delegate : Delegate_args → Kern → Status × Kern
  ec_new : Kern → EcPtr
  ec_ctor : Option Nat → Option Nat → Option Nat → Nat → Option Cont →
    Nat → Nat → Nat → Nat → Ec

/-- The hazard `Hazard::RECALL`, one bit of the hazard bitset. -/
def Hw.RECALL (hw : Hw) : Nat := 2 ^ hw.recall_bit

/-- The hazard `Hazard::SLEEP`, one bit of the hazard bitset. -/
def Hw.SLEEP (hw : Hw) : Nat := 2 ^ hw.sleep_bit

/-- Modelled from the spec: the `Perm_ec::CTRL` permission bit (`capability.hpp` is not under
src/; the value stands for the one of the header). -/
def Perm_ec.CTRL : Nat := 1

/-- Modelled from the spec: the `Perm_pd::EC` permission bit (`capability.hpp` is not under
src/; the value stands for the one of the header). -/
def Perm_pd.EC : Nat := 2

/-- Modelled from the spec: the permission set `Perm_ec::DEFINED` given to a new EC capability
(`capability.hpp` is not under src/; the value stands for the one of the header). -/
def Perm_ec.DEFINED : Nat := 31

/-- The arguments of `sys_ctrl_ec`, as the accessor `ec()` of the view `Sys_ctrl_ec` (declared
outside src/) reads them from the syscall frame of the current EC. -/
structure Sys_ctrl_ec where
  ec : Nat
  deriving DecidableEq, Repr

/-- The store `ec->regs.hazard.set (h)`: the bits of `h` are added to the hazards of the EC. -/
def State.set_hazard (s : State) (p : EcPtr) (h : Nat) : State :=
  s.set_ec p { s.ecs p with regs.hazard := (s.ecs p).regs.hazard ||| h }

/-- The function `Ec::sys_ctrl_ec`: look up the selector, require `Perm_ec::CTRL` (else
BAD_CAP); if the EC has no RECALL hazard yet, set it and, when the EC belongs to another CPU
and is the current EC there, send that CPU the RKE interrupt; finish with SUCCESS. -/
def sys_ctrl_ec (hw : Hw) (r : Sys_ctrl_ec) (k : Kern) : Option Kout :=
  let obj := (k.st.ecs k.st.current).regs.obj
  let cec := k.st.space_obj obj r.ec
  if !cec.validate Kobject_type.EC Perm_ec.CTRL then
    some (k.finish Status.BAD_CAP false)
  else
    match cec.obj with
    | none => none
    | some o =>
      let ec := o.ptr
      if (k.st.ecs ec).regs.hazard &&& hw.RECALL = 0 then
        let k1 := { k with st := k.st.set_hazard ec hw.RECALL }
        let k2 :=
          if k1.cpu_id != (k1.st.ecs ec).cpu && k1.remote_current (k1.st.ecs ec).cpu == ec then
            k1.log (Event.send_cpu Request.RKE (k1.st.ecs ec).cpu)
          else k1
        some (k2.finish Status.SUCCESS false)
      else
        some (k.finish Status.SUCCESS false)

/-- The arguments of `sys_ctrl_hw`, as the accessors `op()` and `desc()` of the view
`Sys_ctrl_hw` (declared outside src/) read them from the syscall frame of the current EC. -/
structure Sys_ctrl_hw where
  op : Nat
  desc : Nat
  deriving DecidableEq, Repr

/-- The function `Ec::sys_ctrl_hw`: BAD_HYP unless the object space of the caller is the one of
the root PD; BAD_PAR for an operation other than 0; for operation 0, with `t` the low 16 bits of
`desc`: BAD_FTR if `t` is not supported, ABORTED if `Acpi::set_transition (t)` fails, otherwise
broadcast the RKE interrupt, add the SLEEP hazard to `Cpu::hazard` and finish with SUCCESS. -/
def sys_ctrl_hw (hw : Hw) (r : Sys_ctrl_hw) (k : Kern) : Kout :=
  let obj := (k.st.ecs k.st.current).regs.obj
  if obj != k.root_obj then
    k.finish_status Status.BAD_HYP
  else if r.op = 0 then
    let t := r.desc % 2 ^ 16
    if !hw.supported t then
      k.finish_status Status.BAD_FTR
    else
      let k1 := k.log (Event.set_transition t)
      if !hw.set_transition t then
        k1.finish_status Status.ABORTED
      else
        let k2 := k1.log (Event.send_exc Request.RKE)
        let k3 := { k2 with cpu_hazard := k2.cpu_hazard ||| hw.SLEEP }
        k3.finish_status Status.SUCCESS
  else
    k.finish_status Status.BAD_PAR

/-- The arguments of `sys_assign_dev`, as the accessors `dma()`, `smmu()` and `dad()` of the view
`Sys_assign_dev` (declared outside src/) read them from the syscall frame of the current EC. -/
structure Sys_assign_dev where
  dma : Nat
  smmu : Nat
  dad : Nat
  deriving DecidableEq, Repr

/-- The function `Ec::sys_assign_dev`: BAD_HYP unless the object space of the caller is the one
of the root PD; BAD_CAP unless the selector holds a DMA space capability with
`Perm_sp::ASSIGN`; BAD_DEV if `Smmu::lookup` finds no SMMU; BAD_PAR if `configure` fails;
otherwise SUCCESS. -/
def sys_assign_dev (hw : Hw) (r : Sys_assign_dev) (k : Kern) : Kout :=
  let obj := (k.st.ecs k.st.current).regs.obj
  if obj != k.root_obj then
    k.finish_status Status.BAD_HYP
  else
    let csp := k.st.space_obj obj r.dma
    if !hw.validate_assign csp Subtype.DMA then
      k.finish_status Status.BAD_CAP
    else
      match hw.smmu_lookup r.smmu with
      | none => k.finish_status Status.BAD_DEV
      | some smmu =>
        let k1 := k.log (Event.configure smmu csp.obj r.dad)
        if !hw.configure smmu csp.obj r.dad then
          k1.finish_status Status.BAD_PAR
        else
          k1.finish_status Status.SUCCESS

/-- The arguments of `sys_create_ec`, as the accessors of the view `Sys_create_ec` (declared
outside src/) read them from the syscall frame of the current EC. -/
structure Sys_create_ec where
  sel : Nat
  pd : Nat
  cpu : Nat
  utcb : Nat
  esp : Nat
  evt : Nat
  type : Bool
  deriving DecidableEq, Repr

/-- Modelled from the spec: `Space_obj::insert (sel, cap)` (`space_obj.hpp` is not under src/)
inserts only into an empty slot and returns SUCCESS; otherwise it fails with BAD_CAP without
mutation. -/
def State.insert (s : State) (obj sel : Nat) (c : Capability) : State × Status :=
  if (s.space_obj obj sel).obj = none then
    ({ s with space_obj := (Function.update s.space_obj obj
        (Function.update (s.space_obj obj) sel c)) }, Status.SUCCESS)
  else (s, Status.BAD_CAP)

/-- The bound `Space_hst::selectors() << PAGE_BITS` on UTCB addresses, a machine word. -/
def Hw.utcb_limit (hw : Hw) : Nat := (hw.hst_selectors <<< hw.page_bits) % 2 ^ WORD_BITS

/-- The test `Hip::hip->feature() & (Hip::FEAT_VMX | Hip::FEAT_SVM)`. -/
def Hw.virt (hw : Hw) : Nat := hw.feature &&& (hw.feat_vmx ||| hw.feat_svm)

/-- The function `Ec::sys_create_ec`: BAD_CPU if the CPU is not online; BAD_PAR if the UTCB
address is not below the bound; BAD_FTR if the UTCB address is 0 and the hardware has neither
VMX nor SVM; BAD_CAP if the PD selector does not validate for `Perm_pd::EC`; then a new EC is
constructed and a capability for it inserted at `sel`; if the insertion fails the EC is
destroyed and the status is BAD_CAP, otherwise SUCCESS. -/
def sys_create_ec (hw : Hw) (r : Sys_create_ec) (k : Kern) : Option Kout :=
  if !hw.cpu_online r.cpu then
    some (k.finish Status.BAD_CPU false)
  else if r.utcb ≥ hw.utcb_limit then
    some (k.finish Status.BAD_PAR false)
  else if r.utcb = 0 ∧ hw.virt = 0 then
    some (k.finish Status.BAD_FTR false)
  else
    let obj := (k.st.ecs k.st.current).regs.obj
    let cpd := k.st.space_obj obj r.pd
    if !cpd.validate Kobject_type.PD Perm_pd.EC then
      some (k.finish Status.BAD_CAP false)
    else
      match cpd.obj with
      | none => none
      | some o =>
        let pd := k.pds o.ptr
        let p := hw.ec_new k
        let e := hw.ec_ctor pd.space_obj pd.space_hst pd.space_pio r.sel
          (if r.type then some (Cont.send_msg Cont.ret_user_iret) else none)
          r.cpu r.evt r.utcb r.esp
        let k1 := { k with st := k.st.set_ec p e,
                           live := k.live ++ [Kobject_ref.mk Kobject_type.EC p] }
        let ins := k1.st.insert (k1.st.ecs k1.st.current).regs.obj r.sel
          ⟨some ⟨Kobject_type.EC, p⟩, Perm_ec.DEFINED⟩
        let k2 := { k1 with st := ins.1 }
        if ins.2 != Status.SUCCESS then
          let k3 := { k2 with live := k2.live.erase (Kobject_ref.mk Kobject_type.EC p) }
          some (k3.finish Status.BAD_CAP false)
        else
          some (k2.finish Status.SUCCESS false)

/-- The arguments of `sys_ctrl_pd`, as the accessors of the view `Sys_ctrl_pd` (declared outside
src/) read them from the syscall frame of the current EC. -/
structure Sys_ctrl_pd where
  src : Nat
  dst : Nat
  ssb : Nat
  dsb : Nat
  ord : Nat
  pmm : Nat
  ma : Nat
  deriving DecidableEq, Repr

/-- Modelled from the spec: the macro `BITN (n)` (its header is not under src/), the machine
word `2 ^ n`; the spec writes the alignment mask `BITN (ord) - 1` as `2^order - 1`. -/
def BITN (n : Nat) : Nat := 2 ^ n % 2 ^ WORD_BITS

/-- The alignment test of `sys_ctrl_pd`: `(r.ssb() | r.dsb()) & (BITN (r.ord()) - 1)`. -/
def Sys_ctrl_pd.misalignment (r : Sys_ctrl_pd) : Nat :=
  (r.ssb ||| r.dsb) &&& ((BITN r.ord + 2 ^ WORD_BITS - 1) % 2 ^ WORD_BITS)

/-- Call the `delegate` operation of the destination space and finish with its status. -/
def Kern.delegate (k : Kern) (hw : Hw) (a : Delegate_args) : Kout :=
  (hw.delegate a k).2.finish_status (hw.delegate a k).1

/-- The part of `Ec::sys_ctrl_pd` after the alignment check: look up the source and destination
capabilities, let `validate_take_grant` determine their subtypes, and call the `delegate` of
the destination space for the supported pairs; BAD_PAR for invalid memory attributes on the
kernel's own host space, BAD_CAP for everything else. -/
def sys_ctrl_pd_dispatch (hw : Hw) (r : Sys_ctrl_pd) (k : Kern) : Kout :=
  let obj := (k.st.ecs k.st.current).regs.obj
  let cst := k.st.space_obj obj r.src
  let cdt := k.st.space_obj obj r.dst
  match hw.validate_take_grant cst cdt with
  | some (st, dt) =>
    if st = Subtype.HST then
      if cst.obj.map Kobject_ref.ptr = some hw.nova_hst ∧ hw.ma_valid r.ma = false then
        k.finish_status Status.BAD_PAR
      else if dt = Subtype.HST then
        k.delegate hw ⟨Subtype.HST, cdt.obj, cst.obj, r.ssb, r.dsb, r.ord, r.pmm, some r.ma⟩
      else if dt = Subtype.GST then
        k.delegate hw ⟨Subtype.GST, cdt.obj, cst.obj, r.ssb, r.dsb, r.ord, r.pmm, some r.ma⟩
      else if dt = Subtype.DMA then
        k.delegate hw ⟨Subtype.DMA, cdt.obj, cst.obj, r.ssb, r.dsb, r.ord, r.pmm, some r.ma⟩
      else
        k.finish_status Status.BAD_CAP
    else if st = Subtype.OBJ ∧ dt = st then
      k.delegate hw ⟨Subtype.OBJ, cdt.obj, cst.obj, r.ssb, r.dsb, r.ord, r.pmm, none⟩
    else if st = Subtype.PIO ∧ dt = st then
      k.delegate hw ⟨Subtype.PIO, cdt.obj, cst.obj, r.ssb, r.dsb, r.ord, r.pmm, none⟩
    else if st = Subtype.MSR ∧ dt = st then
      k.delegate hw ⟨Subtype.MSR, cdt.obj, cst.obj, r.ssb, r.dsb, r.ord, r.pmm, none⟩
    else
      k.finish_status Status.BAD_CAP
  | none => k.finish_status Status.BAD_CAP

/-- The function `Ec::sys_ctrl_pd`: BAD_PAR if the alignment test is non-zero, before anything
else; otherwise the dispatch on the capabilities. -/
def sys_ctrl_pd (hw : Hw) (r : Sys_ctrl_pd) (k : Kern) : Kout :=
  if r.misalignment ≠ 0 then
    k.finish_status Status.BAD_PAR
  else
    sys_ctrl_pd_dispatch hw r k

/-- Example hardware: CPUs 0 and 1 online, no virtualization feature, 2 ^ 35 host selectors of
4 KiB pages, RECALL and SLEEP as bits 3 and 1, every ACPI transition supported and successful,
one SMMU (number 0) that accepts every configuration, space capabilities recognised by their
permission bit 1, take-grant accepting object spaces only, allocation at address 50. -/
def hw0 : Hw :=
  { cpu_online := fun c => decide (c < 2)
    feature := 1
    feat_vmx := 2
    feat_svm := 4
    hst_selectors := 2 ^ 35
    page_bits := 12
    recall_bit := 3
    sleep_bit := 1
    supported := fun _ => true
    set_transition := fun _ => true
    smmu_lookup := fun i => if i = 0 then some 0 else none
    configure := fun _ _ _ => true
    validate_assign := fun c _ => decide (c.prm &&& 1 = 1)
    validate_take_grant := fun _ _ => some (Subtype.OBJ, Subtype.OBJ)
    nova_hst := 0
    ma_valid := fun _ => true
    delegate := fun _ k => (Status.SUCCESS, k)
    ec_new := fun _ => 50
    ec_ctor := fun _ _ _ _ f c e _ _ => { ec0 with cont := f, cpu := c, evt := e } }

/-- The kernel state around `st0` on CPU 0: no PD has a space attached, no object is allocated,
no hazard is pending, EC 0 is current on every CPU, the root object space is number 0, and no
call into a collaborating subsystem has been made. -/
def k0 : Kern :=
  { st := st0, pds := fun _ => pd0, live := [], cpu_id := 0, cpu_hazard := 0,
    remote_current := fun _ => 0, root_obj := 0, events := [] }

/-- A caller EC 0 on CPU 0 whose object space (number 7) is not the root object space, holding
at selector 5 a control capability for EC 2, which is the current EC of its home CPU 1. -/
def k_recall : Kern :=
  { k0 with
    st :=
      { st0 with
        ecs := fun p =>
          if p = 0 then { ec0 with regs.obj := 7, regs.exc.sys.p0 := 88 }
          else if p = 2 then { ec0 with cpu := 1, regs.hazard := 4 }
          else ec0
        space_obj := fun _ sel =>
          if sel = 5 then ⟨some ⟨Kobject_type.EC, 2⟩, Perm_ec.CTRL⟩ else ⟨none, 0⟩ }
    remote_current := fun c => if c = 1 then 2 else 0 }

/-! ## `syscall.cpp`: `activate` -/

/-- What `Ec::activate` leaves behind: the state, the function it transferred control to, the
value of the CPU-local hop counter `Sc::ctr_link`, and the value returned by `block_sc ()` if
it was called. -/
structure Activated where
  state : State
  next : Transfer
  ctr_link : Nat
  block_sc : Option Bool

/-- The loop of `Ec::activate`, entered with the EC `ec` and the counter at `ctr`:
`for (Sc::ctr_link = 0; ec->partner; ec = ec->partner) Sc::ctr_link++`. It yields the EC the
loop stops at and the counter. The first argument bounds the number of times the loop condition
is evaluated; the result is `none` if that bound is reached.
Modelled from the spec: `Sc::ctr_link` (`sc.hpp` is not under src/) is a per-CPU hop counter;
it is taken to be an `unsigned`, like `Ec::donations`. -/
def activate_loop (s : State) : Nat → EcPtr → Nat → Option (EcPtr × Nat)
  | 0, _, _ => none
  | fuel + 1, ec, ctr =>
    match (s.ecs ec).partner with
    | some p => activate_loop s fuel p ((ctr + 1) % 2 ^ UNSIGNED_BITS)
    | none => some (ec, ctr)

/-- The function `Ec::activate`, invoked on the EC at `e`, read with the `block_sc` of
`nova/inc/ec.hpp`: walk the partner chain to its end `ec`; `if (ec->blocked ())
ec->block_sc ();` then `ec->make_current ()`. The value returned by `block_sc` is not used.
The same function with the `block_sc` it is written against is `activate_resched`. -/
def activate (fuel : Nat) (s : State) (e : EcPtr) : Option Activated :=
  match activate_loop s fuel e 0 with
  | none => none
  | some (ec, ctr) =>
    if (s.ecs ec).blocked then
      let b := (s.ecs ec).block_sc s.sc_current
      let s1 := s.set_ec ec b.1
      some ⟨(make_current s1 ec).state, (make_current s1 ec).next, ctr, some b.2⟩
    else
      some ⟨(make_current s ec).state, (make_current s ec).next, ctr, none⟩

/-- The partner chain that starts at `e`: `l` lists the ECs after `e`, each the partner of the
one before it, and the last EC of the chain has no partner. -/
def partner_chain (s : State) : EcPtr → List EcPtr → Prop
  | e, [] => (s.ecs e).partner = none
  | e, x :: l => (s.ecs e).partner = some x ∧ partner_chain s x l

/-- Whether `l` is the partner chain of `e` can be computed by following the chain. -/
def partner_chain_dec (s : State) : (e : EcPtr) → (l : List EcPtr) → Decidable (partner_chain s e l)
  | e, [] => inferInstanceAs (Decidable ((s.ecs e).partner = none))
  | e, x :: l =>
    @instDecidableAnd ((s.ecs e).partner = some x) (partner_chain s x l) inferInstance
      (partner_chain_dec s x l)

instance (s : State) (e : EcPtr) (l : List EcPtr) : Decidable (partner_chain s e l) :=
  partner_chain_dec s e l

/-- A state in which EC 0 called EC 1 and EC 1 called EC 2, which is running `recv_user`. -/
def st_chain : State :=
  { st0 with
    ecs := fun p =>
      if p = 0 then { ec0 with callee := some 1, cont := some Cont.ret_user_sysexit }
      else if p = 1 then
        { ec0 with caller := some 0, callee := some 2, cont := some Cont.ret_user_sysexit }
      else if p = 2 then { ec0 with caller := some 1, cont := some Cont.recv_user }
      else ec0
    current := 2
    sc_current := 6
    donations := 2 }

/-! ## `syscall.cpp`: creating SCs, portals and semaphores -/

/-- Modelled from the spec: the `Perm_pd::SC` permission bit (`capability.hpp` is not under
src/; the value stands for the one of the header). -/
def Perm_pd.SC : Nat := 4

/-- Modelled from the spec: the `Perm_pd::PT` permission bit (`capability.hpp` is not under
src/; the value stands for the one of the header). -/
def Perm_pd.PT : Nat := 8

/-- Modelled from the spec: the `Perm_pd::SM` permission bit (`capability.hpp` is not under
src/; the value stands for the one of the header). -/
def Perm_pd.SM : Nat := 16

/-- Modelled from the spec: the `Perm_ec::BIND_PT` permission bit (`capability.hpp` is not under
src/; the value stands for the one of the header). -/
def Perm_ec.BIND_PT : Nat := 4

/-- Modelled from the spec: the `Perm_ec::BIND_SC` permission bit (`capability.hpp` is not under
src/; the value stands for the one of the header). -/
def Perm_ec.BIND_SC : Nat := 8

/-- Modelled from the spec: the permission set `Perm_sc::DEFINED` given to a new SC capability
(`capability.hpp` is not under src/; the value stands for the one of the header). -/
def Perm_sc.DEFINED : Nat := 1

/-- Modelled from the spec: the permission set `Perm_pt::DEFINED` given to a new portal
capability (`capability.hpp` is not under src/; the value stands for the one of the header). -/
def Perm_pt.DEFINED : Nat := 7

/-- Modelled from the spec: the permission set `Perm_sm::DEFINED` given to a new semaphore
capability (`capability.hpp` is not under src/; the value stands for the one of the header). -/
def Perm_sm.DEFINED : Nat := 7

/-- The allocators and constructors of SCs, portals and semaphores, which are declared outside
src/: the addresses returned by `new Sc`, `new Pt` and `new Sm`, and the objects built by the
constructors `Sc (pd, sel, ec, cpu, prio, quantum)` and `Pt (pd, sel, ec, mtd, eip)` from their
arguments other than the owning PD. The contents of a semaphore are not represented. -/
structure Slab where
  sc_new : Kern → ScPtr
  pt_new : Kern → PtPtr
  sm_new : Kern → Nat
  sc_ctor : Nat → EcPtr → Nat → Nat → Nat → Sc
  pt_ctor : Nat → EcPtr → Nat → Nat → Pt

/-- The arguments of `sys_create_sc`, as the accessors of the view `Sys_create_sc` (declared
outside src/) read them from the syscall frame of the current EC; `prio` and `quantum` are
`r.qpd ().prio ()` and `r.qpd ().quantum ()`. -/
structure Sys_create_sc where
  sel : Nat
  pd : Nat
  ec : Nat
  prio : Nat
  quantum : Nat
  deriving DecidableEq, Repr

/-- The function `Ec::sys_create_sc`: BAD_CAP if the PD selector does not validate for
`Perm_pd::SC`, if the EC selector does not validate for `Perm_ec::BIND_SC`, or if the EC is not
`glb`; BAD_PAR if the priority or the quantum is zero; then a new SC is constructed and a
capability for it inserted at `sel`; if the insertion fails the SC is destroyed and the status
is BAD_CAP, otherwise the SC is enqueued with `remote_enqueue` and the status is SUCCESS. -/
def sys_create_sc (sl : Slab) (r : Sys_create_sc) (k : Kern) : Option Kout :=
  let obj := (k.st.ecs k.st.current).regs.obj
  let cpd := k.st.space_obj obj r.pd
  let cec := k.st.space_obj obj r.ec
  if !cpd.validate Kobject_type.PD Perm_pd.SC then
    some (k.finish Status.BAD_CAP false)
  else if !cec.validate Kobject_type.EC Perm_ec.BIND_SC then
    some (k.finish Status.BAD_CAP false)
  else
    match cec.obj with
    | none => none
    | some o =>
      let ec := o.ptr
      if !(k.st.ecs ec).glb then
        some (k.finish Status.BAD_CAP false)
      else if r.prio = 0 ∨ r.quantum = 0 then
        some (k.finish Status.BAD_PAR false)
      else
        let p := sl.sc_new k
        let sc := sl.sc_ctor r.sel ec (k.st.ecs ec).cpu r.prio r.quantum
        let k1 := { k with st := { k.st with scs := Function.update k.st.scs p sc },
                           live := k.live ++ [Kobject_ref.mk Kobject_type.SC p] }
        let ins := k1.st.insert (k1.st.ecs k1.st.current).regs.obj r.sel
          ⟨some ⟨Kobject_type.SC, p⟩, Perm_sc.DEFINED⟩
        let k2 := { k1 with st := ins.1 }
        if ins.2 != Status.SUCCESS then
          let k3 := { k2 with live := k2.live.erase (Kobject_ref.mk Kobject_type.SC p) }
          some (k3.finish Status.BAD_CAP false)
        else
          let k3 := k2.log (Event.remote_enqueue p)
          some (k3.finish Status.SUCCESS false)

/-- The arguments of `sys_create_pt`, as the accessors of the view `Sys_create_pt` (declared
outside src/) read them from the syscall frame of the current EC. -/
structure Sys_create_pt where
  sel : Nat
  pd : Nat
  ec : Nat
  mtd : Nat
  eip : Nat
  deriving DecidableEq, Repr

/-- The function `Ec::sys_create_pt`: BAD_CAP if the PD selector does not validate for
`Perm_pd::PT`, if the EC selector does not validate for `Perm_ec::BIND_PT`, or if the EC is
`glb`; then a new portal is constructed and a capability for it inserted at `sel`; if the
insertion fails the portal is destroyed and the status is BAD_CAP, otherwise SUCCESS. -/
def sys_create_pt (sl : Slab) (r : Sys_create_pt) (k : Kern) : Option Kout :=
  let obj := (k.st.ecs k.st.current).regs.obj
  let cpd := k.st.space_obj obj r.pd
  let cec := k.st.space_obj obj r.ec
  if !cpd.validate Kobject_type.PD Perm_pd.PT then
    some (k.finish Status.BAD_CAP false)
  else if !cec.validate Kobject_type.EC Perm_ec.BIND_PT then
    some (k.finish Status.BAD_CAP false)
  else
    match cec.obj with
    | none => none
    | some o =>
      let ec := o.ptr
      if (k.st.ecs ec).glb then
        some (k.finish Status.BAD_CAP false)
      else
        let p := sl.pt_new k
        let pt := sl.pt_ctor r.sel ec r.mtd r.eip
        let k1 := { k with st := { k.st with pts := Function.update k.st.pts p pt },
                           live := k.live ++ [Kobject_ref.mk Kobject_type.PT p] }
        let ins := k1.st.insert (k1.st.ecs k1.st.current).regs.obj r.sel
          ⟨some ⟨Kobject_type.PT, p⟩, Perm_pt.DEFINED⟩
        let k2 := { k1 with st := ins.1 }
        if ins.2 != Status.SUCCESS then
          let k3 := { k2 with live := k2.live.erase (Kobject_ref.mk Kobject_type.PT p) }
          some (k3.finish Status.BAD_CAP false)
        else
          some (k2.finish Status.SUCCESS false)

/-- The arguments of `sys_create_sm`, as the accessors of the view `Sys_create_sm` (declared
outside src/) read them from the syscall frame of the current EC. -/
structure Sys_create_sm where
  sel : Nat
  pd : Nat
  cnt : Nat
  deriving DecidableEq, Repr

/-- The function `Ec::sys_create_sm`: BAD_CAP if the PD selector does not validate for
`Perm_pd::SM`; then a new semaphore is constructed and a capability for it inserted at `sel`;
if the insertion fails the semaphore is destroyed and the status is BAD_CAP, otherwise
SUCCESS. -/
def sys_create_sm (sl : Slab) (r : Sys_create_sm) (k : Kern) : Kout :=
  let obj := (k.st.ecs k.st.current).regs.obj
  let cpd := k.st.space_obj obj r.pd
  if !cpd.validate Kobject_type.PD Perm_pd.SM then
    k.finish Status.BAD_CAP false
  else
    let p := sl.sm_new k
    let k1 := { k with live := k.live ++ [Kobject_ref.mk Kobject_type.SM p] }
    let ins := k1.st.insert (k1.st.ecs k1.st.current).regs.obj r.sel
      ⟨some ⟨Kobject_type.SM, p⟩, Perm_sm.DEFINED⟩
    let k2 := { k1 with st := ins.1 }
    if ins.2 != Status.SUCCESS then
      let k3 := { k2 with live := k2.live.erase (Kobject_ref.mk Kobject_type.SM p) }
      k3.finish Status.BAD_CAP false
    else
      k2.finish Status.SUCCESS false

/-- Example allocators: every new object is placed at address 60; a new SC is bound to the EC
it is given, a new portal names the EC, entry point and MTD it is given and has badge 0. -/
def slab0 : Slab :=
  { sc_new := fun _ => 60, pt_new := fun _ => 60, sm_new := fun _ => 60,
    sc_ctor := fun _ ec _ _ _ => ⟨ec⟩,
    pt_ctor := fun _ ec mtd eip => ⟨ec, eip, mtd, 0⟩ }

/-- A caller EC 0 holding, in its object space, a PD capability with every creation permission
at selector 1, a capability with both binding permissions for the global EC 3 at selector 3 and
one for the local EC 4 at selector 4; selector 9 and above are empty. -/
def k_create : Kern :=
  { k0 with
    st :=
      { st0 with
        ecs := fun p => if p = 3 then { ec0 with glb := true } else ec0
        space_obj := fun _ sel =>
          if sel = 1 then ⟨some ⟨Kobject_type.PD, 0⟩, 31⟩
          else if sel = 3 then ⟨some ⟨Kobject_type.EC, 3⟩, 31⟩
          else if sel = 4 then ⟨some ⟨Kobject_type.EC, 4⟩, 31⟩
          else ⟨none, 0⟩ } }

/-- What the spec asks of a creation syscall that was run in `k` for the selector `sel` and
ended in `out`, for an object of type `t`. It returned some status. If the status is not SUCCESS
the object spaces are what they were, the objects allocated and not destroyed are the ones
that were there before, and no call into a collaborating subsystem was made. If the status is
SUCCESS, the slot `sel` of the caller's object space was empty and now holds a capability for
the new object of type `t`, every other slot of every object space is what it was, the new
object is the one object allocated, and the only call into a collaborating subsystem is one
`remote_enqueue` of the new object if it is an SC, none otherwise. -/
def creation_atomic (k : Kern) (sel : Nat) (t : Kobject_type) (out : Kout) : Prop :=
  (∃ st, out.returns st)
  ∧ out.k.st.current = k.st.current
  ∧ (out.k.st.ecs out.k.st.current).regs.obj = (k.st.ecs k.st.current).regs.obj
  ∧ (∀ st, out.returns st → st ≠ Status.SUCCESS →
      out.k.st.space_obj = k.st.space_obj ∧ out.k.live.Perm k.live ∧ out.k.events = k.events)
  ∧ (out.returns Status.SUCCESS →
      (k.st.space_obj (k.st.ecs k.st.current).regs.obj sel).obj = none
      ∧ ∃ p prm,
        out.k.st.space_obj (k.st.ecs k.st.current).regs.obj sel = ⟨some ⟨t, p⟩, prm⟩
        ∧ (∀ o s, ¬ (o = (k.st.ecs k.st.current).regs.obj ∧ s = sel) →
            out.k.st.space_obj o s = k.st.space_obj o s)
        ∧ out.k.live = k.live ++ [Kobject_ref.mk t p]
        ∧ out.k.events
            = k.events ++ (if t = Kobject_type.SC then [Event.remote_enqueue p] else []))

/-- The common end of the creation syscalls, from the kernel state `k1` in which the new object
`x` has been allocated: insert a capability for `x` at `sel` in the caller's object space; on
failure destroy `x` and finish with BAD_CAP; on success finish with SUCCESS, after a
`remote_enqueue` of the new object if `enq` is set. -/
def create_tail (k1 : Kern) (sel : Nat) (x : Kobject_ref) (prm : Nat) (enq : Bool) : Kout :=
  let ins := k1.st.insert (k1.st.ecs k1.st.current).regs.obj sel ⟨some x, prm⟩
  let k2 := { k1 with st := ins.1 }
  if ins.2 != Status.SUCCESS then
    let k3 := { k2 with live := k2.live.erase x }
    k3.finish Status.BAD_CAP false
  else if enq then (k2.log (Event.remote_enqueue x.ptr)).finish Status.SUCCESS false
  else k2.finish Status.SUCCESS false

/-! ## `syscall.cpp`: `sys_reply` -/

/-- Collaborators of `sys_reply` that are declared outside src/: the `Sys_ipc_reply` accessors
`mtd_u ()` and `mtd_a ()` decoding the syscall frame of the replying EC, and the state-saving
functions `save_exc`, `save_vmx` and `save_svm` of the architectural UTCB, each given by the
register frame it leaves in the caller. The contents of the UTCBs are not represented, so
`Utcb::copy` leaves no trace in the state. -/
structure Utcb_env where
  mtd_u : Sys_regs → Nat
  mtd_a : Sys_regs → Nat
  save_exc : Nat → Exc_regs → Exc_regs
  save_vmx : Nat → Cpu_regs → Nat → Cpu_regs
  save_svm : Nat → Cpu_regs → Nat → Cpu_regs

/-- The function `Ec::sys_reply`: if the caller `rcap` of the current EC is non-null, hand the
reply over according to the continuation of the caller (`ret_user_sysexit`: store the MTD into
its `p1` and copy the UTCB; `ret_user_iret`, `ret_user_vmresume`, `ret_user_vmrun`: save the
architectural state into its registers); then `reply ()`, whose argument defaults to
`nullptr`. -/
def sys_reply (u : Utcb_env) (s : State) : Option Outcome :=
  let r := (s.ecs s.current).regs.exc.sys
  let s1 :=
    match (s.ecs s.current).rcap with
    | some ec =>
      if (s.ecs ec).cont = some Cont.ret_user_sysexit then
        s.set_p1 ec (u.mtd_u r)
      else if (s.ecs ec).cont = some Cont.ret_user_iret then
        s.set_ec ec { s.ecs ec with regs.exc := u.save_exc (u.mtd_a r) (s.ecs ec).regs.exc }
      else if (s.ecs ec).cont = some Cont.ret_user_vmresume then
        s.set_ec ec { s.ecs ec with
          regs := u.save_vmx (u.mtd_a r) (s.ecs ec).regs (s.ecs s.current).regs.obj }
      else if (s.ecs ec).cont = some Cont.ret_user_vmrun then
        s.set_ec ec { s.ecs ec with
          regs := u.save_svm (u.mtd_a r) (s.ecs ec).regs (s.ecs s.current).regs.obj }
      else s
    | none => s
  reply s1 none

/-- Example collaborators of `sys_reply`: both MTDs are `p1`, and the state-saving functions
leave the registers of the caller as they are. -/
def utcb0 : Utcb_env :=
  { mtd_u := fun r => r.p1, mtd_a := fun r => r.p1, save_exc := fun _ e => e,
    save_vmx := fun _ c _ => c, save_svm := fun _ c _ => c }

/-- The state `st_partnered` (the local server EC 1 is handling a call of EC 0), with
selector 5 of every object space holding a callable capability for portal 9, which names
EC 1. -/
def st_serving : State :=
  { st_partnered with
    pts := fun p => if p = 9 then ⟨1, 4096, 3, 42⟩ else ⟨0, 0, 0, 0⟩
    space_obj := fun _ sel =>
      if sel = 5 then ⟨some ⟨Kobject_type.PT, 9⟩, Perm_pt.CALL⟩ else ⟨none, 0⟩ }

/-- The status that the spec gives for `sys_create_ec`: that of the first failing check, in the
order CPU online, UTCB address below the bound, vCPU support, PD capability, empty slot at
`sel` in the caller's object space; SUCCESS if no check fails. -/
def sys_create_ec_status (hw : Hw) (r : Sys_create_ec) (k : Kern) : Status :=
  if hw.cpu_online r.cpu = false then Status.BAD_CPU
  else if r.utcb ≥ hw.utcb_limit then Status.BAD_PAR
  else if r.utcb = 0 ∧ hw.virt = 0 then Status.BAD_FTR
  else if (k.st.space_obj (k.st.ecs k.st.current).regs.obj r.pd).validate
      Kobject_type.PD Perm_pd.EC = false then Status.BAD_CAP
  else if (k.st.space_obj (k.st.ecs k.st.current).regs.obj r.sel).obj ≠ none then Status.BAD_CAP
  else Status.SUCCESS

/-- The source capability `cst` that `sys_ctrl_pd` looks up: `obj->lookup (r.src ())` in the
object space of the current EC. -/
def ctrl_pd_src (r : Sys_ctrl_pd) (k : Kern) : Capability :=
  k.st.space_obj (k.st.ecs k.st.current).regs.obj r.src

/-- The destination capability `cdt` that `sys_ctrl_pd` looks up: `obj->lookup (r.dst ())` in
the object space of the current EC. -/
def ctrl_pd_dst (r : Sys_ctrl_pd) (k : Kern) : Capability :=
  k.st.space_obj (k.st.ecs k.st.current).regs.obj r.dst

/-- The pairs of source and destination subtype for which the spec lets `sys_ctrl_pd` call the
`delegate` of the destination space. -/
def delegated_pairs : List (Subtype × Subtype) :=
  [(Subtype.HST, Subtype.HST), (Subtype.HST, Subtype.GST), (Subtype.HST, Subtype.DMA),
   (Subtype.OBJ, Subtype.OBJ), (Subtype.PIO, Subtype.PIO), (Subtype.MSR, Subtype.MSR)]

/-- The exception of the spec: the source subtype is HST, the source is the kernel's own host
space and the memory attribute argument is invalid. -/
def own_space_invalid (hw : Hw) (r : Sys_ctrl_pd) (k : Kern) (st : Subtype) : Prop :=
  st = Subtype.HST ∧ (ctrl_pd_src r k).obj.map Kobject_ref.ptr = some hw.nova_hst
    ∧ hw.ma_valid r.ma = false

instance (hw : Hw) (r : Sys_ctrl_pd) (k : Kern) (st : Subtype) :
    Decidable (own_space_invalid hw r k st) := by
  unfold own_space_invalid
  infer_instance

/-- Example hardware whose take-grant validation reads the subtypes from the permission words
of the two capabilities (1 for HST, 2 for GST, anything else for OBJ) and rejects a source with
permission word 0; its own host space is object 0 and only memory attribute 0 is valid; the
`delegate` of every space fails with MEM_OBJ. -/
def hw_grant : Hw :=
  { hw0 with
    validate_take_grant := fun s d =>
      if s.prm = 0 then none
      else some (if s.prm = 1 then Subtype.HST else if s.prm = 2 then Subtype.GST else Subtype.OBJ,
                 if d.prm = 1 then Subtype.HST else if d.prm = 2 then Subtype.GST else Subtype.OBJ)
    ma_valid := fun m => decide (m = 0)
    delegate := fun _ k => (Status.MEM_OBJ, k) }

/-- A caller whose object space holds a host-space capability for the kernel's own host space
at selector 1, a guest-space capability at selector 2 and an object-space capability at
selector 3. -/
def k_grant : Kern :=
  { k0 with
    st :=
      { st0 with
        space_obj := fun _ sel =>
          if sel = 1 then ⟨some ⟨Kobject_type.PD, 0⟩, 1⟩
          else if sel = 2 then ⟨some ⟨Kobject_type.PD, 8⟩, 2⟩
          else if sel = 3 then ⟨some ⟨Kobject_type.PD, 9⟩, 3⟩
          else ⟨none, 0⟩ } }

/-! ## The IPC protocol as a transition system -/

/-- The state left by the handoff that `sys_call` and `send_msg` perform from the current EC to
the server `ec`: the caller continues with `c1`, the two are partnered, the server continues
with `c2` and receives the entry point `ip`, the badge `p0` and the MTD `p1`, and becomes the
current EC. -/
def handoff (s : State) (ec : EcPtr) (c1 c2 : Cont) (ip p0 p1 : Nat) : State :=
  let s1 := s.set_cont s.current (some c1)
  let s2 := set_partner s1 s1.current ec
  let s3 := s2.set_cont ec (some c2)
  let s4 := s3.set_ip ec ip
  let s5 := s4.set_p0 ec p0
  let s6 := s5.set_p1 ec p1
  (make_current s6 ec).state

/-- Modelled from the spec: the register block `Console_mbuf::singleton.regs`
(`console_mbuf.hpp` is not under src/), with the fields that `Console_uart::sync` reads: the
read and write indices, the number of entries (all `uint32_t`) and the characters of the
buffer by index. -/
structure Mbuf_regs where
  r_idx : Nat
  w_idx : Nat
  entries : Nat
  buffer : Nat → Nat

/-- What a UART console does, in the order it does it: `tx (c)` transmits a character,
`enable ()` switches the console on. -/
inductive Uart_op
  | tx (c : Nat)
  | enable
  deriving DecidableEq, Repr

/-- The method `Console_uart::outc`: wait until the transmitter has room or the timeout
expires, then `tx (c)`. -/
def outc (out : List Uart_op) (c : Nat) : List Uart_op := out ++ [Uart_op.tx c]

/-- The loop of `Console_uart::sync`:
`for (uint32_t r = r_idx, w = w_idx; r != w; r = (r + 1) % mbuf->entries) outc (buffer[r])`.
The first argument bounds the number of times the loop condition is evaluated; the result is
`none` if that bound is reached, or where the code divides by zero. -/
def sync_loop (m : Mbuf_regs) : Nat → Nat → Nat → List Uart_op → Option (List Uart_op)
  | 0, _, _, _ => none
  | fuel + 1, r, w, out =>
    if r != w then
      if m.entries = 0 then none
      else sync_loop m fuel ((r + 1) % 2 ^ 32 % m.entries) w (outc out (m.buffer r))
    else some out

/-- The method `Console_uart::sync`: if the memory-buffer console has a register block, replay
its pending characters; then `enable ()`. -/
def sync (fuel : Nat) (mbuf : Option Mbuf_regs) : Option (List Uart_op) :=
  match mbuf with
  | some m =>
    match sync_loop m fuel m.r_idx m.w_idx [] with
    | none => none
    | some out => some (out ++ [Uart_op.enable])
  | none => some [Uart_op.enable]

/-- A memory-buffer console of 4 entries holding "abcd", read index 3, write index 1. -/
def mbuf0 : Mbuf_regs := ⟨3, 1, 4, fun i => 97 + i⟩

/-! # Theorems -/

/-! ## Basic facts about the heap -/

@[simp] theorem set_ec_ecs_same (s : State) (p : EcPtr) (e : Ec) : (s.set_ec p e).ecs p = e := by
  simp [State.set_ec]

theorem set_ec_ecs (s : State) (p q : EcPtr) (e : Ec) :
    (s.set_ec p e).ecs q = if q = p then e else s.ecs q := by
  simp [State.set_ec, Function.update_apply]

@[simp] theorem set_ec_donations (s : State) (p : EcPtr) (e : Ec) :
    (s.set_ec p e).donations = s.donations := rfl

@[simp] theorem set_ec_current (s : State) (p : EcPtr) (e : Ec) :
    (s.set_ec p e).current = s.current := rfl

@[simp] theorem set_ec_sc_current (s : State) (p : EcPtr) (e : Ec) :
    (s.set_ec p e).sc_current = s.sc_current := rfl

@[simp] theorem set_ec_scs (s : State) (p : EcPtr) (e : Ec) : (s.set_ec p e).scs = s.scs := rfl

@[simp] theorem set_ec_pts (s : State) (p : EcPtr) (e : Ec) : (s.set_ec p e).pts = s.pts := rfl

@[simp] theorem set_ec_space_obj (s : State) (p : EcPtr) (e : Ec) :
    (s.set_ec p e).space_obj = s.space_obj := rfl

/-- Two states with the same components are equal. -/
theorem State.ext_fields (s t : State) (h1 : ∀ p, s.ecs p = t.ecs p) (h2 : s.scs = t.scs)
    (h3 : s.pts = t.pts) (h4 : s.space_obj = t.space_obj) (h5 : s.current = t.current)
    (h6 : s.sc_current = t.sc_current) (h7 : s.donations = t.donations) : s = t := by
  cases s
  cases t
  simp only [State.mk.injEq]
  exact ⟨funext h1, h2, h3, h4, h5, h6, h7⟩

/-- The unsigned decrement undoes the unsigned increment. -/
theorem unsigned_inc_dec (d : Nat) (h : d < 2 ^ UNSIGNED_BITS) :
    ((d + 1) % 2 ^ UNSIGNED_BITS + 2 ^ UNSIGNED_BITS - 1) % 2 ^ UNSIGNED_BITS = d := by
  simp only [UNSIGNED_BITS] at *
  omega

/-- A validating capability holds an object. -/
theorem validate_obj (c : Capability) (t : Kobject_type) (p : Nat) (h : c.validate t p = true) :
    ∃ o, c.obj = some o := by
  unfold Capability.validate at h
  cases ho : c.obj with
  | none => simp [ho] at h
  | some o => exact ⟨o, rfl⟩

/-! ## Frame of a status return -/

/-- Writing `p0` of one EC changes no `cont`, no partner pointer, no queue, no register frame of
another EC, and nothing outside the EC heap. -/
theorem set_p0_frame (s : State) (p : EcPtr) (v : Nat) :
    (s.set_p0 p v).current = s.current
    ∧ (s.set_p0 p v).donations = s.donations
    ∧ ((s.set_p0 p v).ecs p).regs.exc.sys.p0 = v
    ∧ (∀ x, ((s.set_p0 p v).ecs x).cont = (s.ecs x).cont
          ∧ ((s.set_p0 p v).ecs x).callee = (s.ecs x).callee
          ∧ ((s.set_p0 p v).ecs x).caller = (s.ecs x).caller)
    ∧ ∀ x, x ≠ p → (s.set_p0 p v).ecs x = s.ecs x := by
  refine ⟨rfl, rfl, by simp [State.set_p0], ?_, ?_⟩
  · intro x
    simp only [State.set_p0, set_ec_ecs]
    by_cases hx : x = p
    · subst hx
      simp
    · simp [hx]
  · intro x hx
    simp [State.set_p0, set_ec_ecs, hx]

/-! ## C1: `sys_call` handoff -/

/-- C1: for every state in which the current EC `C` is running (its `cont` is not null, as for
every EC that `syscall.cpp` makes current) and the capability looked up by `sys_call` validates
for `Perm_pt::CALL` and names a portal whose server EC `S` is on the CPU of `C` and has a null
`cont`, `sys_call` ends in `make_current (S)` with `S` current, `C.cont = ret_user_sysexit`,
`C.callee = S`, `S.caller = C`, the donations counter incremented by one (as an `unsigned`),
`S.cont = recv_user`, the saved instruction pointer of `S` equal to the entry IP of the portal,
`p0` of `S` equal to the badge id of the portal and `p1` of `S` equal to the MTD passed by
`C`. -/
theorem sys_call_handoff (env : Env) (s : State) (o : Kobject_ref)
    (hv : (call_cap env s).validate Kobject_type.PT Perm_pt.CALL = true)
    (ho : (call_cap env s).obj = some o)
    (hcpu : (s.ecs s.current).cpu = (s.ecs (s.pts o.ptr).ec).cpu)
    (hcont : (s.ecs (s.pts o.ptr).ec).cont = none)
    (hrun : (s.ecs s.current).cont ≠ none) :
    ∃ out, sys_call env s = some out
      ∧ out.next = Transfer.make_current (s.pts o.ptr).ec
      ∧ out.state.current = (s.pts o.ptr).ec
      ∧ (out.state.ecs s.current).cont = some Cont.ret_user_sysexit
      ∧ (out.state.ecs s.current).callee = some (s.pts o.ptr).ec
      ∧ (out.state.ecs (s.pts o.ptr).ec).caller = some s.current
      ∧ out.state.donations = (s.donations + 1) % 2 ^ 32
      ∧ (out.state.ecs (s.pts o.ptr).ec).cont = some Cont.recv_user
      ∧ (out.state.ecs (s.pts o.ptr).ec).regs.exc.ip = (s.pts o.ptr).ip
      ∧ (out.state.ecs (s.pts o.ptr).ec).regs.exc.sys.p0 = (s.pts o.ptr).id
      ∧ (out.state.ecs (s.pts o.ptr).ec).regs.exc.sys.p1
          = env.mtd (s.ecs s.current).regs.exc.sys := by
  unfold call_cap at hv ho
  have hne : (s.pts o.ptr).ec ≠ s.current := fun h => hrun (h ▸ hcont)
  have hne2 : ¬ s.current = (s.pts o.ptr).ec := fun h => hne h.symm
  simp only [sys_call, hv, ho, Ec.xcpu, hcpu, hcont]
  refine ⟨_, by simp; rfl, ?_⟩
  simp [make_current, State.set_p1, State.set_p0, State.set_ip, State.set_cont, set_partner,
    set_ec_ecs, hne, hne2, UNSIGNED_BITS]

/-- C1, applied to the running client EC 0 calling the waiting server EC 1 through portal 9. -/
theorem sys_call_handoff_witness :
    ∃ out, sys_call env0 st_call = some out
      ∧ out.next = Transfer.make_current 1
      ∧ out.state.current = 1
      ∧ (out.state.ecs 0).cont = some Cont.ret_user_sysexit
      ∧ (out.state.ecs 0).callee = some 1
      ∧ (out.state.ecs 1).caller = some 0
      ∧ out.state.donations = (0 + 1) % 2 ^ 32
      ∧ (out.state.ecs 1).cont = some Cont.recv_user
      ∧ (out.state.ecs 1).regs.exc.ip = 4096
      ∧ (out.state.ecs 1).regs.exc.sys.p0 = 42
      ∧ (out.state.ecs 1).regs.exc.sys.p1 = 77 :=
  sys_call_handoff env0 st_call ⟨Kobject_type.PT, 9⟩ (by decide) (by decide) (by decide)
    (by decide) (by decide)

/-! ## C2: non-blocking call to a busy server -/

/-- C2: for every state in which the portal capability validates for CALL, the server `S` is on
the CPU of the caller `C`, `S.cont` is not null and the timeout flag of the call is set,
`sys_call` returns to user mode leaving exactly the state in which `p0` of `C` holds TIMEOUT:
`C` is still current, and no `cont`, partner pointer or the donations counter has changed. The
outcome is this one for every behaviour `help` of `Ec::help`, so `help` is not invoked. -/
theorem sys_call_busy_timeout (env : Env) (s : State) (o : Kobject_ref)
    (help : EcPtr → Cont → State → Option State)
    (hv : (call_cap env s).validate Kobject_type.PT Perm_pt.CALL = true)
    (ho : (call_cap env s).obj = some o)
    (hcpu : (s.ecs s.current).cpu = (s.ecs (s.pts o.ptr).ec).cpu)
    (hbusy : (s.ecs (s.pts o.ptr).ec).cont ≠ none)
    (ht : env.timeout (s.ecs s.current).regs.exc.sys = true) :
    ∃ out, sys_call { env with help := help } s = some out
      ∧ out.next = Transfer.ret_user_sysexit
      ∧ out.state = s.set_p0 s.current Status.TIMEOUT.to_underlying
      ∧ (out.state.ecs s.current).regs.exc.sys.p0 = Status.TIMEOUT.to_underlying
      ∧ out.state.current = s.current
      ∧ out.state.donations = s.donations
      ∧ ∀ x, (out.state.ecs x).cont = (s.ecs x).cont
          ∧ (out.state.ecs x).callee = (s.ecs x).callee
          ∧ (out.state.ecs x).caller = (s.ecs x).caller := by
  unfold call_cap at hv ho
  have hf := set_p0_frame s s.current Status.TIMEOUT.to_underlying
  refine ⟨⟨s.set_p0 s.current Status.TIMEOUT.to_underlying, Transfer.ret_user_sysexit⟩, ?_, rfl,
    rfl, hf.2.2.1, hf.1, hf.2.1, hf.2.2.2.1⟩
  simp [sys_call, hv, ho, Ec.xcpu, hcpu, hbusy, ht, sys_finish, sys_finish_status]

/-- C2, applied to the client EC 0 calling the busy server EC 1 with the timeout flag set, with a
`help` that would return the resting state if it were called. -/
theorem sys_call_busy_timeout_witness :
    (call_cap env0 st_busy).validate Kobject_type.PT Perm_pt.CALL = true
    ∧ (st_busy.ecs 1).cont ≠ none
    ∧ env0.timeout (st_busy.ecs 0).regs.exc.sys = true
    ∧ ∃ out, sys_call { env0 with help := fun _ _ _ => some st0 } st_busy = some out
      ∧ out.next = Transfer.ret_user_sysexit
      ∧ out.state = st_busy.set_p0 0 1
      ∧ (out.state.ecs 0).regs.exc.sys.p0 = 1
      ∧ out.state.current = 0
      ∧ out.state.donations = 0
      ∧ ∀ x, (out.state.ecs x).cont = (st_busy.ecs x).cont
          ∧ (out.state.ecs x).callee = (st_busy.ecs x).callee
          ∧ (out.state.ecs x).caller = (st_busy.ecs x).caller :=
  ⟨by decide, by decide, by decide,
   sys_call_busy_timeout env0 st_busy ⟨Kobject_type.PT, 9⟩ (fun _ _ _ => some st0) (by decide)
     (by decide) (by decide) (by decide) (by decide)⟩

/-! ## C3: validation failures of `sys_call` -/

/-- The numeric values of the statuses are pairwise distinct. -/
theorem to_underlying_injective (a b : Status) (h : a.to_underlying = b.to_underlying) :
    a = b := by
  cases a <;> cases b <;> first | rfl | exact absurd h (by decide)

/-- The function `sys_finish<S>` returns to user mode with status `S` and no other. -/
theorem sys_finish_returns (S st : Status) (s : State) :
    (sys_finish S false s).returns st ↔ S = st := by
  simp only [Outcome.returns, sys_finish, sys_finish_status, State.set_p0]
  constructor
  · intro h
    have h2 := h.2
    simp at h2
    exact to_underlying_injective _ _ h2
  · intro h
    subst h
    simp

/-- Every way in which `sys_call` returns to user mode with a status: BAD_CAP from the failed
validation, BAD_CPU from the CPU check, or TIMEOUT. -/
theorem sys_call_returns (env : Env) (s : State) (out : Outcome) (st : Status)
    (h : sys_call env s = some out) (hr : out.returns st) :
    (st = Status.BAD_CAP
        ∧ (call_cap env s).validate Kobject_type.PT Perm_pt.CALL = false
        ∧ out = sys_finish Status.BAD_CAP false s)
    ∨ (st = Status.BAD_CPU
        ∧ (call_cap env s).validate Kobject_type.PT Perm_pt.CALL = true
        ∧ (∃ o, (call_cap env s).obj = some o
              ∧ (s.ecs s.current).cpu ≠ (s.ecs (s.pts o.ptr).ec).cpu)
        ∧ out = sys_finish Status.BAD_CPU false s)
    ∨ (st = Status.TIMEOUT
        ∧ (call_cap env s).validate Kobject_type.PT Perm_pt.CALL = true) := by
  have hcc : s.space_obj (s.ecs s.current).regs.obj (env.pt (s.ecs s.current).regs.exc.sys)
      = call_cap env s := rfl
  simp only [sys_call, hcc] at h
  cases hv : (call_cap env s).validate Kobject_type.PT Perm_pt.CALL with
  | false =>
    simp only [hv, Bool.not_false, if_true, Option.some.injEq] at h
    subst h
    exact Or.inl ⟨((sys_finish_returns _ _ _).mp hr).symm, rfl, rfl⟩
  | true =>
    obtain ⟨o, ho⟩ := validate_obj _ _ _ hv
    simp only [hv, ho, Bool.not_true] at h
    by_cases hcpu : (s.ecs s.current).cpu = (s.ecs (s.pts o.ptr).ec).cpu
    · right
      right
      refine ⟨?_, rfl⟩
      simp only [Ec.xcpu, hcpu, bne_self_eq_false] at h
      by_cases hcont : (s.ecs (s.pts o.ptr).ec).cont = none
      · simp only [hcont, if_true] at h
        simp at h
        subst h
        exact absurd hr.1 (by simp [make_current])
      · simp only [hcont, if_false] at h
        by_cases ht : env.timeout (s.ecs s.current).regs.exc.sys = true
        · simp [ht] at h
          subst h
          exact ((sys_finish_returns _ _ _).mp hr).symm
        · simp only [ht] at h
          cases hh : env.help (s.pts o.ptr).ec Cont.sys_call s with
          | none =>
            simp [hh] at h
            subst h
            exact absurd hr.1 (by simp)
          | some s' =>
            simp [hh] at h
            subst h
            exact ((sys_finish_returns _ _ _).mp hr).symm
    · right
      left
      have hx : ((s.ecs s.current).cpu != (s.ecs (s.pts o.ptr).ec).xcpu) = true := by
        simpa [Ec.xcpu] using hcpu
      simp [hx] at h
      subst h
      exact ⟨((sys_finish_returns _ _ _).mp hr).symm, rfl, ⟨o, ho, hcpu⟩, rfl⟩

/-- C3: for every state, `sys_call` returns BAD_CAP if and only if the capability looked up at
the portal selector does not validate for `Perm_pt::CALL`; when it validates, `sys_call` returns
BAD_CPU if and only if the CPU of the caller differs from the CPU of the server EC of the
portal; and whenever it returns BAD_CAP or BAD_CPU the state differs from the initial one in the
`p0` of the caller only: the caller is still current, the donations counter, every `cont`, every
partner pointer and every other EC (the server included) are unchanged. -/
theorem sys_call_validation (env : Env) (s : State) :
    ((∃ out, sys_call env s = some out ∧ out.returns Status.BAD_CAP) ↔
        (call_cap env s).validate Kobject_type.PT Perm_pt.CALL = false)
    ∧ (∀ o, (call_cap env s).validate Kobject_type.PT Perm_pt.CALL = true →
        (call_cap env s).obj = some o →
        ((∃ out, sys_call env s = some out ∧ out.returns Status.BAD_CPU) ↔
          (s.ecs s.current).cpu ≠ (s.ecs (s.pts o.ptr).ec).cpu))
    ∧ ∀ out st, sys_call env s = some out → out.returns st →
        st = Status.BAD_CAP ∨ st = Status.BAD_CPU →
        out.state = s.set_p0 s.current st.to_underlying
        ∧ out.state.current = s.current
        ∧ out.state.donations = s.donations
        ∧ (∀ x, (out.state.ecs x).cont = (s.ecs x).cont
            ∧ (out.state.ecs x).callee = (s.ecs x).callee
            ∧ (out.state.ecs x).caller = (s.ecs x).caller)
        ∧ ∀ x, x ≠ s.current → out.state.ecs x = s.ecs x := by
  refine ⟨⟨?_, ?_⟩, ?_, ?_⟩
  · rintro ⟨out, h, hr⟩
    rcases sys_call_returns env s out _ h hr with h1 | h1 | h1
    · exact h1.2.1
    · exact absurd h1.1 (by decide)
    · exact absurd h1.1 (by decide)
  · intro hv
    refine ⟨sys_finish Status.BAD_CAP false s, ?_, (sys_finish_returns _ _ _).mpr rfl⟩
    unfold call_cap at hv
    simp [sys_call, hv]
  · intro o hv ho
    constructor
    · rintro ⟨out, h, hr⟩
      rcases sys_call_returns env s out _ h hr with h1 | h1 | h1
      · exact absurd h1.1 (by decide)
      · obtain ⟨o2, ho2, hcpu⟩ := h1.2.2.1
        rw [ho] at ho2
        cases ho2
        exact hcpu
      · exact absurd h1.1 (by decide)
    · intro hcpu
      refine ⟨sys_finish Status.BAD_CPU false s, ?_, (sys_finish_returns _ _ _).mpr rfl⟩
      unfold call_cap at hv ho
      simp [sys_call, hv, ho, Ec.xcpu, hcpu]
  · intro out st h hr hst
    have hf := set_p0_frame s s.current st.to_underlying
    have hout : out = sys_finish st false s := by
      rcases sys_call_returns env s out _ h hr with h1 | h1 | h1
      · rw [h1.1]
        exact h1.2.2
      · rw [h1.1]
        exact h1.2.2.2
      · rcases hst with h2 | h2 <;> exact absurd (h1.1.symm.trans h2) (by decide)
    subst hout
    exact ⟨rfl, hf.1, hf.2.1, hf.2.2.2.1, hf.2.2.2.2⟩

/-- C3, applied to a call through an empty slot (BAD_CAP) and to a call whose server lives on
another CPU (BAD_CPU). -/
theorem sys_call_validation_witness :
    (∃ out, sys_call env0 st0 = some out ∧ out.returns Status.BAD_CAP)
    ∧ (∃ out, sys_call env0 st_remote = some out ∧ out.returns Status.BAD_CPU) :=
  ⟨(sys_call_validation env0 st0).1.mpr (by decide),
   ((sys_call_validation env0 st_remote).2.1 ⟨Kobject_type.PT, 9⟩ (by decide) (by decide)).mpr
     (by decide)⟩

/-! ## C4: control transfer of `reply` -/

/-- The method `clr_partner` leaves every `cont` alone. -/
theorem clr_partner_cont (s s' : State) (a x : EcPtr) (r : Bool)
    (h : clr_partner s a = some (s', r)) : (s'.ecs x).cont = (s.ecs x).cont := by
  unfold clr_partner at h
  cases hc : (s.ecs a).callee with
  | none => simp [hc] at h
  | some b =>
    simp only [hc, Option.some.injEq, Prod.mk.injEq] at h
    rw [← h.1]
    simp only [set_ec_ecs]
    by_cases hxa : x = a
    · subst hxa
      by_cases hxb : x = b
      · subst hxb
        simp
      · simp [hxb]
    · by_cases hxb : x = b
      · subst hxb
        simp [hxa]
      · simp [hxa, hxb]

/-- C4: for every state in which the current EC is not global and invokes `reply (c)`:
if the caller pointer `ec` of the current EC is null, the outcome is the initial state with
`current.cont = c` and nothing else changed (so `clr_partner` did not run), ending in the
activation of the EC of the current SC; if `ec` is non-null and `ec.clr_partner ()` is defined,
`reply` ends in `make_current (ec)` with `ec` current when `clr_partner` returned true and in the
activation of the EC of the current SC when it returned false; and in every outcome `cont` of
the replying EC is `c`, and control went to an EC `ec'` by `make_current` if and only if `ec'`
is the non-null caller and `clr_partner` on it returned true, the EC of the current SC being
activated in every other case. -/
theorem reply_control_transfer (s : State) (c : Option Cont)
    (hglb : (s.ecs s.current).glb = false) :
    ((s.ecs s.current).caller = none →
        reply s c = some ⟨s.set_cont s.current c, Transfer.activate (s.scs s.sc_current).ec⟩)
    ∧ (∀ ec s2 r, (s.ecs s.current).caller = some ec →
        clr_partner (s.set_cont s.current c) ec = some (s2, r) →
        (r = true → reply s c = some ⟨{ s2 with current := ec }, Transfer.make_current ec⟩)
        ∧ (r = false → reply s c = some ⟨s2, Transfer.activate (s.scs s.sc_current).ec⟩))
    ∧ ∀ out, reply s c = some out →
        (out.state.ecs s.current).cont = c
        ∧ (∀ ec', (out.next = Transfer.make_current ec' ∧ out.state.current = ec') ↔
            ((s.ecs s.current).caller = some ec'
              ∧ ∃ s2, clr_partner (s.set_cont s.current c) ec' = some (s2, true)))
        ∧ ((¬ ∃ ec', out.next = Transfer.make_current ec') →
            out.next = Transfer.activate (s.scs s.sc_current).ec
            ∧ out.state.current = s.current) := by
  have hg : ((s.set_cont s.current c).ecs (s.set_cont s.current c).current).glb = false := by
    simpa [State.set_cont] using hglb
  have hcaller : ((s.set_cont s.current c).ecs (s.set_cont s.current c).current).rcap
      = (s.ecs s.current).caller := by
    simp [State.set_cont, Ec.rcap]
  have hcont : ((s.set_cont s.current c).ecs s.current).cont = c := by
    simp [State.set_cont]
  refine ⟨?_, ?_, ?_⟩
  · intro hnone
    simp only [reply, hg, hcaller, hnone]
    rfl
  · intro ec s2 r hsome hclr
    have hscs : s2.scs = s.scs := by
      unfold clr_partner at hclr
      cases hc : ((s.set_cont s.current c).ecs ec).callee with
      | none => simp [hc] at hclr
      | some b =>
        simp only [hc, Option.some.injEq, Prod.mk.injEq] at hclr
        rw [← hclr.1]
        rfl
    have hsc : s2.sc_current = s.sc_current := by
      unfold clr_partner at hclr
      cases hc : ((s.set_cont s.current c).ecs ec).callee with
      | none => simp [hc] at hclr
      | some b =>
        simp only [hc, Option.some.injEq, Prod.mk.injEq] at hclr
        rw [← hclr.1]
        rfl
    constructor
    · intro hr
      subst hr
      simp only [reply, hg, hcaller, hsome, hclr]
      rfl
    · intro hr
      subst hr
      simp only [reply, hg, hcaller, hsome, hclr, hscs, hsc]
      simp
  · intro out hout
    simp only [reply, hg, hcaller] at hout
    cases hcl : (s.ecs s.current).caller with
    | none =>
      simp only [hcl] at hout
      simp at hout
      subst hout
      refine ⟨hcont, ?_, ?_⟩
      · intro ec'
        simp
      · intro _
        exact ⟨rfl, rfl⟩
    | some ec =>
      simp only [hcl] at hout
      cases hclr : clr_partner (s.set_cont s.current c) ec with
      | none => simp [hclr] at hout
      | some res =>
        obtain ⟨s2, r⟩ := res
        have hc2 : (s2.ecs s.current).cont = c := by
          rw [clr_partner_cont _ s2 ec s.current r hclr]
          exact hcont
        have hcur : s2.current = s.current := by
          unfold clr_partner at hclr
          cases hc : ((s.set_cont s.current c).ecs ec).callee with
          | none => simp [hc] at hclr
          | some b =>
            simp only [hc, Option.some.injEq, Prod.mk.injEq] at hclr
            rw [← hclr.1]
            rfl
        have hscs : (s2.scs s2.sc_current).ec = (s.scs s.sc_current).ec := by
          unfold clr_partner at hclr
          cases hc : ((s.set_cont s.current c).ecs ec).callee with
          | none => simp [hc] at hclr
          | some b =>
            simp only [hc, Option.some.injEq, Prod.mk.injEq] at hclr
            rw [← hclr.1]
            rfl
        cases r with
        | true =>
          simp only [hclr, Bool.false_eq_true, if_false, Option.some.injEq] at hout
          subst hout
          refine ⟨hc2, ?_, ?_⟩
          · intro ec'
            simp only [make_current, Transfer.make_current.injEq, Option.some.injEq]
            constructor
            · rintro ⟨h1, _⟩
              subst h1
              exact ⟨rfl, s2, hclr⟩
            · rintro ⟨h1, _⟩
              exact ⟨h1, h1⟩
          · intro hno
            exact absurd ⟨ec, rfl⟩ hno
        | false =>
          simp only [hclr, Bool.false_eq_true, if_false, Option.some.injEq] at hout
          subst hout
          refine ⟨hc2, ?_, ?_⟩
          · intro ec'
            simp only [Option.some.injEq]
            constructor
            · rintro ⟨h1, _⟩
              exact absurd h1 (by simp)
            · rintro ⟨h1, s3, h3⟩
              subst h1
              rw [hclr] at h3
              simp at h3
          · intro _
            exact ⟨by rw [hscs], hcur⟩

/-- C4, applied to a reply without caller (the EC of the current SC is activated) and to the
reply of the server EC 1 to its caller EC 0 with one donation outstanding (control goes to
EC 0). -/
theorem reply_control_transfer_witness :
    reply st0 none = some ⟨st0.set_cont 0 none, Transfer.activate 0⟩
    ∧ ∃ s2 : State, reply st_partnered none = some ⟨{ s2 with current := 0 }, Transfer.make_current 0⟩ :=
  ⟨(reply_control_transfer st0 none (by decide)).1 (by decide),
   ⟨_, ((reply_control_transfer st_partnered none (by decide)).2.1 0 _ true (by decide) rfl).1
     rfl⟩⟩

/-! ## C5: the return value of `clr_partner` -/

/-- C5 (as stated, refuted): with one donation outstanding, `clr_partner` on the partnered caller
returns true although the counter is zero after the decrement. -/
theorem clr_partner_true_at_zero :
    (st_partnered.ecs 0).callee = some 1
    ∧ st_partnered.donations = 1
    ∧ (clr_partner st_partnered 0).map (fun r => (r.2, r.1.donations, decide (0 < r.1.donations)))
        = some (true, 0, false) := by
  decide

/-- C5 (amended): for every EC `a` with a callee and every counter value, `clr_partner` is
defined, replaces the counter `d` by `d - 1` modulo `2 ^ 32`, and returns true exactly when `d`,
the value before the decrement, is non-zero. -/
theorem clr_partner_return_value (s : State) (a b : EcPtr) (h : (s.ecs a).callee = some b) :
    ∃ s', ∃ r, clr_partner s a = some (s', r)
      ∧ s'.donations = (s.donations + 2 ^ 32 - 1) % 2 ^ 32
      ∧ (r = true ↔ s.donations ≠ 0) := by
  simp only [clr_partner, h]
  exact ⟨_, _, rfl, rfl, by simp⟩

/-- C5 (amended), applied to the partnered state with one donation. -/
theorem clr_partner_return_value_witness :
    (st_partnered.ecs 0).callee = some 1 ∧
    ∃ s', ∃ r, clr_partner st_partnered 0 = some (s', r)
      ∧ s'.donations = (st_partnered.donations + 2 ^ 32 - 1) % 2 ^ 32
      ∧ (r = true ↔ st_partnered.donations ≠ 0) :=
  ⟨by decide, clr_partner_return_value st_partnered 0 1 (by decide)⟩

/-! ## C6: the partner invariant is preserved -/

/-- The callee pointers after `a.set_partner (e)`: `a` points to `e`, all others are unchanged. -/
theorem set_partner_callee_of (s : State) (a e x : EcPtr) :
    ((set_partner s a e).ecs x).callee = if x = a then some e else (s.ecs x).callee := by
  simp only [set_partner, set_ec_ecs]
  by_cases hxa : x = a
  · subst hxa
    by_cases hxe : x = e
    · subst hxe
      simp
    · simp [hxe]
  · by_cases hxe : x = e
    · subst hxe
      simp [hxa]
    · simp [hxa, hxe]

/-- The caller pointers after `a.set_partner (e)`: `e` points back to `a`, all others are
unchanged. -/
theorem set_partner_caller_of (s : State) (a e x : EcPtr) :
    ((set_partner s a e).ecs x).caller = if x = e then some a else (s.ecs x).caller := by
  simp only [set_partner, set_ec_ecs]
  by_cases hxe : x = e
  · subst hxe
    simp
  · by_cases hxa : x = a
    · subst hxa
      simp [hxe]
    · simp [hxa, hxe]

/-- The callee pointers after a defined `a.clr_partner ()`: `a` has none, all others are
unchanged. -/
theorem clr_partner_callee_of (s s' : State) (a x : EcPtr) (r : Bool)
    (h : clr_partner s a = some (s', r)) :
    (s'.ecs x).callee = if x = a then none else (s.ecs x).callee := by
  unfold clr_partner at h
  cases hc : (s.ecs a).callee with
  | none => simp [hc] at h
  | some b =>
    simp only [hc, Option.some.injEq, Prod.mk.injEq] at h
    rw [← h.1]
    simp only [set_ec_ecs]
    by_cases hxa : x = a
    · subst hxa
      simp
    · by_cases hxb : x = b
      · subst hxb
        simp [hxa]
      · simp [hxa, hxb]

/-- The caller pointers after a defined `a.clr_partner ()`, where `b` was the callee of `a`:
`b` has none, all others are unchanged. -/
theorem clr_partner_caller_of (s s' : State) (a b x : EcPtr) (r : Bool)
    (hc : (s.ecs a).callee = some b) (h : clr_partner s a = some (s', r)) :
    (s'.ecs x).caller = if x = b then none else (s.ecs x).caller := by
  unfold clr_partner at h
  simp only [hc, Option.some.injEq, Prod.mk.injEq] at h
  rw [← h.1]
  simp only [set_ec_ecs]
  by_cases hxb : x = b
  · subst hxb
    by_cases hxa : x = a
    · subst hxa
      simp
    · simp [hxa]
  · by_cases hxa : x = a
    · subst hxa
      simp [hxb]
    · simp [hxa, hxb]

/-- A chain of callee hops in the state after `a.set_partner (e)` either exists already before,
or passes through the new link, reaching `a` and leaving `e` along old links. -/
theorem set_partner_chain (s : State) (a e x y : EcPtr)
    (h : Relation.TransGen (callee_step (set_partner s a e)) x y) :
    Relation.TransGen (callee_step s) x y
      ∨ (callee_reachable s x a ∧ callee_reachable s e y) := by
  induction h with
  | @single b hxy =>
    unfold callee_step at hxy
    rw [set_partner_callee_of] at hxy
    by_cases hxa : x = a
    · rw [if_pos hxa] at hxy
      have hb : e = b := Option.some.inj hxy
      right
      subst hxa
      subst hb
      exact ⟨Relation.ReflTransGen.refl, Relation.ReflTransGen.refl⟩
    · rw [if_neg hxa] at hxy
      left
      exact Relation.TransGen.single hxy
  | @tail b c _ hbc ih =>
    unfold callee_step at hbc
    rw [set_partner_callee_of] at hbc
    by_cases hba : b = a
    · rw [if_pos hba] at hbc
      have hc : e = c := Option.some.inj hbc
      subst hba
      subst hc
      right
      rcases ih with h1 | ⟨h1, _⟩
      · exact ⟨h1.to_reflTransGen, Relation.ReflTransGen.refl⟩
      · exact ⟨h1, Relation.ReflTransGen.refl⟩
    · rw [if_neg hba] at hbc
      rcases ih with h1 | ⟨h1, h2⟩
      · left
        exact Relation.TransGen.tail h1 hbc
      · right
        exact ⟨h1, Relation.ReflTransGen.tail h2 hbc⟩

/-- A chain of callee hops in the state after `a.clr_partner ()` exists already before. -/
theorem clr_partner_chain (s s' : State) (a x y : EcPtr) (r : Bool)
    (hclr : clr_partner s a = some (s', r))
    (h : Relation.TransGen (callee_step s') x y) :
    Relation.TransGen (callee_step s) x y := by
  refine Relation.TransGen.mono ?_ h
  intro u v huv
  unfold callee_step at huv
  rw [clr_partner_callee_of s s' a u r hclr] at huv
  unfold callee_step
  by_cases hua : u = a
  · rw [if_pos hua] at huv
    exact absurd huv (by simp)
  · rw [if_neg hua] at huv
    exact huv

/-- In the resting state no EC has a partner, so the partner invariant holds. -/
theorem st0_partner_consistent : partner_consistent st0 := by
  constructor
  · intro a b h
    exact absurd h (by simp [st0, ec0])
  · intro x h
    rcases Relation.TransGen.head'_iff.mp h with ⟨c, hc, _⟩
    exact absurd hc (by simp [callee_step, st0, ec0])

/-- C6: the partner-consistency predicate (every non-null callee points back to its caller, and
following callee pointers never revisits an EC) is preserved by `a.set_partner (e)` when `a` has
no callee, `e` has no caller, `e` is not `a` and `a` is not reachable from `e` through callee
pointers, and it is preserved by `a.clr_partner ()`, which is defined, when `a` has a callee. -/
theorem partner_consistent_preserved (s : State) (a e : EcPtr) (hinv : partner_consistent s) :
    ((s.ecs a).callee = none → (s.ecs e).caller = none → e ≠ a → ¬ callee_reachable s e a →
        partner_consistent (set_partner s a e))
    ∧ ((s.ecs a).callee ≠ none →
        ∃ s', ∃ r, clr_partner s a = some (s', r) ∧ partner_consistent s') := by
  obtain ⟨hback, hacyc⟩ := hinv
  constructor
  · intro _ he hne hreach
    constructor
    · intro x y hxy
      rw [set_partner_callee_of] at hxy
      rw [set_partner_caller_of]
      by_cases hxa : x = a
      · rw [if_pos hxa] at hxy
        have hy : e = y := Option.some.inj hxy
        rw [if_pos hy.symm, hxa]
      · rw [if_neg hxa] at hxy
        have hold := hback x y hxy
        by_cases hye : y = e
        · rw [hye, he] at hold
          exact absurd hold (by simp)
        · rw [if_neg hye]
          exact hold
    · intro x hx
      rcases set_partner_chain s a e x x hx with h1 | ⟨h1, h2⟩
      · exact hacyc x h1
      · exact hreach (Relation.ReflTransGen.trans h2 h1)
  · intro hcallee
    obtain ⟨b, hb⟩ := Option.ne_none_iff_exists'.mp hcallee
    have hdef : ∃ s', ∃ r, clr_partner s a = some (s', r) := by
      simp only [clr_partner, hb]
      exact ⟨_, _, rfl⟩
    obtain ⟨s', r, hclr⟩ := hdef
    refine ⟨s', r, hclr, ?_, ?_⟩
    · intro x y hxy
      rw [clr_partner_callee_of s s' a x r hclr] at hxy
      rw [clr_partner_caller_of s s' a b y r hb hclr]
      by_cases hxa : x = a
      · rw [if_pos hxa] at hxy
        exact absurd hxy (by simp)
      · rw [if_neg hxa] at hxy
        have hold := hback x y hxy
        by_cases hyb : y = b
        · have hab := hback a b hb
          rw [hyb, hab] at hold
          exact absurd (Option.some.inj hold).symm hxa
        · rw [if_neg hyb]
          exact hold
    · intro x hx
      exact hacyc x (clr_partner_chain s s' a x x r hclr hx)

/-- C6, applied to the resting state (EC 0 partners with EC 1) and to the state this produces
(EC 0 clears the partnership again). -/
theorem partner_consistent_preserved_witness :
    partner_consistent (set_partner st0 0 1)
    ∧ ∃ s', ∃ r, clr_partner (set_partner st0 0 1) 0 = some (s', r) ∧ partner_consistent s' := by
  have hno : ¬ callee_reachable st0 1 0 := by
    intro h
    rcases Relation.ReflTransGen.cases_head h with h0 | ⟨c, hc, _⟩
    · exact absurd h0 (by decide)
    · exact absurd hc (by simp [callee_step, st0, ec0])
  have h1 : partner_consistent (set_partner st0 0 1) :=
    (partner_consistent_preserved st0 0 1 st0_partner_consistent).1
      (by decide) (by decide) (by decide) hno
  exact ⟨h1, (partner_consistent_preserved (set_partner st0 0 1) 0 1 h1).2 (by decide)⟩

/-! ## C7: `set_partner` followed by `clr_partner` -/

/-- After `a.set_partner (e)` the callee of `a` is `e`. -/
theorem set_partner_callee (s : State) (a e : EcPtr) :
    ((set_partner s a e).ecs a).callee = some e := by
  simp only [set_partner, set_ec_ecs]
  by_cases hae : a = e
  · subst hae
    simp
  · simp [hae]

/-- C7: for every EC `a` without callee, every EC `e` without caller and every counter value
below the maximum of `unsigned`, `a.set_partner (e)` followed by `a.clr_partner ()` is defined
and yields exactly the state before `set_partner` (so `a.callee`, `e.caller`, the donations
counter and every other field of every EC have their old values); `clr_partner` returns true. -/
theorem set_clr_partner_round_trip (s : State) (a e : EcPtr)
    (ha : (s.ecs a).callee = none) (he : (s.ecs e).caller = none)
    (hd : s.donations < 2 ^ 32 - 1) :
    clr_partner (set_partner s a e) a = some (s, true) := by
  have hc := set_partner_callee s a e
  simp only [clr_partner, hc]
  have hd2 : s.donations < 2 ^ UNSIGNED_BITS := by
    simp only [UNSIGNED_BITS]
    omega
  have hdon : (set_partner s a e).donations = (s.donations + 1) % 2 ^ UNSIGNED_BITS := rfl
  refine congrArg some (Prod.ext ?_ ?_)
  · apply State.ext_fields
    · intro p
      simp only [set_partner, set_ec_ecs]
      by_cases hpa : p = a
      · subst hpa
        by_cases hpe : p = e
        · subst hpe
          rcases hp : s.ecs p with ⟨r, ev, cp, g, ce, cr, ct, tm, q⟩
          rw [hp] at ha he
          simp only at ha he
          simp [ha, he]
        · rcases hp : s.ecs p with ⟨r, ev, cp, g, ce, cr, ct, tm, q⟩
          rw [hp] at ha
          simp only at ha
          simp [hpe, ha]
      · by_cases hpe : p = e
        · subst hpe
          rcases hp : s.ecs p with ⟨r, ev, cp, g, ce, cr, ct, tm, q⟩
          rw [hp] at he
          simp only at he
          simp [hpa, he]
        · simp [hpa, hpe]
    · rfl
    · rfl
    · rfl
    · rfl
    · rfl
    · simp only [set_ec_donations, hdon]
      exact unsigned_inc_dec s.donations hd2
  · simp only [set_ec_donations, hdon]
    simp only [UNSIGNED_BITS]
    have h1 : (s.donations + 1) % 2 ^ 32 = s.donations + 1 := Nat.mod_eq_of_lt (by omega)
    apply decide_eq_true
    omega

/-- C7, applied to the resting state: EC 0 partners with EC 1 and clears the partnership. -/
theorem set_clr_partner_round_trip_witness :
    clr_partner (set_partner st0 0 1) 0 = some (st0, true) :=
  set_clr_partner_round_trip st0 0 1 (by decide) (by decide) (by decide)

/-! ## C8: `blocked()` -/

/-- The continuation stored by `unblock` does not depend on `same_cpu`. -/
theorem unblock_cont (e : Ec) (c : Option Cont) (same_cpu : Bool) :
    (e.unblock c same_cpu).cont = c := by
  cases same_cpu <;> rfl

/-- The test `blocked()` holds exactly for the blocking sentinel and the null continuation. -/
theorem blocked_iff (e : Ec) : e.blocked = true ↔ e.cont = some Cont.blocking ∨ e.cont = none := by
  simp [Ec.blocked]

/-- C8: for every EC and every sequence of `block()` and `unblock(c, same_cpu)` operations on
it, `blocked()` is true if and only if `cont` is the blocking sentinel or null; `blocked()` is
true right after a further `block()`; and after a further `unblock(c, same_cpu)` it is false
exactly when `c` is neither null nor the blocking sentinel, whatever `same_cpu` is. -/
theorem blocked_characterisation (e : Ec) (ops : List BlockOp) :
    ((run_block_ops e ops).blocked = true ↔
        (run_block_ops e ops).cont = some Cont.blocking ∨ (run_block_ops e ops).cont = none)
    ∧ (run_block_ops e (ops ++ [BlockOp.block])).blocked = true
    ∧ ∀ (c : Option Cont) (same_cpu : Bool),
        (run_block_ops e (ops ++ [BlockOp.unblock c same_cpu])).blocked = false ↔
          (c ≠ none ∧ c ≠ some Cont.blocking) := by
  refine ⟨blocked_iff _, ?_, ?_⟩
  · simp [run_block_ops, BlockOp.apply, Ec.block, Ec.blocked]
  · intro c same_cpu
    have h := blocked_iff ((run_block_ops e ops).unblock c same_cpu)
    rw [unblock_cont] at h
    simp only [run_block_ops, List.foldl_append, List.foldl_cons, List.foldl_nil, BlockOp.apply]
    simp only [run_block_ops] at h
    rw [← Bool.not_eq_true, h]
    tauto

/-- C8, applied to an EC that blocks and is then unblocked across CPUs with `recv_user`. -/
theorem blocked_characterisation_witness :
    (run_block_ops ec0 [BlockOp.block, BlockOp.unblock (some Cont.recv_user) false]).blocked
      = false :=
  ((blocked_characterisation ec0 [BlockOp.block]).2.2 (some Cont.recv_user) false).mpr
    ⟨by decide, by decide⟩

/-! ## C9: the semaphore wakeup race -/

set_option maxRecDepth 100000 in
set_option synthInstance.maxSize 1024 in
set_option synthInstance.maxHeartbeats 200000 in
/-- The allowed schedules: B entirely before C, C between the two halves of B, B between C and
D, and B after D. -/
theorem interleaving_cases (l : List Step) (h : interleaving l) :
    l = [Step.A, Step.B_test, Step.B_enq, Step.C, Step.D]
      ∨ l = [Step.A, Step.B_test, Step.C, Step.B_enq, Step.D]
      ∨ l = [Step.A, Step.C, Step.B_test, Step.B_enq, Step.D]
      ∨ l = [Step.A, Step.C, Step.D, Step.B_test, Step.B_enq] := by
  obtain ⟨hp, h1, h2, h3, h4, h5⟩ := h
  have hlen := hp.length_eq
  match l, hlen with
  | [a, b, c, d, e], _ =>
    revert hp h1 h2 h3 h4 h5
    revert a b c d e
    decide

/-- The drain loop empties the queue and hands over its elements in queue order. -/
theorem unblock_sc_loop_eq (q out : List ScPtr) : unblock_sc_loop q out = ([], out ++ q) := by
  induction q generalizing out with
  | nil => simp [unblock_sc_loop]
  | cons sc rest ih => simp [unblock_sc_loop, ih]

/-- The method `unblock_sc` leaves `cont` alone, empties the queue and hands over the queued SCs. -/
theorem unblock_sc_eq (e : Ec) : e.unblock_sc = ({ e with queue := [] }, e.queue) := by
  simp [Ec.unblock_sc, unblock_sc_loop_eq]

/-- The method `unblock` stores `c` into `cont` and nothing else, whatever `same_cpu` is. -/
theorem unblock_eq (e : Ec) (c : Option Cont) (same_cpu : Bool) :
    e.unblock c same_cpu = { e with cont := c } := by
  cases same_cpu <;> rfl

/-- The two halves of B, run back to back, are `block_sc`. -/
theorem block_sc_halves (sc : ScPtr) (c : Cont) (same_cpu : Bool) (r : Race) :
    (Race.run sc c same_cpu r [Step.B_test, Step.B_enq]).ec = (r.ec.block_sc sc).1
    ∧ (Race.run sc c same_cpu r [Step.B_test, Step.B_enq]).b_result
        = some (r.ec.block_sc sc).2 := by
  simp only [Race.run, List.foldl_cons, List.foldl_nil, Race.step, Ec.block_sc]
  cases r.ec.blocked <;> simp

/-- The outcome of the schedules in which B reads `cont` before C stores into it. -/
theorem race_b_first (e : Ec) (sc : ScPtr) (c : Cont) (same_cpu : Bool) (l : List Step)
    (hl : l = [Step.A, Step.B_test, Step.B_enq, Step.C, Step.D]
      ∨ l = [Step.A, Step.B_test, Step.C, Step.B_enq, Step.D]) :
    Race.run sc c same_cpu (Race.start e) l
      = ⟨{ e with cont := some c, queue := [] }, some true, some true, e.queue ++ [sc]⟩ := by
  rcases hl with h | h <;> subst h <;>
    simp [Race.run, Race.step, Race.start, unblock_eq, unblock_sc_eq, Ec.block, Ec.blocked,
      enqueue_tail]

/-- The states passed through by the schedules in which C stores into `cont` before B reads
it: B returns false, the queue is the initial one until D empties it. -/
theorem race_c_first (e : Ec) (sc : ScPtr) (c : Cont) (same_cpu : Bool) (l pre : List Step)
    (hc : c ≠ Cont.blocking)
    (hl : l = [Step.A, Step.C, Step.B_test, Step.B_enq, Step.D]
      ∨ l = [Step.A, Step.C, Step.D, Step.B_test, Step.B_enq])
    (hpre : pre <+: l) :
    Race.run sc c same_cpu (Race.start e) l
      = ⟨{ e with cont := some c, queue := [] }, some false, some false, e.queue⟩
    ∧ ((Race.run sc c same_cpu (Race.start e) pre).ec.queue = e.queue
        ∨ (Race.run sc c same_cpu (Race.start e) pre).ec.queue = []) := by
  have hcb : (c == Cont.blocking) = false := beq_eq_false_iff_ne.mpr hc
  rcases hl with h | h <;> subst h
  · refine ⟨by simp [Race.run, Race.step, Race.start, unblock_eq, unblock_sc_eq, Ec.block,
      Ec.blocked, hcb], ?_⟩
    simp only [List.prefix_cons_iff, List.prefix_nil] at hpre
    rcases hpre with h | ⟨_, h, h0 | ⟨_, h1, h0 | ⟨_, h2, h0 | ⟨_, h3, h0 | ⟨_, h4, h0⟩⟩⟩⟩⟩
    all_goals subst_vars
    all_goals simp [Race.run, Race.step, Race.start, unblock_eq, unblock_sc_eq, Ec.block,
      Ec.blocked, hcb]
  · refine ⟨by simp [Race.run, Race.step, Race.start, unblock_eq, unblock_sc_eq, Ec.block,
      Ec.blocked, hcb], ?_⟩
    simp only [List.prefix_cons_iff, List.prefix_nil] at hpre
    rcases hpre with h | ⟨_, h, h0 | ⟨_, h1, h0 | ⟨_, h2, h0 | ⟨_, h3, h0 | ⟨_, h4, h0⟩⟩⟩⟩⟩
    all_goals subst_vars
    all_goals simp [Race.run, Race.step, Race.start, unblock_eq, unblock_sc_eq, Ec.block,
      Ec.blocked, hcb]

/-- C9: in every schedule of A = `block()`, B = `block_sc()`, C = `unblock(c)` with `c` not the
blocking sentinel, D = `unblock_sc()` that has A before B, C before D and A before C, with B and
D excluding each other: if B reads `cont` before C stores into it then B returns true and D
afterwards hands the queued SCs followed by the SC of B to the scheduler; if B reads `cont` after
C then B returns false, the queue never holds anything but its initial content or nothing (the
SC of B is never enqueued), and D hands over the initial queue only; in every schedule the final
queue is empty and the EC ends up not blocked. -/
theorem wakeup_race (e : Ec) (sc : ScPtr) (c : Cont) (same_cpu : Bool) (l : List Step)
    (hc : c ≠ Cont.blocking) (hl : interleaving l) :
    (before Step.B_test Step.C l →
        (Race.run sc c same_cpu (Race.start e) l).b_result = some true
        ∧ (Race.run sc c same_cpu (Race.start e) l).unblocked = e.queue ++ [sc])
    ∧ (before Step.C Step.B_test l →
        (Race.run sc c same_cpu (Race.start e) l).b_result = some false
        ∧ (Race.run sc c same_cpu (Race.start e) l).unblocked = e.queue
        ∧ ∀ pre, pre <+: l →
            (Race.run sc c same_cpu (Race.start e) pre).ec.queue = e.queue
            ∨ (Race.run sc c same_cpu (Race.start e) pre).ec.queue = [])
    ∧ (Race.run sc c same_cpu (Race.start e) l).ec.queue = []
    ∧ (Race.run sc c same_cpu (Race.start e) l).ec.blocked = false := by
  have hnb : ({ e with cont := some c, queue := [] } : Ec).blocked = false := by
    simp [Ec.blocked, hc]
  rcases interleaving_cases l hl with h | h | h | h
  · have hr := race_b_first e sc c same_cpu l (Or.inl h)
    rw [hr]
    subst h
    exact ⟨fun _ => ⟨rfl, rfl⟩, fun h2 => absurd h2 (by decide), rfl, hnb⟩
  · have hr := race_b_first e sc c same_cpu l (Or.inr h)
    rw [hr]
    subst h
    exact ⟨fun _ => ⟨rfl, rfl⟩, fun h2 => absurd h2 (by decide), rfl, hnb⟩
  · have hr := fun pre hpre => race_c_first e sc c same_cpu l pre hc (Or.inl h) hpre
    rw [(hr [] List.nil_prefix).1]
    subst h
    exact ⟨fun h2 => absurd h2 (by decide), fun _ => ⟨rfl, rfl, fun pre hpre => (hr pre hpre).2⟩,
      rfl, hnb⟩
  · have hr := fun pre hpre => race_c_first e sc c same_cpu l pre hc (Or.inr h) hpre
    rw [(hr [] List.nil_prefix).1]
    subst h
    exact ⟨fun h2 => absurd h2 (by decide), fun _ => ⟨rfl, rfl, fun pre hpre => (hr pre hpre).2⟩,
      rfl, hnb⟩

/-- C9, applied to the schedule in which C falls between the two halves of B, on an EC with SCs
7 and 8 queued, core X running SC 3 and core Y storing `ret_user_sysexit`. -/
theorem wakeup_race_witness :
    (Race.run 3 Cont.ret_user_sysexit false (Race.start ec_queued)
        [Step.A, Step.B_test, Step.C, Step.B_enq, Step.D]).b_result = some true
    ∧ (Race.run 3 Cont.ret_user_sysexit false (Race.start ec_queued)
        [Step.A, Step.B_test, Step.C, Step.B_enq, Step.D]).unblocked = ec_queued.queue ++ [3] :=
  (wakeup_race ec_queued 3 Cont.ret_user_sysexit false
    [Step.A, Step.B_test, Step.C, Step.B_enq, Step.D]
    (by decide) ⟨by decide, by decide, by decide, by decide, by decide, by decide⟩).1 (by decide)

/-! ## C10: `block_sc` -/

/-- C10: for every EC `e` with SC queue `q` and current SC `sc`, `block_sc()` returns true if
and only if `e.blocked()` holds when it is called; when it returns true the queue is `q` with
`sc` appended at the tail, when it returns false the queue is unchanged; `cont` is unchanged in
both cases. -/
theorem block_sc_postcondition (e : Ec) (sc : ScPtr) :
    ((e.block_sc sc).2 = true ↔ e.blocked = true)
    ∧ ((e.block_sc sc).2 = true → (e.block_sc sc).1.queue = e.queue ++ [sc])
    ∧ ((e.block_sc sc).2 = false → (e.block_sc sc).1.queue = e.queue)
    ∧ (e.block_sc sc).1.cont = e.cont := by
  unfold Ec.block_sc
  cases h : e.blocked <;> simp [enqueue_tail]

/-- C10, applied to a blocked EC with SCs 7 and 8 queued, on a CPU running SC 3. -/
theorem block_sc_postcondition_witness :
    (ec_queued.block_sc 3).2 = true ∧ (ec_queued.block_sc 3).1.queue = [7, 8] ++ [3] :=
  ⟨(block_sc_postcondition ec_queued 3).1.mpr (by decide),
   (block_sc_postcondition ec_queued 3).2.1 ((block_sc_postcondition ec_queued 3).1.mpr
     (by decide))⟩

/-! ## C11: `unblock_sc` drains the queue -/

/-- C11: for every EC whose SC queue holds `s1, ..., sn` (possibly none), `unblock_sc()`
terminates (the embedding is a total function), the SCs it passes to `Scheduler::unblock` are
exactly `s1, ..., sn`, each once and in queue order, the queue is empty afterwards and nothing
else in the EC has changed. -/
theorem unblock_sc_drains (e : Ec) :
    e.unblock_sc.2 = e.queue
    ∧ e.unblock_sc.1.queue = []
    ∧ e.unblock_sc.1 = { e with queue := [] } := by
  rw [unblock_sc_eq]
  exact ⟨rfl, rfl, rfl⟩

/-- C11, applied to an EC with SCs 7 and 8 queued: both are handed over, 7 first. -/
theorem unblock_sc_drains_witness :
    ec_queued.unblock_sc.2 = [7, 8] ∧ ec_queued.unblock_sc.1.queue = [] :=
  ⟨(unblock_sc_drains ec_queued).1, (unblock_sc_drains ec_queued).2.1⟩

/-! ## C12: the dispatch table -/

/-- C12: the dispatch table has exactly 16 entries; entries 0 to 6 are call, reply, create_pd,
create_ec, create_sc, create_pt, create_sm, entries 8 to 14 are ctrl_ec, ctrl_sc, ctrl_pt,
ctrl_sm, ctrl_hw, assign_int, assign_dev, and entries 7 and 15 are `sys_finish<BAD_HYP>`, which
for every state returns to user mode leaving the state with `p0` of the current EC set to
BAD_HYP and nothing else changed. -/
theorem syscall_table_layout :
    syscall.length = 16
    ∧ syscall.get? 0 = some Cont.sys_call
    ∧ syscall.get? 1 = some Cont.sys_reply
    ∧ syscall.get? 2 = some Cont.sys_create_pd
    ∧ syscall.get? 3 = some Cont.sys_create_ec
    ∧ syscall.get? 4 = some Cont.sys_create_sc
    ∧ syscall.get? 5 = some Cont.sys_create_pt
    ∧ syscall.get? 6 = some Cont.sys_create_sm
    ∧ syscall.get? 8 = some Cont.sys_ctrl_ec
    ∧ syscall.get? 9 = some Cont.sys_ctrl_sc
    ∧ syscall.get? 10 = some Cont.sys_ctrl_pt
    ∧ syscall.get? 11 = some Cont.sys_ctrl_sm
    ∧ syscall.get? 12 = some Cont.sys_ctrl_hw
    ∧ syscall.get? 13 = some Cont.sys_assign_int
    ∧ syscall.get? 14 = some Cont.sys_assign_dev
    ∧ syscall.get? 7 = some (Cont.sys_finish Status.BAD_HYP false)
    ∧ syscall.get? 15 = some (Cont.sys_finish Status.BAD_HYP false)
    ∧ ∀ s : State,
        sys_finish Status.BAD_HYP false s
          = ⟨s.set_p0 s.current Status.BAD_HYP.to_underlying, Transfer.ret_user_sysexit⟩
        ∧ ((sys_finish Status.BAD_HYP false s).state.ecs s.current).regs.exc.sys.p0
            = Status.BAD_HYP.to_underlying
        ∧ (sys_finish Status.BAD_HYP false s).state.ecs s.current
            = { s.ecs s.current with regs.exc.sys.p0 := Status.BAD_HYP.to_underlying }
        ∧ ∀ x, x ≠ s.current → (sys_finish Status.BAD_HYP false s).state.ecs x = s.ecs x := by
  refine ⟨rfl, rfl, rfl, rfl, rfl, rfl, rfl, rfl, rfl, rfl, rfl, rfl, rfl, rfl, rfl, rfl, rfl,
    fun s => ⟨rfl, ?_, ?_, ?_⟩⟩
  · exact (set_p0_frame s s.current _).2.2.1
  · simp [sys_finish, sys_finish_status, State.set_p0]
  · exact (set_p0_frame s s.current _).2.2.2.2

/-! ## C13: status return -/

/-- C13: for every status `st`, state and EC `p`, `sys_finish_status (st)` on `p` sets `p0` of
the syscall frame of `p` to the numeric value of `st`, leaves `p1` to `p5` and everything else
unchanged, and continues with `ret_user_sysexit`; `sys_finish<S, T>` is `sys_finish_status (S)`
on the current EC, preceded by the dequeue of the hypercall timeout of the current EC when `T`
is true and by nothing when `T` is false. -/
theorem status_return (st : Status) (T : Bool) (s : State) (p : EcPtr) :
    (sys_finish_status s p st).next = Transfer.ret_user_sysexit
    ∧ (sys_finish_status s p st).state.ecs p
        = { s.ecs p with regs.exc.sys := { (s.ecs p).regs.exc.sys with p0 := st.to_underlying } }
    ∧ (∀ x, x ≠ p → (sys_finish_status s p st).state.ecs x = s.ecs x)
    ∧ (sys_finish_status s p st).state = { s with ecs := (sys_finish_status s p st).state.ecs }
    ∧ sys_finish st T s
        = sys_finish_status (if T = true then clr_timeout s s.current else s) s.current st
    ∧ sys_finish st true s = sys_finish_status (clr_timeout s s.current) s.current st
    ∧ sys_finish st false s = sys_finish_status s s.current st
    ∧ ((sys_finish st T s).state.ecs s.current).timeout
        = (if T = true then false else (s.ecs s.current).timeout) := by
  refine ⟨rfl, ?_, ?_, rfl, ?_, rfl, rfl, ?_⟩
  · simp [sys_finish_status, State.set_p0]
  · intro x hx
    simp [sys_finish_status, State.set_p0, set_ec_ecs, hx]
  · cases T <;> rfl
  · cases T <;> simp [sys_finish, sys_finish_status, State.set_p0, clr_timeout]

/-- C13, applied to an EC with a busy frame: only `p0` changes, and the armed timeout is
dequeued by `sys_finish<ABORTED, true>` but not by `sys_finish<ABORTED, false>`. -/
theorem status_return_witness :
    ((sys_finish_status st_frame 0 Status.BAD_PAR).state.ecs 0).regs.exc.sys
        = ⟨5, 11, 12, 13, 14, 15⟩
    ∧ ((sys_finish Status.ABORTED true st_frame).state.ecs 0).timeout = false
    ∧ ((sys_finish Status.ABORTED false st_frame).state.ecs 0).timeout = true := by
  have h1 := (status_return Status.BAD_PAR false st_frame 0).2.1
  have h2 := (status_return Status.ABORTED true st_frame st_frame.current).2.2.2.2.2.2.2
  have h3 := (status_return Status.ABORTED false st_frame st_frame.current).2.2.2.2.2.2.2
  exact ⟨by rw [h1]; rfl, h2, h3⟩

/-! ## Status returns in the kernel state -/

/-- The method `finish_status` returns the status it is given, touches nothing but the syscall
frame of the current EC, and makes no call into a collaborating subsystem. -/
theorem finish_status_frame (k : Kern) (S : Status) :
    (k.finish_status S).returns S
    ∧ (k.finish_status S).k = { k with st := k.st.set_p0 k.st.current S.to_underlying }
    ∧ (k.finish_status S).k.events = k.events
    ∧ (k.finish_status S).k.cpu_hazard = k.cpu_hazard
    ∧ (k.finish_status S).k.st.space_obj = k.st.space_obj
    ∧ (k.finish_status S).k.st.pts = k.st.pts := by
  refine ⟨?_, rfl, rfl, rfl, rfl, rfl⟩
  simp [Kout.returns, Kern.finish_status, sys_finish_status, State.set_p0]

/-- The function `finish` with `T = false` returns the status it is given. -/
theorem finish_returns (k : Kern) (S st : Status) : (k.finish S false).returns st ↔ S = st := by
  simp only [Kout.returns, Kern.finish]
  exact sys_finish_returns S st k.st

/-! ## C14: delegation alignment -/

/-- A number is a multiple of `2 ^ n` exactly when its `n` low bits are clear. -/
theorem mod_two_pow_eq_zero (x n : Nat) : x % 2 ^ n = 0 ↔ ∀ i, i < n → x.testBit i = false := by
  constructor
  · intro h i hi
    have h1 := Nat.testBit_mod_two_pow x n i
    rw [h] at h1
    simpa [hi] using h1.symm
  · intro h
    apply Nat.eq_of_testBit_eq
    intro i
    rw [Nat.testBit_mod_two_pow]
    by_cases hi : i < n
    · simp [hi, h i hi]
    · simp [hi]

/-- For an order below the word width, the alignment mask is `2 ^ ord - 1`. -/
theorem alignment_mask (n : Nat) (h : n < 64) :
    (BITN n + 2 ^ WORD_BITS - 1) % 2 ^ WORD_BITS = 2 ^ n - 1 := by
  have h1 : 2 ^ n < 2 ^ 64 := Nat.pow_lt_pow_right (by decide) h
  have h2 : 0 < 2 ^ n := Nat.pow_pos (by decide)
  simp only [BITN, WORD_BITS, Nat.mod_eq_of_lt h1]
  omega

/-- C14: for every request, whenever the alignment test `(ssb | dsb) & (BITN (ord) - 1)` is
non-zero, `sys_ctrl_pd` is `sys_finish_status (BAD_PAR)` on the initial state, whatever the
capabilities, `validate_take_grant` and the `delegate` operations are: it returns BAD_PAR and
only the `p0` of the caller changes; for an order below the word width the test is non-zero
exactly when `ssb` or `dsb` is not a multiple of `2 ^ ord`; and when the test is zero
`sys_ctrl_pd` is its dispatch on the capabilities, which decides the status. -/
theorem delegation_alignment (hw : Hw) (r : Sys_ctrl_pd) (k : Kern) :
    (r.misalignment ≠ 0 →
        sys_ctrl_pd hw r k = k.finish_status Status.BAD_PAR
        ∧ (sys_ctrl_pd hw r k).returns Status.BAD_PAR
        ∧ (sys_ctrl_pd hw r k).k
            = { k with st := k.st.set_p0 k.st.current Status.BAD_PAR.to_underlying })
    ∧ (r.ord < 64 →
        (r.misalignment ≠ 0 ↔ (¬ 2 ^ r.ord ∣ r.ssb ∨ ¬ 2 ^ r.ord ∣ r.dsb)))
    ∧ (r.misalignment = 0 → sys_ctrl_pd hw r k = sys_ctrl_pd_dispatch hw r k) := by
  refine ⟨?_, ?_, ?_⟩
  · intro h
    have h1 : sys_ctrl_pd hw r k = k.finish_status Status.BAD_PAR := by
      simp [sys_ctrl_pd, h]
    rw [h1]
    exact ⟨rfl, (finish_status_frame k _).1, (finish_status_frame k _).2.1⟩
  · intro hord
    have hm : r.misalignment = (r.ssb ||| r.dsb) % 2 ^ r.ord := by
      unfold Sys_ctrl_pd.misalignment
      rw [alignment_mask r.ord hord, Nat.and_pow_two_sub_one_eq_mod]
    rw [hm, Nat.dvd_iff_mod_eq_zero, Nat.dvd_iff_mod_eq_zero, ← not_and_or, not_iff_not,
      mod_two_pow_eq_zero, mod_two_pow_eq_zero, mod_two_pow_eq_zero]
    constructor
    · intro h
      constructor
      · intro i hi
        have := h i hi
        rw [Nat.testBit_or, Bool.or_eq_false_iff] at this
        exact this.1
      · intro i hi
        have := h i hi
        rw [Nat.testBit_or, Bool.or_eq_false_iff] at this
        exact this.2
    · rintro ⟨h1, h2⟩ i hi
      rw [Nat.testBit_or, h1 i hi, h2 i hi]
      rfl
  · intro h
    simp [sys_ctrl_pd, h]

/-- C14, applied to order 4: `ssb = 0x18` is rejected with BAD_PAR, leaving only the `p0` of
the caller changed, while `ssb = 0x10` with `dsb = 0x20` passes the alignment check. -/
theorem delegation_alignment_witness :
    (sys_ctrl_pd hw0 ⟨1, 2, 24, 32, 4, 0, 0⟩ k0).returns Status.BAD_PAR
    ∧ (sys_ctrl_pd hw0 ⟨1, 2, 24, 32, 4, 0, 0⟩ k0).k = { k0 with st := k0.st.set_p0 0 5 }
    ∧ sys_ctrl_pd hw0 ⟨1, 2, 16, 32, 4, 0, 0⟩ k0
        = sys_ctrl_pd_dispatch hw0 ⟨1, 2, 16, 32, 4, 0, 0⟩ k0 :=
  ⟨((delegation_alignment hw0 ⟨1, 2, 24, 32, 4, 0, 0⟩ k0).1 (by decide)).2.1,
   ((delegation_alignment hw0 ⟨1, 2, 24, 32, 4, 0, 0⟩ k0).1 (by decide)).2.2,
   (delegation_alignment hw0 ⟨1, 2, 16, 32, 4, 0, 0⟩ k0).2.2 (by decide)⟩

/-! ## C15: the vCPU creation gate -/

/-- C15 (as stated, refuted): a request with `utcb = 0` on hardware without VMX and SVM that
names CPU 5, which is not online, returns BAD_CPU, not BAD_FTR. -/
theorem sys_create_ec_offline_cpu :
    hw0.virt = 0
    ∧ hw0.cpu_online 5 = false
    ∧ (sys_create_ec hw0 ⟨9, 1, 5, 0, 0, 0, true⟩ k0).map
          (fun o => (o.next, (o.k.st.ecs o.k.st.current).regs.exc.sys.p0))
        = some (Transfer.ret_user_sysexit, Status.BAD_CPU.to_underlying) := by
  decide

/-- C15 (amended): for every `sys_create_ec` request with `utcb = 0` that passes the two
earlier checks (the requested CPU is online and the UTCB address is below
`Space_hst::selectors() << PAGE_BITS`), on hardware whose feature word has neither the VMX nor
the SVM feature, `sys_create_ec` returns BAD_FTR and changes nothing but the `p0` of the
caller. -/
theorem vcpu_creation_gate (hw : Hw) (r : Sys_create_ec) (k : Kern)
    (hcpu : hw.cpu_online r.cpu = true) (hlim : r.utcb < hw.utcb_limit)
    (hutcb : r.utcb = 0) (hvirt : hw.virt = 0) :
    ∃ out, sys_create_ec hw r k = some out
      ∧ out.returns Status.BAD_FTR
      ∧ out.k = { k with st := k.st.set_p0 k.st.current Status.BAD_FTR.to_underlying } := by
  refine ⟨k.finish Status.BAD_FTR false, ?_, (finish_returns _ _ _).mpr rfl, rfl⟩
  have h2 : ¬ hw.utcb_limit ≤ r.utcb := by omega
  simp only [sys_create_ec, hcpu, Bool.not_true, ge_iff_le, h2, if_false]
  simp [hutcb, hvirt]

/-- C15 (amended), applied to a vCPU request for the online CPU 1 on the example hardware,
which has no virtualization feature. -/
theorem vcpu_creation_gate_witness :
    ∃ out, sys_create_ec hw0 ⟨9, 1, 1, 0, 0, 0, true⟩ k0 = some out
      ∧ out.returns Status.BAD_FTR
      ∧ out.k = { k0 with st := k0.st.set_p0 0 6 } :=
  vcpu_creation_gate hw0 ⟨9, 1, 1, 0, 0, 0, true⟩ k0 (by decide) (by decide) (by decide)
    (by decide)

/-! ## C16: attaching a space at most once -/

/-- The mask `2 ^ n` meets `v` exactly when bit `n` of `v` is set. -/
theorem and_two_pow_eq_zero (v n : Nat) : v &&& 2 ^ n = 0 ↔ v.testBit n = false := by
  constructor
  · intro h
    have h1 : (v &&& 2 ^ n).testBit n = false := by rw [h]; simp
    simpa [Nat.testBit_two_pow_self] using h1
  · intro h
    apply Nat.eq_of_testBit_eq
    intro i
    rw [Nat.testBit_and, Nat.testBit_two_pow]
    by_cases hni : n = i
    · subst hni
      simp [h]
    · simp [hni]

/-- For a bit index below the width of `unsigned`, `BIT` is the power of two. -/
theorem BIT_eq (n : Nat) (h : n < 32) : BIT n = 2 ^ n := by
  unfold BIT UNSIGNED_BITS
  exact Nat.mod_eq_of_lt (Nat.pow_lt_pow_right (by decide) h)

/-- The bits of the set after `attach`. -/
theorem attach_testBit (u : Subtype → Nat) (pd : Pd) (s : Subtype) (i : Nat) (hs : u s < 32) :
    (pd.attach u s).1.spaces.testBit i = (pd.spaces.testBit i || decide (u s = i)) := by
  simp [Pd.attach, test_and_set, BIT_eq _ hs, Nat.testBit_two_pow]

/-- The value returned by `attach`. -/
theorem attach_result (u : Subtype → Nat) (pd : Pd) (s : Subtype) (hs : u s < 32) :
    (pd.attach u s).2 = !pd.spaces.testBit (u s) := by
  simp only [Pd.attach, test_and_set, BIT_eq _ hs]
  cases hb : pd.spaces.testBit (u s)
  · simp [(and_two_pow_eq_zero _ _).mpr hb]
  · have : pd.spaces &&& 2 ^ u s ≠ 0 := by
      intro h0
      rw [(and_two_pow_eq_zero _ _).mp h0] at hb
      exact absurd hb (by decide)
    simp [this]

/-- The bits of the set after `detach`, within the width of `unsigned`. -/
theorem detach_testBit (u : Subtype → Nat) (pd : Pd) (s : Subtype) (i : Nat) (hs : u s < 32)
    (hi : i < 32) :
    (pd.detach u s).spaces.testBit i = (pd.spaces.testBit i && !decide (u s = i)) := by
  simp only [Pd.detach, unsigned_not, BIT_eq _ hs, UNSIGNED_BITS, Nat.testBit_and,
    Nat.testBit_xor, Nat.testBit_two_pow, Nat.testBit_two_pow_sub_one, hi]
  simp

/-- Once the bit of `s` is set, no `attach (s)` returns true until a `detach (s)`. -/
theorem run_after_set (u : Subtype → Nat) (hu : ∀ t, u t < 32) (hinj : Function.Injective u)
    (s : Subtype) (ops : List PdOp) (pd : Pd) (hset : pd.spaces.testBit (u s) = true)
    (hno : PdOp.detach s ∉ ops) : (Pd.run u pd ops).count (s, true) = 0 := by
  induction ops generalizing pd with
  | nil => simp [Pd.run]
  | cons op ops ih =>
    have hno2 : PdOp.detach s ∉ ops := fun h => hno (List.mem_cons_of_mem _ h)
    cases op with
    | attach t =>
      have hset2 : (pd.attach u t).1.spaces.testBit (u s) = true := by
        rw [attach_testBit u pd t (u s) (hu t), hset]
        rfl
      have hne : ((t, (pd.attach u t).2) == (s, true)) = false := by
        rw [beq_eq_false_iff_ne]
        intro h
        have ht : t = s := (Prod.mk.inj h).1
        have hr : (pd.attach u t).2 = true := (Prod.mk.inj h).2
        rw [attach_result u pd t (hu t), ht, hset] at hr
        exact absurd hr (by decide)
      simp only [Pd.run, List.count_cons, hne]
      simpa using ih _ hset2 hno2
    | detach t =>
      have hts : t ≠ s := fun h => hno (by rw [h]; exact List.mem_cons_self _ _)
      have hut : u t ≠ u s := fun h => hts (hinj h)
      have hset2 : (pd.detach u t).spaces.testBit (u s) = true := by
        rw [detach_testBit u pd t (u s) (hu t) (hu s), hset]
        simp [hut]
      simpa [Pd.run] using ih _ hset2 hno2

/-- C16: for every PD bitset and every space subtype `s` (the enumerators having distinct
values below the width of `unsigned`), `attach (s)` returns true if and only if the bit of `s`
was clear beforehand; afterwards the bit of `s` is set and the bits of all other subtypes are
unchanged; in every sequence of `attach` and `detach` calls without a `detach (s)`, at most one
`attach (s)` returns true; and `detach (s)` clears the bit of `s`, leaves the bits of all other
subtypes unchanged, and a following `attach (s)` returns true. -/
theorem attach_at_most_once (u : Subtype → Nat) (hu : ∀ t, u t < 32)
    (hinj : Function.Injective u) (pd : Pd) (s : Subtype) (ops : List PdOp) :
    ((pd.attach u s).2 = true ↔ pd.spaces.testBit (u s) = false)
    ∧ (pd.attach u s).1.spaces.testBit (u s) = true
    ∧ (∀ t, t ≠ s → (pd.attach u s).1.spaces.testBit (u t) = pd.spaces.testBit (u t))
    ∧ (PdOp.detach s ∉ ops → (Pd.run u pd ops).count (s, true) ≤ 1)
    ∧ (pd.detach u s).spaces.testBit (u s) = false
    ∧ (∀ t, t ≠ s → (pd.detach u s).spaces.testBit (u t) = pd.spaces.testBit (u t))
    ∧ ((pd.detach u s).attach u s).2 = true := by
  refine ⟨?_, ?_, ?_, ?_, ?_, ?_, ?_⟩
  · rw [attach_result u pd s (hu s)]
    cases pd.spaces.testBit (u s) <;> simp
  · rw [attach_testBit u pd s (u s) (hu s)]
    simp
  · intro t hts
    have hut : u s ≠ u t := fun h => hts (hinj h).symm
    rw [attach_testBit u pd s (u t) (hu s)]
    simp [hut]
  · intro hno
    induction ops generalizing pd with
    | nil => simp [Pd.run]
    | cons op ops ih =>
      have hno2 : PdOp.detach s ∉ ops := fun h => hno (List.mem_cons_of_mem _ h)
      cases op with
      | attach t =>
        by_cases hts : t = s
        · subst hts
          have hset : (pd.attach u t).1.spaces.testBit (u t) = true := by
            rw [attach_testBit u pd t (u t) (hu t)]
            simp
          have h0 := run_after_set u hu hinj t ops _ hset hno2
          simp only [Pd.run, List.count_cons, h0]
          split <;> omega
        · have hne : ((t, (pd.attach u t).2) == (s, true)) = false := by
            rw [beq_eq_false_iff_ne]
            intro h
            exact hts (Prod.mk.inj h).1
          simp only [Pd.run, List.count_cons, hne]
          simpa using ih _ hno2
      | detach t =>
        simpa [Pd.run] using ih _ hno2
  · rw [detach_testBit u pd s (u s) (hu s) (hu s)]
    simp
  · intro t hts
    have hut : u s ≠ u t := fun h => hts (hinj h).symm
    rw [detach_testBit u pd s (u t) (hu s) (hu t)]
    simp [hut]
  · rw [attach_result u _ s (hu s), detach_testBit u pd s (u s) (hu s) (hu s)]
    simp

/-- The example numbering is injective. -/
theorem subtype_index_injective : Function.Injective subtype_index := by
  intro a b h
  cases a <;> cases b <;> first | rfl | exact absurd h (by decide)

/-- C16, applied to an empty PD: the host space is attached twice with the object space in
between (only the first attach of HST succeeds), then detached and attached again. -/
theorem attach_at_most_once_witness :
    (pd0.attach subtype_index Subtype.HST).2 = true
    ∧ (Pd.run subtype_index pd0
        [PdOp.attach Subtype.HST, PdOp.attach Subtype.OBJ, PdOp.attach Subtype.HST]).count
          (Subtype.HST, true) ≤ 1
    ∧ (((pd0.attach subtype_index Subtype.HST).1.detach subtype_index Subtype.HST).attach
        subtype_index Subtype.HST).2 = true :=
  ⟨(attach_at_most_once subtype_index (by intro t; cases t <;> decide) subtype_index_injective
      pd0 Subtype.HST []).1.mpr (by decide),
   (attach_at_most_once subtype_index (by intro t; cases t <;> decide) subtype_index_injective
      pd0 Subtype.HST
      [PdOp.attach Subtype.HST, PdOp.attach Subtype.OBJ, PdOp.attach Subtype.HST]).2.2.2.1
      (by decide),
   (attach_at_most_once subtype_index (by intro t; cases t <;> decide) subtype_index_injective
      (pd0.attach subtype_index Subtype.HST).1 Subtype.HST []).2.2.2.2.2.2⟩

/-! ## C17: recall -/

/-- Writing the same value into `p0` twice is writing it once. -/
theorem set_p0_idem (s : State) (p : EcPtr) (v : Nat) :
    (s.set_p0 p v).set_p0 p v = s.set_p0 p v := by
  simp [State.set_p0, State.set_ec]

/-- Finishing a syscall changes no hazard, home CPU or object space of any EC. -/
theorem finish_ecs (k : Kern) (S : Status) (x : EcPtr) :
    ((k.finish S false).k.st.ecs x).regs.hazard = (k.st.ecs x).regs.hazard
    ∧ ((k.finish S false).k.st.ecs x).cpu = (k.st.ecs x).cpu
    ∧ ((k.finish S false).k.st.ecs x).regs.obj = (k.st.ecs x).regs.obj := by
  simp only [Kern.finish, sys_finish, sys_finish_status, State.set_p0, set_ec_ecs]
  by_cases hx : x = k.st.current
  · simp [hx]
  · simp [hx]

/-- Adding hazards to one EC changes the hazards of that EC only, and no home CPU or object
space. -/
theorem set_hazard_ecs (s : State) (p x : EcPtr) (h : Nat) :
    ((s.set_hazard p h).ecs x).regs.hazard
        = (if x = p then (s.ecs p).regs.hazard ||| h else (s.ecs x).regs.hazard)
    ∧ ((s.set_hazard p h).ecs x).cpu = (s.ecs x).cpu
    ∧ ((s.set_hazard p h).ecs x).regs.obj = (s.ecs x).regs.obj := by
  simp only [State.set_hazard, set_ec_ecs]
  by_cases hx : x = p
  · simp [hx]
  · simp [hx]

/-- Finishing twice with the same status is finishing once. -/
theorem finish_idem (k : Kern) (S : Status) :
    (k.finish S false).k.finish S false = ⟨(k.finish S false).k, Transfer.ret_user_sysexit⟩ := by
  have h : ((k.st.set_p0 k.st.current S.to_underlying).set_p0 k.st.current S.to_underlying)
      = k.st.set_p0 k.st.current S.to_underlying := set_p0_idem _ _ _
  simp only [Kern.finish, sys_finish, sys_finish_status, Bool.false_eq_true, if_false]
  have hc : (k.st.set_p0 k.st.current S.to_underlying).current = k.st.current := rfl
  rw [hc, h]

/-- When the named EC already has the RECALL hazard, `sys_ctrl_ec` only finishes with
SUCCESS. -/
theorem sys_ctrl_ec_already (hw : Hw) (r : Sys_ctrl_ec) (k : Kern) (o : Kobject_ref)
    (hv : (k.st.space_obj (k.st.ecs k.st.current).regs.obj r.ec).validate Kobject_type.EC
            Perm_ec.CTRL = true)
    (ho : (k.st.space_obj (k.st.ecs k.st.current).regs.obj r.ec).obj = some o)
    (hb : (k.st.ecs o.ptr).regs.hazard.testBit hw.recall_bit = true) :
    sys_ctrl_ec hw r k = some (k.finish Status.SUCCESS false) := by
  have hz : ¬ (k.st.ecs o.ptr).regs.hazard &&& hw.RECALL = 0 := by
    intro h0
    rw [Hw.RECALL, and_two_pow_eq_zero] at h0
    rw [h0] at hb
    exact absurd hb (by decide)
  simp [sys_ctrl_ec, hv, ho, hz]

/-- After a `sys_ctrl_ec` that left the RECALL hazard set, the same call changes nothing. -/
theorem sys_ctrl_ec_again (hw : Hw) (r : Sys_ctrl_ec) (k k2 : Kern) (o : Kobject_ref)
    (hv : (k.st.space_obj (k.st.ecs k.st.current).regs.obj r.ec).validate Kobject_type.EC
            Perm_ec.CTRL = true)
    (ho : (k.st.space_obj (k.st.ecs k.st.current).regs.obj r.ec).obj = some o)
    (h1 : k2.st.space_obj = k.st.space_obj) (h2 : k2.st.current = k.st.current)
    (h3 : (k2.st.ecs k.st.current).regs.obj = (k.st.ecs k.st.current).regs.obj)
    (h4 : (k2.st.ecs o.ptr).regs.hazard.testBit hw.recall_bit = true) :
    sys_ctrl_ec hw r (k2.finish Status.SUCCESS false).k
      = some ⟨(k2.finish Status.SUCCESS false).k, Transfer.ret_user_sysexit⟩ := by
  have e1 : (k2.finish Status.SUCCESS false).k.st.space_obj = k.st.space_obj := h1
  have e2 : (k2.finish Status.SUCCESS false).k.st.current = k.st.current := h2
  have e3 : ((k2.finish Status.SUCCESS false).k.st.ecs k.st.current).regs.obj
      = (k.st.ecs k.st.current).regs.obj := by
    rw [(finish_ecs k2 Status.SUCCESS k.st.current).2.2, h3]
  have e4 : ((k2.finish Status.SUCCESS false).k.st.ecs o.ptr).regs.hazard.testBit hw.recall_bit
      = true := by
    rw [(finish_ecs k2 Status.SUCCESS o.ptr).1, h4]
  have hv2 : ((k2.finish Status.SUCCESS false).k.st.space_obj
      ((k2.finish Status.SUCCESS false).k.st.ecs
        (k2.finish Status.SUCCESS false).k.st.current).regs.obj r.ec).validate
      Kobject_type.EC Perm_ec.CTRL = true := by
    rw [e1, e2, e3]
    exact hv
  have ho2 : ((k2.finish Status.SUCCESS false).k.st.space_obj
      ((k2.finish Status.SUCCESS false).k.st.ecs
        (k2.finish Status.SUCCESS false).k.st.current).regs.obj r.ec).obj = some o := by
    rw [e1, e2, e3]
    exact ho
  rw [sys_ctrl_ec_already hw r _ o hv2 ho2 e4, finish_idem]

/-- C17: for every `sys_ctrl_ec` call whose selector validates for `Perm_ec::CTRL` and names the
EC `T`, the call is defined and returns SUCCESS; afterwards the hazards of `T` contain RECALL
and every other hazard bit of `T` is unchanged; the calls into the interrupt subsystem are
extended by exactly one `send_cpu (RKE, T.cpu)` if RECALL was not set before, the home CPU of
`T` is not the calling CPU and `T` is the current EC of its home CPU, and by nothing otherwise;
and the same call repeated on the resulting state returns to user mode with that state
unchanged, so it sends no interrupt. -/
theorem recall_hazard (hw : Hw) (r : Sys_ctrl_ec) (k : Kern) (o : Kobject_ref)
    (hv : (k.st.space_obj (k.st.ecs k.st.current).regs.obj r.ec).validate Kobject_type.EC
            Perm_ec.CTRL = true)
    (ho : (k.st.space_obj (k.st.ecs k.st.current).regs.obj r.ec).obj = some o) :
    ∃ out, sys_ctrl_ec hw r k = some out
      ∧ out.returns Status.SUCCESS
      ∧ (out.k.st.ecs o.ptr).regs.hazard.testBit hw.recall_bit = true
      ∧ (∀ i, i ≠ hw.recall_bit →
          (out.k.st.ecs o.ptr).regs.hazard.testBit i = (k.st.ecs o.ptr).regs.hazard.testBit i)
      ∧ out.k.events = k.events ++
          (if (k.st.ecs o.ptr).regs.hazard.testBit hw.recall_bit = false
              ∧ k.cpu_id ≠ (k.st.ecs o.ptr).cpu
              ∧ k.remote_current (k.st.ecs o.ptr).cpu = o.ptr
            then [Event.send_cpu Request.RKE (k.st.ecs o.ptr).cpu] else [])
      ∧ sys_ctrl_ec hw r out.k = some ⟨out.k, Transfer.ret_user_sysexit⟩ := by
  cases hb : (k.st.ecs o.ptr).regs.hazard.testBit hw.recall_bit with
  | true =>
    refine ⟨k.finish Status.SUCCESS false, sys_ctrl_ec_already hw r k o hv ho hb,
      (finish_returns _ _ _).mpr rfl, ?_, ?_, ?_,
      sys_ctrl_ec_again hw r k k o hv ho rfl rfl rfl hb⟩
    · rw [(finish_ecs _ _ _).1]
      exact hb
    · intro i _
      rw [(finish_ecs _ _ _).1]
    · simp [Kern.finish]
  | false =>
    have hz : (k.st.ecs o.ptr).regs.hazard &&& hw.RECALL = 0 := by
      rw [Hw.RECALL, and_two_pow_eq_zero]
      exact hb
    have hcpu1 : ((k.st.set_hazard o.ptr hw.RECALL).ecs o.ptr).cpu = (k.st.ecs o.ptr).cpu :=
      (set_hazard_ecs _ _ _ _).2.1
    have hhz1 : ((k.st.set_hazard o.ptr hw.RECALL).ecs o.ptr).regs.hazard
        = (k.st.ecs o.ptr).regs.hazard ||| hw.RECALL := by
      rw [(set_hazard_ecs _ _ _ _).1, if_pos rfl]
    have hobj1 : ((k.st.set_hazard o.ptr hw.RECALL).ecs k.st.current).regs.obj
        = (k.st.ecs k.st.current).regs.obj := (set_hazard_ecs _ _ _ _).2.2
    have hset : ((k.st.ecs o.ptr).regs.hazard ||| hw.RECALL).testBit hw.recall_bit = true := by
      rw [Nat.testBit_or, Hw.RECALL, Nat.testBit_two_pow_self]
      simp
    have hset1 : ((k.st.set_hazard o.ptr hw.RECALL).ecs o.ptr).regs.hazard.testBit
        hw.recall_bit = true := by
      rw [hhz1]
      exact hset
    have hother : ∀ i, i ≠ hw.recall_bit →
        ((k.st.ecs o.ptr).regs.hazard ||| hw.RECALL).testBit i
          = (k.st.ecs o.ptr).regs.hazard.testBit i := by
      intro i hi
      rw [Nat.testBit_or, Hw.RECALL, Nat.testBit_two_pow_of_ne (Ne.symm hi)]
      simp
    by_cases hc : k.cpu_id ≠ (k.st.ecs o.ptr).cpu
        ∧ k.remote_current (k.st.ecs o.ptr).cpu = o.ptr
    · have hc1 : (k.cpu_id != (k.st.ecs o.ptr).cpu) = true := by simpa using hc.1
      have hc2 : (k.remote_current (k.st.ecs o.ptr).cpu == o.ptr) = true := by simpa using hc.2
      refine ⟨(({ k with st := k.st.set_hazard o.ptr hw.RECALL } : Kern).log
          (Event.send_cpu Request.RKE (k.st.ecs o.ptr).cpu)).finish Status.SUCCESS false,
        ?_, (finish_returns _ _ _).mpr rfl, ?_, ?_, ?_,
        sys_ctrl_ec_again hw r k _ o hv ho rfl rfl hobj1 hset1⟩
      · simp [sys_ctrl_ec, hv, ho, hz, hcpu1, hc1, hc2]
      · rw [(finish_ecs _ _ _).1]
        exact hset1
      · intro i hi
        rw [(finish_ecs _ _ _).1]
        exact (congrArg (fun h => Nat.testBit h i) hhz1).trans (hother i hi)
      · simp [Kern.finish, Kern.log, hc]
    · have hc3 : (k.cpu_id != (k.st.ecs o.ptr).cpu
          && k.remote_current (k.st.ecs o.ptr).cpu == o.ptr) = false := by
        rw [Bool.and_eq_false_iff]
        by_cases h1 : k.cpu_id = (k.st.ecs o.ptr).cpu
        · left
          simpa using h1
        · right
          have h2 : ¬ k.remote_current (k.st.ecs o.ptr).cpu = o.ptr := fun h => hc ⟨h1, h⟩
          simpa using h2
      refine ⟨({ k with st := k.st.set_hazard o.ptr hw.RECALL } : Kern).finish Status.SUCCESS
          false, ?_, (finish_returns _ _ _).mpr rfl, ?_, ?_, ?_,
        sys_ctrl_ec_again hw r k _ o hv ho rfl rfl hobj1 hset1⟩
      · simp [sys_ctrl_ec, hv, ho, hz, hcpu1, hc3]
      · rw [(finish_ecs _ _ _).1]
        exact hset1
      · intro i hi
        rw [(finish_ecs _ _ _).1]
        exact (congrArg (fun h => Nat.testBit h i) hhz1).trans (hother i hi)
      · simp [Kern.finish, hc]

/-- C17, applied to CPU 0 recalling EC 2, which runs on CPU 1 and has hazard bit 2 pending: the
call returns SUCCESS, RECALL (bit 3) is added, and one interrupt goes to CPU 1. -/
theorem recall_hazard_witness :
    ∃ out, sys_ctrl_ec hw0 ⟨5⟩ k_recall = some out
      ∧ out.returns Status.SUCCESS
      ∧ (out.k.st.ecs 2).regs.hazard.testBit 3 = true
      ∧ (∀ i, i ≠ 3 →
          (out.k.st.ecs 2).regs.hazard.testBit i = (k_recall.st.ecs 2).regs.hazard.testBit i)
      ∧ out.k.events = [] ++
          (if (k_recall.st.ecs 2).regs.hazard.testBit 3 = false
              ∧ k_recall.cpu_id ≠ (k_recall.st.ecs 2).cpu
              ∧ k_recall.remote_current (k_recall.st.ecs 2).cpu = 2
            then [Event.send_cpu Request.RKE 1] else [])
      ∧ sys_ctrl_ec hw0 ⟨5⟩ out.k = some ⟨out.k, Transfer.ret_user_sysexit⟩ :=
  recall_hazard hw0 ⟨5⟩ k_recall ⟨Kobject_type.EC, 2⟩ (by decide) (by decide)

/-! ## C18: the frame of `sys_ctrl_pt` -/

/-- C18: for every `sys_ctrl_pt` call, if the selector validates for `Perm_pt::CTRL` the call is
defined and returns SUCCESS, the badge id of the named portal is the id argument, its server
EC, entry IP and MTD are unchanged and so is every other portal; if the selector does not
validate the call returns BAD_CAP and no portal is modified. -/
theorem sys_ctrl_pt_frame (r : Sys_ctrl_pt) (s : State) :
    (∀ o, (s.space_obj (s.ecs s.current).regs.obj r.pt).validate Kobject_type.PT Perm_pt.CTRL
          = true →
        (s.space_obj (s.ecs s.current).regs.obj r.pt).obj = some o →
        ∃ out, sys_ctrl_pt r s = some out
          ∧ out.returns Status.SUCCESS
          ∧ (out.state.pts o.ptr).id = r.id
          ∧ (out.state.pts o.ptr).ec = (s.pts o.ptr).ec
          ∧ (out.state.pts o.ptr).ip = (s.pts o.ptr).ip
          ∧ (out.state.pts o.ptr).mtd = (s.pts o.ptr).mtd
          ∧ ∀ q, q ≠ o.ptr → out.state.pts q = s.pts q)
    ∧ ((s.space_obj (s.ecs s.current).regs.obj r.pt).validate Kobject_type.PT Perm_pt.CTRL
          = false →
        ∃ out, sys_ctrl_pt r s = some out
          ∧ out.returns Status.BAD_CAP
          ∧ out.state.pts = s.pts) := by
  constructor
  · intro o hv ho
    refine ⟨sys_finish Status.SUCCESS false (s.set_id o.ptr r.id), ?_,
      (sys_finish_returns _ _ _).mpr rfl, ?_, ?_, ?_, ?_, ?_⟩
    · simp [sys_ctrl_pt, hv, ho]
    · simp [sys_finish, sys_finish_status, State.set_p0, State.set_id]
    · simp [sys_finish, sys_finish_status, State.set_p0, State.set_id]
    · simp [sys_finish, sys_finish_status, State.set_p0, State.set_id]
    · simp [sys_finish, sys_finish_status, State.set_p0, State.set_id]
    · intro q hq
      simp [sys_finish, sys_finish_status, State.set_p0, State.set_id, Function.update_apply, hq]
  · intro hv
    refine ⟨sys_finish Status.BAD_CAP false s, ?_, (sys_finish_returns _ _ _).mpr rfl, rfl⟩
    simp [sys_ctrl_pt, hv]

/-- C18, applied to EC 0 setting the badge of portal 9 to 99 through selector 5, and to the same
call through the empty selector 6. -/
theorem sys_ctrl_pt_frame_witness :
    (∃ out, sys_ctrl_pt ⟨5, 99⟩ st_event = some out
          ∧ out.returns Status.SUCCESS
          ∧ (out.state.pts 9).id = 99
          ∧ (out.state.pts 9).ec = 1
          ∧ (out.state.pts 9).ip = 4096
          ∧ (out.state.pts 9).mtd = 3
          ∧ ∀ q, q ≠ 9 → out.state.pts q = st_event.pts q)
    ∧ ∃ out, sys_ctrl_pt ⟨6, 99⟩ st_event = some out
          ∧ out.returns Status.BAD_CAP
          ∧ out.state.pts = st_event.pts :=
  ⟨(sys_ctrl_pt_frame ⟨5, 99⟩ st_event).1 ⟨Kobject_type.PT, 9⟩ (by decide) (by decide),
   (sys_ctrl_pt_frame ⟨6, 99⟩ st_event).2 (by decide)⟩

/-! ## C19: the root-only gate -/

/-- C19: for every caller whose object space is not the object space of the root PD, every
argument value and every behaviour of the ACPI, interrupt and SMMU subsystems, `sys_ctrl_hw`
and `sys_assign_dev` are both `sys_finish_status (BAD_HYP)` on the initial state: they return
BAD_HYP, the calls made into collaborating subsystems are the same as before (no
`Acpi::set_transition`, `Interrupt::send_exc` or `Smmu::configure`), `Cpu::hazard` is unchanged,
and only the `p0` of the caller differs. -/
theorem root_only_gate (hw : Hw) (rh : Sys_ctrl_hw) (rd : Sys_assign_dev) (k : Kern)
    (hroot : (k.st.ecs k.st.current).regs.obj ≠ k.root_obj) :
    sys_ctrl_hw hw rh k = k.finish_status Status.BAD_HYP
    ∧ sys_assign_dev hw rd k = k.finish_status Status.BAD_HYP
    ∧ (sys_ctrl_hw hw rh k).returns Status.BAD_HYP
    ∧ (sys_assign_dev hw rd k).returns Status.BAD_HYP
    ∧ (sys_ctrl_hw hw rh k).k.events = k.events
    ∧ (sys_assign_dev hw rd k).k.events = k.events
    ∧ (sys_ctrl_hw hw rh k).k.cpu_hazard = k.cpu_hazard
    ∧ (sys_assign_dev hw rd k).k.cpu_hazard = k.cpu_hazard
    ∧ (sys_ctrl_hw hw rh k).k
        = { k with st := k.st.set_p0 k.st.current Status.BAD_HYP.to_underlying }
    ∧ (sys_assign_dev hw rd k).k
        = { k with st := k.st.set_p0 k.st.current Status.BAD_HYP.to_underlying } := by
  have hb : ((k.st.ecs k.st.current).regs.obj != k.root_obj) = true := by simpa using hroot
  have h1 : sys_ctrl_hw hw rh k = k.finish_status Status.BAD_HYP := by
    simp [sys_ctrl_hw, hb]
  have h2 : sys_assign_dev hw rd k = k.finish_status Status.BAD_HYP := by
    simp [sys_assign_dev, hb]
  have hf := finish_status_frame k Status.BAD_HYP
  rw [h1, h2]
  exact ⟨rfl, rfl, hf.1, hf.1, hf.2.2.1, hf.2.2.1, hf.2.2.2.1, hf.2.2.2.1, hf.2.1, hf.2.1⟩

/-- C19, applied to the caller of `k_recall`, whose object space 7 is not the root object space
0, requesting an ACPI transition and a device assignment on hardware that would grant both. -/
theorem root_only_gate_witness :
    (sys_ctrl_hw hw0 ⟨0, 5⟩ k_recall).returns Status.BAD_HYP
    ∧ (sys_assign_dev hw0 ⟨5, 0, 3⟩ k_recall).returns Status.BAD_HYP
    ∧ (sys_ctrl_hw hw0 ⟨0, 5⟩ k_recall).k.events = []
    ∧ (sys_assign_dev hw0 ⟨5, 0, 3⟩ k_recall).k.events = []
    ∧ (sys_ctrl_hw hw0 ⟨0, 5⟩ k_recall).k.cpu_hazard = 0
    ∧ (sys_assign_dev hw0 ⟨5, 0, 3⟩ k_recall).k.cpu_hazard = 0 :=
  ⟨(root_only_gate hw0 ⟨0, 5⟩ ⟨5, 0, 3⟩ k_recall (by decide)).2.2.1,
   (root_only_gate hw0 ⟨0, 5⟩ ⟨5, 0, 3⟩ k_recall (by decide)).2.2.2.1,
   (root_only_gate hw0 ⟨0, 5⟩ ⟨5, 0, 3⟩ k_recall (by decide)).2.2.2.2.1,
   (root_only_gate hw0 ⟨0, 5⟩ ⟨5, 0, 3⟩ k_recall (by decide)).2.2.2.2.2.1,
   (root_only_gate hw0 ⟨0, 5⟩ ⟨5, 0, 3⟩ k_recall (by decide)).2.2.2.2.2.2.1,
   (root_only_gate hw0 ⟨0, 5⟩ ⟨5, 0, 3⟩ k_recall (by decide)).2.2.2.2.2.2.2.1⟩

/-! ## C20: `send_msg` -/

/-- Every way in which `send_msg` ends in `die`: the failed validation, the CPU check, or the
return of `help`. -/
theorem send_msg_dies (C : Cont) (env : Env) (s : State) (out : Outcome) (msg : String)
    (h : send_msg C env s = some out) (hd : out.next = Transfer.die msg) :
    (msg = "PT not found"
        ∧ (event_cap s).validate Kobject_type.PT Perm_pt.EVENT = false ∧ out.state = s)
    ∨ (msg = "PT wrong CPU"
        ∧ (event_cap s).validate Kobject_type.PT Perm_pt.EVENT = true
        ∧ (∃ o, (event_cap s).obj = some o
              ∧ (s.ecs s.current).cpu ≠ (s.ecs (s.pts o.ptr).ec).cpu)
        ∧ out.state = s)
    ∨ (msg = "IPC Timeout"
        ∧ (event_cap s).validate Kobject_type.PT Perm_pt.EVENT = true) := by
  have hcc : s.space_obj (s.ecs s.current).regs.obj
      (((s.ecs s.current).evt + (s.ecs s.current).regs.exc.ep) % 2 ^ WORD_BITS)
      = event_cap s := rfl
  simp only [send_msg, hcc] at h
  cases hv : (event_cap s).validate Kobject_type.PT Perm_pt.EVENT with
  | false =>
    simp only [hv, Bool.not_false, if_true, Option.some.injEq] at h
    subst h
    simp only [Transfer.die.injEq] at hd
    exact Or.inl ⟨hd.symm, rfl, rfl⟩
  | true =>
    obtain ⟨o, ho⟩ := validate_obj _ _ _ hv
    simp only [hv, ho, Bool.not_true] at h
    by_cases hcpu : (s.ecs s.current).cpu = (s.ecs (s.pts o.ptr).ec).cpu
    · right
      right
      refine ⟨?_, rfl⟩
      simp only [Ec.xcpu, hcpu, bne_self_eq_false] at h
      by_cases hcont : (s.ecs (s.pts o.ptr).ec).cont = none
      · simp only [hcont, if_true] at h
        simp at h
        subst h
        exact absurd hd (by simp [make_current])
      · simp only [hcont, if_false] at h
        cases hh : env.help (s.pts o.ptr).ec (Cont.send_msg C) s with
        | none =>
          simp [hh] at h
          subst h
          exact absurd hd (by simp)
        | some s' =>
          simp [hh] at h
          subst h
          simp only [Transfer.die.injEq] at hd
          exact hd.symm
    · right
      left
      have hx : ((s.ecs s.current).cpu != (s.ecs (s.pts o.ptr).ec).xcpu) = true := by
        simpa [Ec.xcpu] using hcpu
      simp [hx] at h
      subst h
      simp only [Transfer.die.injEq] at hd
      exact ⟨hd.symm, rfl, ⟨o, ho, hcpu⟩, rfl⟩

/-- C20: for every current EC, `send_msg<C>` ends in `die ("PT not found")` if and only if the
capability at selector `evt` + exception vector does not validate for `Perm_pt::EVENT`; when it
validates, `send_msg<C>` ends in `die ("PT wrong CPU")` if and only if the CPU of the current
EC differs from the CPU of the server; and when the CPUs agree and the `cont` of the server is
null, `send_msg<C>`, invoked by a running EC (its `cont` is not null, as for every EC that
`syscall.cpp` makes current), ends in `make_current (server)` with the server current,
`current.cont = C`, the server as callee of the current EC, `server.cont = recv_kern`, the
saved instruction pointer of the server equal to the entry IP of the portal, `p0` of the server
equal to the badge id of the portal and `p1` of the server equal to the MTD stored in the
portal. -/
theorem send_msg_outcomes (C : Cont) (env : Env) (s : State) :
    ((∃ out, send_msg C env s = some out ∧ out.next = Transfer.die "PT not found") ↔
        (event_cap s).validate Kobject_type.PT Perm_pt.EVENT = false)
    ∧ ∀ o, (event_cap s).validate Kobject_type.PT Perm_pt.EVENT = true →
        (event_cap s).obj = some o →
        ((∃ out, send_msg C env s = some out ∧ out.next = Transfer.die "PT wrong CPU") ↔
            (s.ecs s.current).cpu ≠ (s.ecs (s.pts o.ptr).ec).cpu)
        ∧ ((s.ecs s.current).cpu = (s.ecs (s.pts o.ptr).ec).cpu →
            (s.ecs (s.pts o.ptr).ec).cont = none →
            (s.ecs s.current).cont ≠ none →
            ∃ out, send_msg C env s = some out
              ∧ out.next = Transfer.make_current (s.pts o.ptr).ec
              ∧ out.state.current = (s.pts o.ptr).ec
              ∧ (out.state.ecs s.current).cont = some C
              ∧ (out.state.ecs s.current).partner = some (s.pts o.ptr).ec
              ∧ (out.state.ecs (s.pts o.ptr).ec).cont = some Cont.recv_kern
              ∧ (out.state.ecs (s.pts o.ptr).ec).regs.exc.ip = (s.pts o.ptr).ip
              ∧ (out.state.ecs (s.pts o.ptr).ec).regs.exc.sys.p0 = (s.pts o.ptr).id
              ∧ (out.state.ecs (s.pts o.ptr).ec).regs.exc.sys.p1 = (s.pts o.ptr).mtd) := by
  refine ⟨⟨?_, ?_⟩, ?_⟩
  · rintro ⟨out, h, hd⟩
    rcases send_msg_dies C env s out _ h hd with h1 | h1 | h1
    · exact h1.2.1
    · exact absurd h1.1 (by decide)
    · exact absurd h1.1 (by decide)
  · intro hv
    refine ⟨⟨s, Transfer.die "PT not found"⟩, ?_, rfl⟩
    unfold event_cap event_sel at hv
    simp [send_msg, hv]
  · intro o hv ho
    refine ⟨⟨?_, ?_⟩, ?_⟩
    · rintro ⟨out, h, hd⟩
      rcases send_msg_dies C env s out _ h hd with h1 | h1 | h1
      · exact absurd h1.1 (by decide)
      · obtain ⟨o2, ho2, hcpu⟩ := h1.2.2.1
        rw [ho] at ho2
        cases ho2
        exact hcpu
      · exact absurd h1.1 (by decide)
    · intro hcpu
      refine ⟨⟨s, Transfer.die "PT wrong CPU"⟩, ?_, rfl⟩
      unfold event_cap event_sel at hv ho
      simp [send_msg, hv, ho, Ec.xcpu, hcpu]
    · intro hcpu hcont hrun
      have hne : (s.pts o.ptr).ec ≠ s.current := fun h => hrun (h ▸ hcont)
      unfold event_cap event_sel at hv ho
      have hne2 : ¬ s.current = (s.pts o.ptr).ec := fun h => hne h.symm
      simp only [send_msg, hv, ho, Ec.xcpu, hcpu, hcont]
      refine ⟨_, by simp; rfl, ?_⟩
      simp [make_current, State.set_p1, State.set_p0, State.set_ip, State.set_cont, set_partner,
        set_ec_ecs, hne, hne2, Ec.partner]

/-- C20, applied to the running EC 0 taking exception vector 3 with event base 32: with the
waiting server EC 1 on the same CPU the message is handed off, with the server on another CPU
the EC dies with "PT wrong CPU". -/
theorem send_msg_outcomes_witness :
    (∃ out, send_msg Cont.ret_user_iret env0 st_event = some out
        ∧ out.next = Transfer.make_current 1
        ∧ out.state.current = 1
        ∧ (out.state.ecs 0).cont = some Cont.ret_user_iret
        ∧ (out.state.ecs 0).partner = some 1
        ∧ (out.state.ecs 1).cont = some Cont.recv_kern
        ∧ (out.state.ecs 1).regs.exc.ip = 4096
        ∧ (out.state.ecs 1).regs.exc.sys.p0 = 42
        ∧ (out.state.ecs 1).regs.exc.sys.p1 = 3)
    ∧ ∃ out, send_msg Cont.ret_user_iret env0 st_event_remote = some out
        ∧ out.next = Transfer.die "PT wrong CPU" :=
  ⟨((send_msg_outcomes Cont.ret_user_iret env0 st_event).2 ⟨Kobject_type.PT, 9⟩ (by decide)
      (by decide)).2 (by decide) (by decide) (by decide),
   ((send_msg_outcomes Cont.ret_user_iret env0 st_event_remote).2 ⟨Kobject_type.PT, 9⟩
      (by decide) (by decide)).1.mpr (by decide)⟩

/-! ## C21: `activate` walks the partner chain to its end -/

/-- The loop of `activate` on a partner chain of `l.length` hops stops at the last EC of the
chain, having added the number of hops to the counter. -/
theorem activate_loop_chain (s : State) (l : List EcPtr) :
    ∀ (e : EcPtr) (ctr fuel : Nat), partner_chain s e l → l.length < fuel →
      ctr < 2 ^ UNSIGNED_BITS →
      activate_loop s fuel e ctr = some (l.getLastD e, (ctr + l.length) % 2 ^ UNSIGNED_BITS) := by
  induction l with
  | nil =>
    intro e ctr fuel h hf hc
    obtain ⟨f, rfl⟩ : ∃ f, fuel = f + 1 := ⟨fuel - 1, by simp at hf; omega⟩
    simp only [partner_chain] at h
    simp [activate_loop, h, Nat.mod_eq_of_lt hc]
  | cons x l ih =>
    intro e ctr fuel h hf hc
    obtain ⟨f, rfl⟩ : ∃ f, fuel = f + 1 := ⟨fuel - 1, by simp at hf; omega⟩
    simp only [partner_chain] at h
    have hf' : l.length < f := by simp at hf; omega
    have hpos : 0 < 2 ^ UNSIGNED_BITS := Nat.pow_pos (by decide)
    simp only [activate_loop, h.1, ih x _ f h.2 hf' (Nat.mod_lt _ hpos)]
    rw [List.getLastD_cons, Nat.mod_add_mod, List.length_cons, Nat.add_assoc, Nat.add_comm 1]

/-- The end of a partner chain has no partner. -/
theorem partner_chain_last (s : State) (l : List EcPtr) :
    ∀ e, partner_chain s e l → (s.ecs (l.getLastD e)).partner = none := by
  induction l with
  | nil => intro e h; simpa [partner_chain] using h
  | cons x l ih =>
    intro e h
    simp only [partner_chain] at h
    have := ih x h.2
    rwa [List.getLastD_cons]

/-- The outcome of `activate` once its loop has stopped at `ec` with the counter at `ctr`. -/
theorem activate_of_loop (fuel : Nat) (s : State) (e ec : EcPtr) (ctr : Nat)
    (h : activate_loop s fuel e 0 = some (ec, ctr)) :
    ∃ a, activate fuel s e = some a ∧ a.ctr_link = ctr
      ∧ a.next = Transfer.make_current ec ∧ a.state.current = ec
      ∧ a.block_sc = (if (s.ecs ec).blocked then some true else none)
      ∧ a.state.ecs = (if (s.ecs ec).blocked
          then Function.update s.ecs ec
            { s.ecs ec with queue := enqueue_tail (s.ecs ec).queue s.sc_current }
          else s.ecs)
      ∧ a.state.donations = s.donations ∧ a.state.sc_current = s.sc_current
      ∧ a.state.scs = s.scs ∧ a.state.pts = s.pts ∧ a.state.space_obj = s.space_obj := by
  unfold activate
  rw [h]
  by_cases hb : (s.ecs ec).blocked = true
  · simp [hb, make_current, Ec.block_sc, State.set_ec]
  · simp [hb, make_current]

/-- C21: for an EC `e` whose partner chain `e -> l[0] -> ... -> l[k-1]` ends in an EC without
partner, `activate` terminates (every bound above `k` loop-condition evaluations suffices), the
loop stops at the last EC of the chain, `Sc::ctr_link` holds `k` as an `unsigned` (so `k`
itself for every chain shorter than `2 ^ 32`, and 0 when `e` has no partner), and the EC that
`activate` goes on with is that last EC. -/
theorem activate_chain_walk (s : State) (e : EcPtr) (l : List EcPtr)
    (h : partner_chain s e l) (fuel : Nat) (hf : l.length < fuel) :
    activate_loop s fuel e 0 = some (l.getLastD e, l.length % 2 ^ UNSIGNED_BITS)
      ∧ (s.ecs (l.getLastD e)).partner = none
      ∧ ∃ a, activate fuel s e = some a
        ∧ a.ctr_link = l.length % 2 ^ UNSIGNED_BITS
        ∧ (l.length < 2 ^ UNSIGNED_BITS → a.ctr_link = l.length)
        ∧ (l = [] → a.ctr_link = 0)
        ∧ a.next = Transfer.make_current (l.getLastD e)
        ∧ a.state.current = l.getLastD e := by
  have hloop := activate_loop_chain s l e 0 fuel h hf (Nat.pow_pos (by decide))
  rw [Nat.zero_add] at hloop
  refine ⟨hloop, partner_chain_last s l e h, ?_⟩
  obtain ⟨a, ha, hc, hn, hcur, -⟩ := activate_of_loop fuel s e _ _ hloop
  refine ⟨a, ha, hc, ?_, ?_, hn, hcur⟩
  · intro hk; rw [hc, Nat.mod_eq_of_lt hk]
  · intro hl; rw [hc, hl]; rfl

/-- C21, applied to the chain EC 0 -> EC 1 -> EC 2 of `st_chain`: two hops, ending at EC 2. -/
theorem activate_chain_walk_witness :
    activate_loop st_chain 3 0 0 = some (2, 2)
      ∧ ∃ a, activate 3 st_chain 0 = some a ∧ a.ctr_link = 2
        ∧ a.next = Transfer.make_current 2 ∧ a.state.current = 2 := by
  have h := activate_chain_walk st_chain 0 [1, 2] (by decide) 3 (by decide)
  obtain ⟨h1, -, a, ha, hc, -, -, hn, hcur⟩ := h
  exact ⟨h1, a, ha, hc, hn, hcur⟩

/-! ## C22: `activate` and a blocked EC -/

/-- Inserting into an occupied slot fails with BAD_CAP and leaves the state as it is. -/
theorem insert_occupied (s : State) (obj sel : Nat) (c : Capability)
    (h : (s.space_obj obj sel).obj ≠ none) : s.insert obj sel c = (s, Status.BAD_CAP) := by
  simp [State.insert, h]

/-- Inserting into an empty slot succeeds and writes that slot. -/
theorem insert_empty (s : State) (obj sel : Nat) (c : Capability)
    (h : (s.space_obj obj sel).obj = none) :
    s.insert obj sel c
      = ({ s with space_obj := (Function.update s.space_obj obj
            (Function.update (s.space_obj obj) sel c)) }, Status.SUCCESS) := by
  simp [State.insert, h]

/-- Finishing a syscall leaves the object spaces, the current EC and its object space, the
allocated objects and the calls into collaborating subsystems as they are. -/
theorem finish_frame (k : Kern) (S : Status) :
    (k.finish S false).k.st.space_obj = k.st.space_obj
    ∧ (k.finish S false).k.st.current = k.st.current
    ∧ ((k.finish S false).k.st.ecs (k.finish S false).k.st.current).regs.obj
        = (k.st.ecs k.st.current).regs.obj
    ∧ (k.finish S false).k.live = k.live
    ∧ (k.finish S false).k.events = k.events := by
  refine ⟨rfl, rfl, ?_, rfl, rfl⟩
  exact (finish_ecs k S k.st.current).2.2

/-- A creation syscall that fails before it allocates anything is atomic. -/
theorem creation_fail_early (k : Kern) (sel : Nat) (t : Kobject_type) (S : Status)
    (hS : S ≠ Status.SUCCESS) : creation_atomic k sel t (k.finish S false) := by
  obtain ⟨h1, h2, h3, h4, h5⟩ := finish_frame k S
  refine ⟨⟨S, (finish_returns _ _ _).mpr rfl⟩, h2, h3, ?_, ?_⟩
  · intro st _ _
    exact ⟨h1, by rw [h4], h5⟩
  · intro hr
    exact absurd ((finish_returns _ _ _).mp hr) hS

/-- Destroying the object that was allocated last leaves the objects that were there before. -/
theorem erase_allocated (l : List Kobject_ref) (x : Kobject_ref) : ((l ++ [x]).erase x).Perm l := by
  have h1 : (l ++ [x]).Perm (x :: l) := List.perm_append_singleton x l
  have h2 := h1.erase x
  rwa [List.erase_cons_head] at h2

/-- The common end of the creation syscalls is atomic, provided the allocation itself changed
neither the object spaces nor the current EC and its object space. -/
theorem create_tail_atomic (k k1 : Kern) (sel : Nat) (x : Kobject_ref) (prm : Nat) (enq : Bool)
    (hso : k1.st.space_obj = k.st.space_obj) (hcur : k1.st.current = k.st.current)
    (hobj : (k1.st.ecs k1.st.current).regs.obj = (k.st.ecs k.st.current).regs.obj)
    (hlive : k1.live = k.live ++ [x]) (hev : k1.events = k.events)
    (henq : enq = decide (x.type = Kobject_type.SC)) :
    creation_atomic k sel x.type (create_tail k1 sel x prm enq) := by
  by_cases hslot : (k.st.space_obj (k.st.ecs k.st.current).regs.obj sel).obj = none
  · have hslot1 : (k1.st.space_obj (k1.st.ecs k1.st.current).regs.obj sel).obj = none := by
      rw [hso, hobj]; exact hslot
    have hins := insert_empty k1.st _ sel ⟨some x, prm⟩ hslot1
    have hout : ∃ k2 : Kern, create_tail k1 sel x prm enq = k2.finish Status.SUCCESS false
        ∧ k2.st.space_obj = Function.update k.st.space_obj (k.st.ecs k.st.current).regs.obj
            (Function.update (k.st.space_obj (k.st.ecs k.st.current).regs.obj) sel ⟨some x, prm⟩)
        ∧ k2.st.current = k.st.current
        ∧ (k2.st.ecs k2.st.current).regs.obj = (k.st.ecs k.st.current).regs.obj
        ∧ k2.live = k.live ++ [x]
        ∧ k2.events = k.events
            ++ (if x.type = Kobject_type.SC then [Event.remote_enqueue x.ptr] else []) := by
      by_cases he : enq = true
      · have hx : x.type = Kobject_type.SC := by simpa [he] using henq.symm
        refine ⟨({ k1 with st := (k1.st.insert (k1.st.ecs k1.st.current).regs.obj sel
            ⟨some x, prm⟩).1 } : Kern).log (Event.remote_enqueue x.ptr), ?_, ?_, ?_, ?_, ?_, ?_⟩
        · simp [create_tail, hins, he]
        · simp only [Kern.log, hins]; rw [hso, hobj]
        · simp only [Kern.log, hins]; exact hcur
        · simp only [Kern.log, hins]; exact hobj
        · simp only [Kern.log]; exact hlive
        · simp only [Kern.log, hev, hx, if_true]
      · have he' : enq = false := by simpa using he
        have hx : x.type ≠ Kobject_type.SC := by
          intro hx; rw [hx] at henq; simp [he'] at henq
        refine ⟨({ k1 with st := (k1.st.insert (k1.st.ecs k1.st.current).regs.obj sel
            ⟨some x, prm⟩).1 } : Kern), ?_, ?_, ?_, ?_, ?_, ?_⟩
        · simp [create_tail, hins, he']
        · simp only [hins]; rw [hso, hobj]
        · simp only [hins]; exact hcur
        · simp only [hins]; exact hobj
        · exact hlive
        · simp only [hev, hx, if_false, List.append_nil]
    obtain ⟨k2, hk2, h1, h2, h3, h4, h5⟩ := hout
    obtain ⟨f1, f2, f3, f4, f5⟩ := finish_frame k2 Status.SUCCESS
    rw [hk2]
    refine ⟨⟨Status.SUCCESS, (finish_returns _ _ _).mpr rfl⟩, f2.trans h2, f3.trans h3, ?_, ?_⟩
    · intro st hr hne
      exact absurd ((finish_returns _ _ _).mp hr).symm hne
    · intro _
      refine ⟨hslot, x.ptr, prm, ?_, ?_, ?_, ?_⟩
      · rw [f1, h1]; simp
      · intro o s hne
        rw [f1, h1]
        by_cases ho : o = (k.st.ecs k.st.current).regs.obj
        · subst ho
          have hs : s ≠ sel := fun hs => hne ⟨rfl, hs⟩
          simp [hs]
        · simp [Function.update_noteq ho]
      · rw [f4, h4]
      · rw [f5, h5]
  · have hslot1 : (k1.st.space_obj (k1.st.ecs k1.st.current).regs.obj sel).obj ≠ none := by
      rw [hso, hobj]; exact hslot
    have hins := insert_occupied k1.st _ sel ⟨some x, prm⟩ hslot1
    have hout : create_tail k1 sel x prm enq
        = ({ k1 with live := k1.live.erase x } : Kern).finish Status.BAD_CAP false := by
      simp [create_tail, hins]
    obtain ⟨f1, f2, f3, f4, f5⟩ :=
      finish_frame ({ k1 with live := k1.live.erase x } : Kern) Status.BAD_CAP
    rw [hout]
    refine ⟨⟨Status.BAD_CAP, (finish_returns _ _ _).mpr rfl⟩, f2.trans hcur, f3.trans hobj,
      ?_, ?_⟩
    · intro st _ _
      refine ⟨f1.trans hso, ?_, f5.trans hev⟩
      rw [f4]
      show (k1.live.erase x).Perm k.live
      rw [hlive]
      exact erase_allocated _ _
    · intro hr
      exact absurd ((finish_returns _ _ _).mp hr) (by decide)

/-- The function `sys_create_ec` ends in the common end of the creation syscalls. -/
theorem sys_create_ec_eq (hw : Hw) (r : Sys_create_ec) (k : Kern) :
    sys_create_ec hw r k =
      if !hw.cpu_online r.cpu then some (k.finish Status.BAD_CPU false)
      else if r.utcb ≥ hw.utcb_limit then some (k.finish Status.BAD_PAR false)
      else if r.utcb = 0 ∧ hw.virt = 0 then some (k.finish Status.BAD_FTR false)
      else if !(k.st.space_obj (k.st.ecs k.st.current).regs.obj r.pd).validate
          Kobject_type.PD Perm_pd.EC then some (k.finish Status.BAD_CAP false)
      else match (k.st.space_obj (k.st.ecs k.st.current).regs.obj r.pd).obj with
        | none => none
        | some o =>
          some (create_tail
            { k with st := (k.st.set_ec (hw.ec_new k)
                       (hw.ec_ctor (k.pds o.ptr).space_obj (k.pds o.ptr).space_hst
                         (k.pds o.ptr).space_pio r.sel
                         (if r.type then some (Cont.send_msg Cont.ret_user_iret) else none)
                         r.cpu r.evt r.utcb r.esp)),
                     live := k.live ++ [Kobject_ref.mk Kobject_type.EC (hw.ec_new k)] }
            r.sel ⟨Kobject_type.EC, hw.ec_new k⟩ Perm_ec.DEFINED false) := by
  simp only [sys_create_ec, create_tail, apply_ite (some : Kout → Option Kout), Bool.false_eq_true,
    if_false, if_true]

/-- The function `sys_create_sc` ends in the common end of the creation syscalls. -/
theorem sys_create_sc_eq (sl : Slab) (r : Sys_create_sc) (k : Kern) :
    sys_create_sc sl r k =
      if !(k.st.space_obj (k.st.ecs k.st.current).regs.obj r.pd).validate
          Kobject_type.PD Perm_pd.SC then some (k.finish Status.BAD_CAP false)
      else if !(k.st.space_obj (k.st.ecs k.st.current).regs.obj r.ec).validate
          Kobject_type.EC Perm_ec.BIND_SC then some (k.finish Status.BAD_CAP false)
      else match (k.st.space_obj (k.st.ecs k.st.current).regs.obj r.ec).obj with
        | none => none
        | some o =>
          if !(k.st.ecs o.ptr).glb then some (k.finish Status.BAD_CAP false)
          else if r.prio = 0 ∨ r.quantum = 0 then some (k.finish Status.BAD_PAR false)
          else some (create_tail
            { k with st := { k.st with scs := (Function.update k.st.scs (sl.sc_new k)
                               (sl.sc_ctor r.sel o.ptr (k.st.ecs o.ptr).cpu r.prio r.quantum)) },
                     live := k.live ++ [Kobject_ref.mk Kobject_type.SC (sl.sc_new k)] }
            r.sel ⟨Kobject_type.SC, sl.sc_new k⟩ Perm_sc.DEFINED true) := by
  simp only [sys_create_sc, create_tail, apply_ite (some : Kout → Option Kout), Bool.false_eq_true,
    if_false, if_true]

/-- The function `sys_create_pt` ends in the common end of the creation syscalls. -/
theorem sys_create_pt_eq (sl : Slab) (r : Sys_create_pt) (k : Kern) :
    sys_create_pt sl r k =
      if !(k.st.space_obj (k.st.ecs k.st.current).regs.obj r.pd).validate
          Kobject_type.PD Perm_pd.PT then some (k.finish Status.BAD_CAP false)
      else if !(k.st.space_obj (k.st.ecs k.st.current).regs.obj r.ec).validate
          Kobject_type.EC Perm_ec.BIND_PT then some (k.finish Status.BAD_CAP false)
      else match (k.st.space_obj (k.st.ecs k.st.current).regs.obj r.ec).obj with
        | none => none
        | some o =>
          if (k.st.ecs o.ptr).glb then some (k.finish Status.BAD_CAP false)
          else some (create_tail
            { k with st := { k.st with pts := (Function.update k.st.pts (sl.pt_new k)
                               (sl.pt_ctor r.sel o.ptr r.mtd r.eip)) },
                     live := k.live ++ [Kobject_ref.mk Kobject_type.PT (sl.pt_new k)] }
            r.sel ⟨Kobject_type.PT, sl.pt_new k⟩ Perm_pt.DEFINED false) := by
  simp only [sys_create_pt, create_tail, apply_ite (some : Kout → Option Kout), Bool.false_eq_true,
    if_false, if_true]

/-- The function `sys_create_sm` ends in the common end of the creation syscalls. -/
theorem sys_create_sm_eq (sl : Slab) (r : Sys_create_sm) (k : Kern) :
    sys_create_sm sl r k =
      if !(k.st.space_obj (k.st.ecs k.st.current).regs.obj r.pd).validate
          Kobject_type.PD Perm_pd.SM then k.finish Status.BAD_CAP false
      else create_tail { k with live := k.live ++ [Kobject_ref.mk Kobject_type.SM (sl.sm_new k)] }
        r.sel ⟨Kobject_type.SM, sl.sm_new k⟩ Perm_sm.DEFINED false := by
  simp only [sys_create_sm, create_tail, Bool.false_eq_true, if_false]

/-- The outcome of `sys_create_ec` on every path. -/
theorem sys_create_ec_atomic (hw : Hw) (r : Sys_create_ec) (k : Kern)
    (hfresh : hw.ec_new k ≠ k.st.current) :
    ∃ out, sys_create_ec hw r k = some out ∧ creation_atomic k r.sel Kobject_type.EC out := by
  rw [sys_create_ec_eq]
  by_cases h1 : (!hw.cpu_online r.cpu) = true
  · exact ⟨k.finish Status.BAD_CPU false, by rw [if_pos h1],
      creation_fail_early k _ _ _ (by decide)⟩
  rw [if_neg h1]
  by_cases h2 : r.utcb ≥ hw.utcb_limit
  · exact ⟨k.finish Status.BAD_PAR false, by rw [if_pos h2],
      creation_fail_early k _ _ _ (by decide)⟩
  rw [if_neg h2]
  by_cases h3 : r.utcb = 0 ∧ hw.virt = 0
  · exact ⟨k.finish Status.BAD_FTR false, by rw [if_pos h3],
      creation_fail_early k _ _ _ (by decide)⟩
  rw [if_neg h3]
  by_cases h4 : (!(k.st.space_obj (k.st.ecs k.st.current).regs.obj r.pd).validate
      Kobject_type.PD Perm_pd.EC) = true
  · exact ⟨k.finish Status.BAD_CAP false, by rw [if_pos h4],
      creation_fail_early k _ _ _ (by decide)⟩
  rw [if_neg h4]
  obtain ⟨o, ho⟩ := validate_obj _ _ _ (by simpa using h4)
  rw [ho]
  refine ⟨_, rfl, ?_⟩
  refine create_tail_atomic k _ r.sel ⟨Kobject_type.EC, hw.ec_new k⟩ Perm_ec.DEFINED false
    rfl rfl ?_ rfl rfl rfl
  show ((k.st.set_ec _ _).ecs k.st.current).regs.obj = _
  rw [set_ec_ecs, if_neg (Ne.symm hfresh)]

/-- The outcome of `sys_create_sc` on every path. -/
theorem sys_create_sc_atomic (sl : Slab) (r : Sys_create_sc) (k : Kern) :
    ∃ out, sys_create_sc sl r k = some out ∧ creation_atomic k r.sel Kobject_type.SC out := by
  rw [sys_create_sc_eq]
  by_cases h1 : (!(k.st.space_obj (k.st.ecs k.st.current).regs.obj r.pd).validate
      Kobject_type.PD Perm_pd.SC) = true
  · exact ⟨k.finish Status.BAD_CAP false, by rw [if_pos h1],
      creation_fail_early k _ _ _ (by decide)⟩
  rw [if_neg h1]
  by_cases h2 : (!(k.st.space_obj (k.st.ecs k.st.current).regs.obj r.ec).validate
      Kobject_type.EC Perm_ec.BIND_SC) = true
  · exact ⟨k.finish Status.BAD_CAP false, by rw [if_pos h2],
      creation_fail_early k _ _ _ (by decide)⟩
  rw [if_neg h2]
  obtain ⟨o, ho⟩ := validate_obj _ _ _ (by simpa using h2)
  rw [ho]
  by_cases h3 : (!(k.st.ecs o.ptr).glb) = true
  · exact ⟨k.finish Status.BAD_CAP false, by simp only [if_pos h3],
      creation_fail_early k _ _ _ (by decide)⟩
  simp only [if_neg h3]
  by_cases h4 : r.prio = 0 ∨ r.quantum = 0
  · exact ⟨k.finish Status.BAD_PAR false, by rw [if_pos h4],
      creation_fail_early k _ _ _ (by decide)⟩
  rw [if_neg h4]
  exact ⟨_, rfl, create_tail_atomic k _ r.sel ⟨Kobject_type.SC, sl.sc_new k⟩ Perm_sc.DEFINED
    true rfl rfl rfl rfl rfl rfl⟩

/-- The outcome of `sys_create_pt` on every path. -/
theorem sys_create_pt_atomic (sl : Slab) (r : Sys_create_pt) (k : Kern) :
    ∃ out, sys_create_pt sl r k = some out ∧ creation_atomic k r.sel Kobject_type.PT out := by
  rw [sys_create_pt_eq]
  by_cases h1 : (!(k.st.space_obj (k.st.ecs k.st.current).regs.obj r.pd).validate
      Kobject_type.PD Perm_pd.PT) = true
  · exact ⟨k.finish Status.BAD_CAP false, by rw [if_pos h1],
      creation_fail_early k _ _ _ (by decide)⟩
  rw [if_neg h1]
  by_cases h2 : (!(k.st.space_obj (k.st.ecs k.st.current).regs.obj r.ec).validate
      Kobject_type.EC Perm_ec.BIND_PT) = true
  · exact ⟨k.finish Status.BAD_CAP false, by rw [if_pos h2],
      creation_fail_early k _ _ _ (by decide)⟩
  rw [if_neg h2]
  obtain ⟨o, ho⟩ := validate_obj _ _ _ (by simpa using h2)
  rw [ho]
  by_cases h3 : (k.st.ecs o.ptr).glb = true
  · exact ⟨k.finish Status.BAD_CAP false, by simp only [if_pos h3],
      creation_fail_early k _ _ _ (by decide)⟩
  simp only [if_neg h3]
  exact ⟨_, rfl, create_tail_atomic k _ r.sel ⟨Kobject_type.PT, sl.pt_new k⟩ Perm_pt.DEFINED
    false rfl rfl rfl rfl rfl rfl⟩

/-- The outcome of `sys_create_sm` on every path. -/
theorem sys_create_sm_atomic (sl : Slab) (r : Sys_create_sm) (k : Kern) :
    creation_atomic k r.sel Kobject_type.SM (sys_create_sm sl r k) := by
  rw [sys_create_sm_eq]
  by_cases h1 : (!(k.st.space_obj (k.st.ecs k.st.current).regs.obj r.pd).validate
      Kobject_type.PD Perm_pd.SM) = true
  · rw [if_pos h1]
    exact creation_fail_early k _ _ _ (by decide)
  rw [if_neg h1]
  exact create_tail_atomic k _ r.sel ⟨Kobject_type.SM, sl.sm_new k⟩ Perm_sm.DEFINED false rfl
    rfl rfl rfl rfl rfl

/-! ## C23: the kind of an EC gates what can be bound to it -/

/-- The function `sys_create_sc` returns SUCCESS only for a validating capability that names a
global EC. -/
theorem sys_create_sc_success (sl : Slab) (r : Sys_create_sc) (k : Kern) (out : Kout)
    (h : sys_create_sc sl r k = some out) (hs : out.returns Status.SUCCESS) :
    ∃ o, (k.st.space_obj (k.st.ecs k.st.current).regs.obj r.ec).obj = some o
      ∧ (k.st.ecs o.ptr).glb = true := by
  rw [sys_create_sc_eq] at h
  have hfail : ∀ S, S ≠ Status.SUCCESS → some (k.finish S false) = some out → False := by
    intro S hS he
    rw [← Option.some.inj he] at hs
    exact hS ((finish_returns _ _ _).mp hs)
  split at h
  · exact (hfail _ (by decide) h).elim
  split at h
  · exact (hfail _ (by decide) h).elim
  split at h
  · exact absurd h (by simp)
  · next o ho =>
    split at h
    · exact (hfail _ (by decide) h).elim
    · next hg => exact ⟨o, ho, by simpa using hg⟩

/-- The function `sys_create_pt` returns SUCCESS only for a validating capability that names a
local EC. -/
theorem sys_create_pt_success (sl : Slab) (r : Sys_create_pt) (k : Kern) (out : Kout)
    (h : sys_create_pt sl r k = some out) (hs : out.returns Status.SUCCESS) :
    ∃ o, (k.st.space_obj (k.st.ecs k.st.current).regs.obj r.ec).obj = some o
      ∧ (k.st.ecs o.ptr).glb = false := by
  rw [sys_create_pt_eq] at h
  have hfail : ∀ S, S ≠ Status.SUCCESS → some (k.finish S false) = some out → False := by
    intro S hS he
    rw [← Option.some.inj he] at hs
    exact hS ((finish_returns _ _ _).mp hs)
  split at h
  · exact (hfail _ (by decide) h).elim
  split at h
  · exact (hfail _ (by decide) h).elim
  split at h
  · exact absurd h (by simp)
  · next o ho =>
    split at h
    · exact (hfail _ (by decide) h).elim
    · next hg => exact ⟨o, ho, by simpa using hg⟩

/-- C23: for every EC `e` named by the EC capability of the request, when that capability
validates, `sys_create_sc` returns BAD_CAP if `e` is not a global EC and `sys_create_pt` returns
BAD_CAP if `e` is a global EC; and no two requests naming the same EC, in states that agree on
the kind of that EC, make both `sys_create_sc` and `sys_create_pt` return SUCCESS. -/
theorem ec_kind_gates_binding (sl : Slab) (k : Kern) (e : EcPtr) :
    (∀ (r : Sys_create_sc) (o : Kobject_ref),
      (k.st.space_obj (k.st.ecs k.st.current).regs.obj r.ec).validate
          Kobject_type.EC Perm_ec.BIND_SC = true →
      (k.st.space_obj (k.st.ecs k.st.current).regs.obj r.ec).obj = some o → o.ptr = e →
      (k.st.ecs e).glb = false →
      ∃ out, sys_create_sc sl r k = some out ∧ out.returns Status.BAD_CAP)
    ∧ (∀ (r : Sys_create_pt) (o : Kobject_ref),
      (k.st.space_obj (k.st.ecs k.st.current).regs.obj r.ec).validate
          Kobject_type.EC Perm_ec.BIND_PT = true →
      (k.st.space_obj (k.st.ecs k.st.current).regs.obj r.ec).obj = some o → o.ptr = e →
      (k.st.ecs e).glb = true →
      ∃ out, sys_create_pt sl r k = some out ∧ out.returns Status.BAD_CAP)
    ∧ (∀ (k' : Kern) (rs : Sys_create_sc) (rp : Sys_create_pt) (os op : Kobject_ref)
        (outs outp : Kout),
      (k'.st.ecs e).glb = (k.st.ecs e).glb →
      (k.st.space_obj (k.st.ecs k.st.current).regs.obj rs.ec).obj = some os → os.ptr = e →
      (k'.st.space_obj (k'.st.ecs k'.st.current).regs.obj rp.ec).obj = some op → op.ptr = e →
      sys_create_sc sl rs k = some outs → sys_create_pt sl rp k' = some outp →
      ¬ (outs.returns Status.SUCCESS ∧ outp.returns Status.SUCCESS)) := by
  refine ⟨?_, ?_, ?_⟩
  · intro r o hv ho he hg
    subst he
    rw [sys_create_sc_eq]
    by_cases h1 : (!(k.st.space_obj (k.st.ecs k.st.current).regs.obj r.pd).validate
        Kobject_type.PD Perm_pd.SC) = true
    · exact ⟨_, by rw [if_pos h1], (finish_returns _ _ _).mpr rfl⟩
    · rw [if_neg h1, hv, ho]
      simp only [Bool.not_true, Bool.false_eq_true, if_false, hg, Bool.not_false, if_true]
      exact ⟨_, rfl, (finish_returns _ _ _).mpr rfl⟩
  · intro r o hv ho he hg
    subst he
    rw [sys_create_pt_eq]
    by_cases h1 : (!(k.st.space_obj (k.st.ecs k.st.current).regs.obj r.pd).validate
        Kobject_type.PD Perm_pd.PT) = true
    · exact ⟨_, by rw [if_pos h1], (finish_returns _ _ _).mpr rfl⟩
    · rw [if_neg h1, hv, ho]
      simp only [Bool.not_true, Bool.false_eq_true, if_false, hg, if_true]
      exact ⟨_, rfl, (finish_returns _ _ _).mpr rfl⟩
  · intro k' rs rp os op outs outp hglb hos hes hop hep hs hp hboth
    obtain ⟨o1, ho1, hg1⟩ := sys_create_sc_success sl rs k outs hs hboth.1
    obtain ⟨o2, ho2, hg2⟩ := sys_create_pt_success sl rp k' outp hp hboth.2
    rw [hos] at ho1
    rw [hop] at ho2
    have e1 : o1 = os := (Option.some.inj ho1).symm
    have e2 : o2 = op := (Option.some.inj ho2).symm
    rw [e1, hes] at hg1
    rw [e2, hep, hglb, hg1] at hg2
    exact absurd hg2 (by decide)

/-- C23, applied to the caller of `k_create`: binding an SC to the local EC 4 and binding a
portal to the global EC 3 both return BAD_CAP. -/
theorem ec_kind_gates_binding_witness :
    (∃ out, sys_create_sc slab0 ⟨9, 1, 4, 1, 1⟩ k_create = some out
      ∧ out.returns Status.BAD_CAP)
    ∧ (∃ out, sys_create_pt slab0 ⟨9, 1, 3, 0, 0⟩ k_create = some out
      ∧ out.returns Status.BAD_CAP) :=
  ⟨(ec_kind_gates_binding slab0 k_create 4).1 ⟨9, 1, 4, 1, 1⟩ ⟨Kobject_type.EC, 4⟩
      (by decide) (by decide) rfl (by decide),
   (ec_kind_gates_binding slab0 k_create 3).2.1 ⟨9, 1, 3, 0, 0⟩ ⟨Kobject_type.EC, 3⟩
      (by decide) (by decide) rfl (by decide)⟩

/-! ## C24: object creation is atomic -/

/-- C24: each of `sys_create_ec`, `sys_create_sc`, `sys_create_pt` and `sys_create_sm`, on every
request, returns a status; if the status is not SUCCESS, the object spaces are what they were
before the call, the allocated objects are the ones allocated before the call, and no SC has
been enqueued; if the status is SUCCESS, the slot at the requested selector of the caller's
object space was empty and holds a capability for the new object, no other slot changed, and
(for `sys_create_sc` only) the new SC was enqueued exactly once. For `sys_create_ec`, the
address returned by `new Ec` is assumed not to be the one of the running EC. -/
theorem creation_is_atomic (hw : Hw) (sl : Slab) (k : Kern)
    (hfresh : hw.ec_new k ≠ k.st.current) :
    (∀ r : Sys_create_ec, ∃ out, sys_create_ec hw r k = some out
      ∧ creation_atomic k r.sel Kobject_type.EC out)
    ∧ (∀ r : Sys_create_sc, ∃ out, sys_create_sc sl r k = some out
      ∧ creation_atomic k r.sel Kobject_type.SC out)
    ∧ (∀ r : Sys_create_pt, ∃ out, sys_create_pt sl r k = some out
      ∧ creation_atomic k r.sel Kobject_type.PT out)
    ∧ (∀ r : Sys_create_sm, creation_atomic k r.sel Kobject_type.SM (sys_create_sm sl r k)) :=
  ⟨fun r => sys_create_ec_atomic hw r k hfresh, fun r => sys_create_sc_atomic sl r k,
   fun r => sys_create_pt_atomic sl r k, fun r => sys_create_sm_atomic sl r k⟩

/-- C24, applied to the caller of `k_create`: creating an SC for the global EC 3 at the empty
selector 9 succeeds and enqueues the new SC once; creating a portal for the local EC 4 at the
occupied selector 3 fails and leaves everything but the status as it was. -/
theorem creation_is_atomic_witness :
    (∃ out, sys_create_sc slab0 ⟨9, 1, 3, 1, 1⟩ k_create = some out
      ∧ creation_atomic k_create 9 Kobject_type.SC out
      ∧ out.returns Status.SUCCESS
      ∧ out.k.events = [Event.remote_enqueue 60])
    ∧ (∃ out, sys_create_pt slab0 ⟨3, 1, 4, 0, 0⟩ k_create = some out
      ∧ creation_atomic k_create 3 Kobject_type.PT out
      ∧ out.returns Status.BAD_CAP
      ∧ out.k.live = []) := by
  have h := creation_is_atomic hw0 slab0 k_create (by decide)
  obtain ⟨o1, h1, a1⟩ := h.2.1 ⟨9, 1, 3, 1, 1⟩
  obtain ⟨o2, h2, a2⟩ := h.2.2.1 ⟨3, 1, 4, 0, 0⟩
  have e1 : (sys_create_sc slab0 ⟨9, 1, 3, 1, 1⟩ k_create).map
      (fun o => (decide (o.returns Status.SUCCESS), o.k.events))
      = some (true, [Event.remote_enqueue 60]) := by decide
  have e2 : (sys_create_pt slab0 ⟨3, 1, 4, 0, 0⟩ k_create).map
      (fun o => (decide (o.returns Status.BAD_CAP), o.k.live)) = some (true, []) := by decide
  rw [h1] at e1
  rw [h2] at e2
  simp only [Option.map_some', Option.some.injEq, Prod.mk.injEq, decide_eq_true_eq] at e1 e2
  exact ⟨⟨o1, h1, a1, e1.1, e1.2⟩, ⟨o2, h2, a2, e2.1, e2.2⟩⟩

/-! ## Pointers and continuations along the IPC path -/

/-- Storing a continuation changes the `cont` of that EC only, and no partner pointer, kind or
home CPU. -/
theorem set_cont_fields (s : State) (p x : EcPtr) (c : Option Cont) :
    ((s.set_cont p c).ecs x).cont = (if x = p then c else (s.ecs x).cont)
    ∧ ((s.set_cont p c).ecs x).callee = (s.ecs x).callee
    ∧ ((s.set_cont p c).ecs x).caller = (s.ecs x).caller
    ∧ ((s.set_cont p c).ecs x).glb = (s.ecs x).glb
    ∧ ((s.set_cont p c).ecs x).cpu = (s.ecs x).cpu := by
  simp only [State.set_cont, set_ec_ecs]
  by_cases hx : x = p
  · subst hx; simp
  · simp [hx]

/-- Every way in which `reply (c)` ends: a global EC reschedules; an EC without caller
activates the EC of the current SC; otherwise `clr_partner` ran on the caller, which is made
current if it returned true, the EC of the current SC being activated if not. -/
theorem reply_cases (s : State) (c : Option Cont) (out : Outcome) (h : reply s c = some out) :
    (out.state = s.set_cont s.current c
      ∧ (((s.ecs s.current).glb = true ∧ out.next = Transfer.schedule true)
        ∨ ((s.ecs s.current).glb = false ∧ (s.ecs s.current).caller = none
          ∧ out.next = Transfer.activate (s.scs s.sc_current).ec)))
    ∨ ∃ C s2 r, (s.ecs s.current).glb = false ∧ (s.ecs s.current).caller = some C
        ∧ clr_partner (s.set_cont s.current c) C = some (s2, r)
        ∧ ((r = true ∧ out = make_current s2 C)
          ∨ (r = false ∧ out = ⟨s2, Transfer.activate (s2.scs s2.sc_current).ec⟩)) := by
  have hf := set_cont_fields s s.current s.current c
  have hcur : (s.set_cont s.current c).current = s.current := rfl
  unfold reply at h
  simp only [hcur, hf.2.2.2.1, Ec.rcap, hf.2.2.1] at h
  by_cases hg : (s.ecs s.current).glb = true
  · simp only [hg, if_true, Option.some.injEq] at h
    subst h
    exact Or.inl ⟨rfl, Or.inl ⟨hg, rfl⟩⟩
  · have hg' : (s.ecs s.current).glb = false := by simpa using hg
    simp only [hg', Bool.false_eq_true, if_false] at h
    cases hc : (s.ecs s.current).caller with
    | none =>
      simp only [hc, Option.some.injEq] at h
      subst h
      exact Or.inl ⟨rfl, Or.inr ⟨hg', rfl, rfl⟩⟩
    | some C =>
      simp only [hc] at h
      cases hp : clr_partner (s.set_cont s.current c) C with
      | none => simp [hp] at h
      | some v =>
        obtain ⟨s2, r⟩ := v
        cases r with
        | true =>
          simp only [hp, Option.some.injEq] at h
          exact Or.inr ⟨C, s2, true, hg', rfl, hp, Or.inl ⟨rfl, h.symm⟩⟩
        | false =>
          simp only [hp, Option.some.injEq] at h
          exact Or.inr ⟨C, s2, false, hg', rfl, hp, Or.inr ⟨rfl, h.symm⟩⟩

/-- After `reply (c)` the `cont` of the replying EC is `c`. -/
theorem reply_cont (s : State) (c : Option Cont) (out : Outcome) (h : reply s c = some out) :
    (out.state.ecs s.current).cont = c := by
  rcases reply_cases s c out h with ⟨hs, -⟩ | ⟨C, s2, r, -, -, hp, hr⟩
  · rw [hs, (set_cont_fields s s.current s.current c).1, if_pos rfl]
  · have hc := clr_partner_cont _ _ C s.current r hp
    rw [(set_cont_fields s s.current s.current c).1, if_pos rfl] at hc
    rcases hr with ⟨-, rfl⟩ | ⟨-, rfl⟩
    · exact hc
    · exact hc

/-- The function `activate` changes no `cont` and no partner pointer. -/
theorem activate_fields (fuel : Nat) (s : State) (e : EcPtr) (a : Activated)
    (h : activate fuel s e = some a) (x : EcPtr) :
    (a.state.ecs x).cont = (s.ecs x).cont ∧ (a.state.ecs x).callee = (s.ecs x).callee
      ∧ (a.state.ecs x).caller = (s.ecs x).caller
      ∧ (s.ecs a.state.current).callee = none := by
  unfold activate at h
  cases hl : activate_loop s fuel e 0 with
  | none => simp [hl] at h
  | some v =>
    obtain ⟨ec, ctr⟩ := v
    have hend : (s.ecs ec).callee = none := by
      have : ∀ (fuel : Nat) (e : EcPtr) (ctr0 : Nat),
          activate_loop s fuel e ctr0 = some (ec, ctr) → (s.ecs ec).callee = none := by
        intro fuel
        induction fuel with
        | zero => intro e ctr0 h0; simp [activate_loop] at h0
        | succ f ih =>
          intro e ctr0 h0
          unfold activate_loop at h0
          cases hp : (s.ecs e).partner with
          | none =>
            simp only [hp, Option.some.injEq, Prod.mk.injEq] at h0
            rw [← h0.1]
            exact hp
          | some p =>
            simp only [hp] at h0
            exact ih p _ h0
      exact this fuel e 0 hl
    simp only [hl] at h
    by_cases hb : (s.ecs ec).blocked = true
    · simp only [hb, if_true, Option.some.injEq] at h
      subst h
      simp only [make_current, set_ec_ecs, Ec.block_sc, hb, Bool.not_true, Bool.false_eq_true,
        if_false]
      refine ⟨?_, ?_, ?_, hend⟩ <;> by_cases hx : x = ec <;> simp [hx]
    · simp only [hb, Bool.false_eq_true, if_false, Option.some.injEq] at h
      subst h
      exact ⟨rfl, rfl, rfl, hend⟩

/-- Writing the saved instruction pointer, `p0` or `p1` of an EC changes no `cont` and no
partner pointer. -/
theorem set_regs_fields (s : State) (p x : EcPtr) (v : Nat) :
    (((s.set_ip p v).ecs x).callee = (s.ecs x).callee
      ∧ ((s.set_ip p v).ecs x).caller = (s.ecs x).caller
      ∧ ((s.set_ip p v).ecs x).cont = (s.ecs x).cont)
    ∧ (((s.set_p0 p v).ecs x).callee = (s.ecs x).callee
      ∧ ((s.set_p0 p v).ecs x).caller = (s.ecs x).caller
      ∧ ((s.set_p0 p v).ecs x).cont = (s.ecs x).cont)
    ∧ (((s.set_p1 p v).ecs x).callee = (s.ecs x).callee
      ∧ ((s.set_p1 p v).ecs x).caller = (s.ecs x).caller
      ∧ ((s.set_p1 p v).ecs x).cont = (s.ecs x).cont) := by
  simp only [State.set_ip, State.set_p0, State.set_p1, set_ec_ecs]
  by_cases hx : x = p
  · subst hx; simp
  · simp [hx]

/-- The method `set_partner` leaves every `cont` alone. -/
theorem set_partner_cont (s : State) (a e x : EcPtr) :
    ((set_partner s a e).ecs x).cont = (s.ecs x).cont := by
  simp only [set_partner, set_ec_ecs]
  by_cases hxa : x = a
  · subst hxa
    by_cases hxe : x = e
    · subst hxe
      simp
    · simp [hxe]
  · by_cases hxe : x = e
    · subst hxe
      simp [hxa]
    · simp [hxa, hxe]

/-- The pointers and continuations after a handoff: the caller points to the server and the
server back to the caller; the server continues with `c2`, and the caller with `c1` unless it
is the server itself; nothing else changes. -/
theorem handoff_fields (s : State) (ec : EcPtr) (c1 c2 : Cont) (ip p0 p1 : Nat) (x : EcPtr) :
    ((handoff s ec c1 c2 ip p0 p1).ecs x).callee
        = (if x = s.current then some ec else (s.ecs x).callee)
    ∧ ((handoff s ec c1 c2 ip p0 p1).ecs x).caller
        = (if x = ec then some s.current else (s.ecs x).caller)
    ∧ ((handoff s ec c1 c2 ip p0 p1).ecs x).cont
        = (if x = ec then some c2 else if x = s.current then some c1 else (s.ecs x).cont)
    ∧ (handoff s ec c1 c2 ip p0 p1).current = ec := by
  have hcur : (s.set_cont s.current (some c1)).current = s.current := rfl
  unfold handoff
  simp only [make_current, hcur]
  refine ⟨?_, ?_, ?_, ?_⟩
  rotate_left 3
  · trivial
  · rw [(set_regs_fields _ ec x p1).2.2.1, (set_regs_fields _ ec x p0).2.1.1,
      (set_regs_fields _ ec x ip).1.1, (set_cont_fields _ ec x _).2.1, set_partner_callee_of,
      (set_cont_fields _ s.current x _).2.1]
  · rw [(set_regs_fields _ ec x p1).2.2.2.1, (set_regs_fields _ ec x p0).2.1.2.1,
      (set_regs_fields _ ec x ip).1.2.1, (set_cont_fields _ ec x _).2.2.1,
      set_partner_caller_of, (set_cont_fields _ s.current x _).2.2.1]
  · rw [(set_regs_fields _ ec x p1).2.2.2.2, (set_regs_fields _ ec x p0).2.1.2.2,
      (set_regs_fields _ ec x ip).1.2.2, (set_cont_fields _ ec x _).1]
    by_cases hx : x = ec
    · simp [hx]
    · simp only [hx, if_false]
      rw [set_partner_cont, (set_cont_fields _ s.current x _).1]

/-- The function `sys_reply` is `reply ()` run in a state that differs from the initial one in
the registers of the caller only. -/
theorem sys_reply_eq (u : Utcb_env) (s : State) :
    ∃ s1, sys_reply u s = reply s1 none ∧ s1.current = s.current
      ∧ ∀ x, (s1.ecs x).cont = (s.ecs x).cont ∧ (s1.ecs x).callee = (s.ecs x).callee
        ∧ (s1.ecs x).caller = (s.ecs x).caller ∧ (s1.ecs x).glb = (s.ecs x).glb := by
  have hset : ∀ (ec : EcPtr) (e : Ec), e.cont = (s.ecs ec).cont → e.callee = (s.ecs ec).callee →
      e.caller = (s.ecs ec).caller → e.glb = (s.ecs ec).glb →
      ∀ x, ((s.set_ec ec e).ecs x).cont = (s.ecs x).cont
        ∧ ((s.set_ec ec e).ecs x).callee = (s.ecs x).callee
        ∧ ((s.set_ec ec e).ecs x).caller = (s.ecs x).caller
        ∧ ((s.set_ec ec e).ecs x).glb = (s.ecs x).glb := by
    intro ec e h1 h2 h3 h4 x
    rw [set_ec_ecs]
    by_cases hx : x = ec
    · subst hx; simp [h1, h2, h3, h4]
    · simp [hx]
  unfold sys_reply
  cases hr : (s.ecs s.current).rcap with
  | none => exact ⟨s, rfl, rfl, fun x => ⟨rfl, rfl, rfl, rfl⟩⟩
  | some ec =>
    simp only
    split
    · exact ⟨_, rfl, rfl, hset ec _ rfl rfl rfl rfl⟩
    split
    · exact ⟨_, rfl, rfl, hset ec _ rfl rfl rfl rfl⟩
    split
    · exact ⟨_, rfl, rfl, hset ec _ rfl rfl rfl rfl⟩
    split
    · exact ⟨_, rfl, rfl, hset ec _ rfl rfl rfl rfl⟩
    · exact ⟨s, rfl, rfl, fun x => ⟨rfl, rfl, rfl, rfl⟩⟩

/-- The function `reply` has a defined outcome unless the caller is non-null and has a null
callee. -/
theorem reply_defined (s : State) (c : Option Cont)
    (h : ∀ C ∈ (s.ecs s.current).caller, (s.ecs C).callee ≠ none) :
    ∃ out, reply s c = some out := by
  have hf := set_cont_fields s s.current s.current c
  have hcur : (s.set_cont s.current c).current = s.current := rfl
  unfold reply
  simp only [hcur, hf.2.2.2.1, Ec.rcap, hf.2.2.1]
  split
  · exact ⟨_, rfl⟩
  cases hc : (s.ecs s.current).caller with
  | none => exact ⟨_, rfl⟩
  | some C =>
    have hC := h C (by rw [hc]; rfl)
    have hC' : ((s.set_cont s.current c).ecs C).callee ≠ none := by
      rw [(set_cont_fields s s.current C c).2.1]; exact hC
    obtain ⟨b, hb⟩ := Option.ne_none_iff_exists'.mp hC'
    have hclr : ∃ s2 r, clr_partner (s.set_cont s.current c) C = some (s2, r) := by
      unfold clr_partner
      rw [hb]
      exact ⟨_, _, rfl⟩
    obtain ⟨s2, r, hp⟩ := hclr
    simp only [hp]
    cases r
    · exact ⟨_, rfl⟩
    · exact ⟨_, rfl⟩

/-- The handoff of `sys_call`: when the capability validates and names a portal whose server is
on the CPU of the caller and has a null `cont`. -/
theorem sys_call_handoff_eq (env : Env) (s : State) (o : Kobject_ref)
    (hv : (call_cap env s).validate Kobject_type.PT Perm_pt.CALL = true)
    (ho : (call_cap env s).obj = some o)
    (hcpu : (s.ecs s.current).cpu = (s.ecs (s.pts o.ptr).ec).cpu)
    (hcont : (s.ecs (s.pts o.ptr).ec).cont = none) :
    ∃ ip p0 p1, sys_call env s
      = some ⟨handoff s (s.pts o.ptr).ec Cont.ret_user_sysexit Cont.recv_user ip p0 p1,
          Transfer.make_current (s.pts o.ptr).ec⟩ := by
  unfold call_cap at hv ho
  simp only [sys_call, hv, ho, Ec.xcpu, hcpu, hcont, Bool.not_true, Bool.false_eq_true,
    if_false, bne_self_eq_false, if_true]
  exact ⟨_, _, _, rfl⟩

/-- C25: for every server EC `S` that is current and invokes `sys_reply` (a LOCAL server
handling a call in particular): the reply has a defined outcome whenever the caller of `S`, if
any, still has a callee; after it `S.cont` is null, so `S.blocked ()` holds, and the
activation that may follow the reply does not change that; and in every later state in which
`S.cont` still has that value, a `sys_call` by an EC on the CPU of `S` through a validating
capability for a portal that names `S` takes the handoff path: it ends in `make_current (S)`
with `S` current and `S.cont = recv_user`, returns no status (no TIMEOUT), and does so whatever
`help` would do. -/
theorem reply_parks_server (u : Utcb_env) (s : State) :
    ((∀ C ∈ (s.ecs s.current).caller, (s.ecs C).callee ≠ none) →
      ∃ out, sys_reply u s = some out)
    ∧ ∀ out, sys_reply u s = some out →
      (out.state.ecs s.current).cont = none
      ∧ (out.state.ecs s.current).blocked = true
      ∧ (∀ fuel e a, activate fuel out.state e = some a → (a.state.ecs s.current).cont = none)
      ∧ ∀ (env : Env) (s' : State) (o : Kobject_ref),
          (s'.ecs s.current).cont = (out.state.ecs s.current).cont →
          (call_cap env s').validate Kobject_type.PT Perm_pt.CALL = true →
          (call_cap env s').obj = some o → (s'.pts o.ptr).ec = s.current →
          (s'.ecs s'.current).cpu = (s'.ecs s.current).cpu →
          ∃ out', sys_call env s' = some out'
            ∧ out'.next = Transfer.make_current s.current
            ∧ out'.state.current = s.current
            ∧ (out'.state.ecs s.current).cont = some Cont.recv_user
            ∧ ∀ st, ¬ out'.returns st := by
  obtain ⟨s1, heq, hcur, hfld⟩ := sys_reply_eq u s
  refine ⟨?_, ?_⟩
  · intro h
    rw [heq]
    apply reply_defined
    intro C hC
    rw [hcur, (hfld s.current).2.2.1] at hC
    rw [(hfld C).2.1]
    exact h C hC
  · intro out hout
    rw [heq] at hout
    have hc : (out.state.ecs s.current).cont = none := by
      have := reply_cont s1 none out hout
      rwa [hcur] at this
    refine ⟨hc, by simp [Ec.blocked, hc], ?_, ?_⟩
    · intro fuel e a ha
      rw [(activate_fields fuel out.state e a ha s.current).1]
      exact hc
    · intro env s' o hsame hv ho hec hcpu
      rw [hc] at hsame
      rw [← hec] at hsame hcpu
      obtain ⟨ip, p0, p1, hcall⟩ := sys_call_handoff_eq env s' o hv ho hcpu hsame
      rw [hec] at hcall
      refine ⟨_, hcall, rfl, (handoff_fields _ _ _ _ _ _ _ s.current).2.2.2, ?_, ?_⟩
      · rw [(handoff_fields _ _ _ _ _ _ _ s.current).2.2.1, if_pos rfl]
      · intro st hst
        exact absurd hst.1 (by simp)

/-- C25, applied to the local server EC 1 of `st_serving`, which replies to its caller EC 0;
afterwards EC 0 calls portal 9 again in the state `st_call`, where EC 1 waits with a null
`cont`. -/
theorem reply_parks_server_witness :
    ∃ out, sys_reply utcb0 st_serving = some out
      ∧ (out.state.ecs 1).cont = none
      ∧ (out.state.ecs 1).blocked = true
      ∧ ∃ out', sys_call env0 st_call = some out'
          ∧ out'.next = Transfer.make_current 1
          ∧ out'.state.current = 1
          ∧ (out'.state.ecs 1).cont = some Cont.recv_user
          ∧ ∀ st, ¬ out'.returns st := by
  obtain ⟨out, hout⟩ := (reply_parks_server utcb0 st_serving).1 (by decide)
  have h2 := (reply_parks_server utcb0 st_serving).2 out hout
  exact ⟨out, hout, h2.1, h2.2.1,
    h2.2.2.2 env0 st_call ⟨Kobject_type.PT, 9⟩
      ((by decide : (st_call.ecs 1).cont = none).trans h2.1.symm)
      (by decide) (by decide) (by decide) (by decide)⟩

/-! ## C26: status precedence of `sys_create_ec` -/

/-- The common end of the creation syscalls returns SUCCESS if the slot is empty and BAD_CAP
if it is occupied. -/
theorem create_tail_status (k1 : Kern) (sel : Nat) (x : Kobject_ref) (prm : Nat) (enq : Bool)
    (st : Status) :
    (create_tail k1 sel x prm enq).returns st
      ↔ st = (if (k1.st.space_obj (k1.st.ecs k1.st.current).regs.obj sel).obj ≠ none
          then Status.BAD_CAP else Status.SUCCESS) := by
  by_cases hslot : (k1.st.space_obj (k1.st.ecs k1.st.current).regs.obj sel).obj = none
  · have hins := insert_empty k1.st _ sel ⟨some x, prm⟩ hslot
    have hout : ∃ k2 : Kern, create_tail k1 sel x prm enq = k2.finish Status.SUCCESS false := by
      cases enq
      · refine ⟨({ k1 with st := (k1.st.insert (k1.st.ecs k1.st.current).regs.obj sel
            ⟨some x, prm⟩).1 } : Kern), ?_⟩
        simp [create_tail, hins]
      · refine ⟨({ k1 with st := (k1.st.insert (k1.st.ecs k1.st.current).regs.obj sel
            ⟨some x, prm⟩).1 } : Kern).log (Event.remote_enqueue x.ptr), ?_⟩
        simp [create_tail, hins]
    obtain ⟨k2, hk2⟩ := hout
    rw [hk2, finish_returns]
    simp only [hslot, ne_eq, not_true_eq_false, if_false]
    exact eq_comm
  · have hins := insert_occupied k1.st _ sel ⟨some x, prm⟩ hslot
    have hout : create_tail k1 sel x prm enq
        = ({ k1 with live := k1.live.erase x } : Kern).finish Status.BAD_CAP false := by
      simp [create_tail, hins]
    rw [hout, finish_returns]
    simp only [ne_eq, hslot, not_false_eq_true, if_true]
    exact eq_comm

/-- C26: on every request, `sys_create_ec` returns, and the status it returns is that of the
first failing check in the order: BAD_CPU if the CPU is not online; BAD_PAR if
`utcb >= Space_hst::selectors () << PAGE_BITS`; BAD_FTR if `utcb == 0` and the hardware has
neither VMX nor SVM; BAD_CAP if the PD selector does not validate for `Perm_pd::EC`; BAD_CAP if
the insertion at `sel` fails, which it does when the slot is occupied; it is SUCCESS if and
only if none of these checks fails. The address returned by `new Ec` is assumed not to be the
one of the running EC. -/
theorem sys_create_ec_precedence (hw : Hw) (r : Sys_create_ec) (k : Kern)
    (hfresh : hw.ec_new k ≠ k.st.current) :
    ∃ out, sys_create_ec hw r k = some out
      ∧ (∀ st, out.returns st ↔ st = sys_create_ec_status hw r k)
      ∧ (out.returns Status.SUCCESS ↔
          hw.cpu_online r.cpu = true ∧ r.utcb < hw.utcb_limit
          ∧ ¬ (r.utcb = 0 ∧ hw.virt = 0)
          ∧ (k.st.space_obj (k.st.ecs k.st.current).regs.obj r.pd).validate
              Kobject_type.PD Perm_pd.EC = true
          ∧ (k.st.space_obj (k.st.ecs k.st.current).regs.obj r.sel).obj = none) := by
  have key : ∃ out, sys_create_ec hw r k = some out
      ∧ (∀ st, out.returns st ↔ st = sys_create_ec_status hw r k) := by
    rw [sys_create_ec_eq]
    unfold sys_create_ec_status
    by_cases h1 : hw.cpu_online r.cpu = false
    · refine ⟨k.finish Status.BAD_CPU false, by simp [h1], fun st => ?_⟩
      rw [finish_returns, if_pos h1]
      exact eq_comm
    have h1' : (!hw.cpu_online r.cpu) = false := by simpa using h1
    rw [if_neg h1]
    simp only [h1', Bool.false_eq_true, if_false]
    by_cases h2 : r.utcb ≥ hw.utcb_limit
    · refine ⟨k.finish Status.BAD_PAR false, by rw [if_pos h2], fun st => ?_⟩
      rw [finish_returns, if_pos h2]
      exact eq_comm
    rw [if_neg h2, if_neg h2]
    by_cases h3 : r.utcb = 0 ∧ hw.virt = 0
    · refine ⟨k.finish Status.BAD_FTR false, by rw [if_pos h3], fun st => ?_⟩
      rw [finish_returns, if_pos h3]
      exact eq_comm
    rw [if_neg h3, if_neg h3]
    by_cases h4 : (k.st.space_obj (k.st.ecs k.st.current).regs.obj r.pd).validate
        Kobject_type.PD Perm_pd.EC = false
    · refine ⟨k.finish Status.BAD_CAP false, by simp [h4], fun st => ?_⟩
      rw [finish_returns, if_pos h4]
      exact eq_comm
    have h4' : (k.st.space_obj (k.st.ecs k.st.current).regs.obj r.pd).validate
        Kobject_type.PD Perm_pd.EC = true := by simpa using h4
    rw [if_neg h4]
    simp only [h4', Bool.not_true, Bool.false_eq_true, if_false]
    obtain ⟨o, ho⟩ := validate_obj _ _ _ h4'
    rw [ho]
    refine ⟨_, rfl, fun st => ?_⟩
    rw [create_tail_status]
    have hobj : ((k.st.set_ec (hw.ec_new k)
        (hw.ec_ctor (k.pds o.ptr).space_obj (k.pds o.ptr).space_hst (k.pds o.ptr).space_pio r.sel
          (if r.type then some (Cont.send_msg Cont.ret_user_iret) else none)
          r.cpu r.evt r.utcb r.esp)).ecs k.st.current).regs.obj
        = (k.st.ecs k.st.current).regs.obj := by
      rw [set_ec_ecs, if_neg (Ne.symm hfresh)]
    show st = (if (k.st.space_obj ((k.st.set_ec _ _).ecs k.st.current).regs.obj r.sel).obj ≠ none
      then Status.BAD_CAP else Status.SUCCESS) ↔ _
    rw [hobj]
  obtain ⟨out, hout, hst⟩ := key
  refine ⟨out, hout, hst, ?_⟩
  rw [hst]
  unfold sys_create_ec_status
  constructor
  · intro h
    split at h
    · exact absurd h (by decide)
    next h1 =>
    split at h
    · exact absurd h (by decide)
    next h2 =>
    split at h
    · exact absurd h (by decide)
    next h3 =>
    split at h
    · exact absurd h (by decide)
    next h4 =>
    split at h
    · exact absurd h (by decide)
    next h5 =>
    exact ⟨by simpa using h1, by omega, h3, by simpa using h4, by simpa using h5⟩
  · rintro ⟨h1, h2, h3, h4, h5⟩
    have h2' : ¬ r.utcb ≥ hw.utcb_limit := by omega
    simp [h1, h2', h3, h4, h5]

/-- C26, applied to the caller of `k_create` on the example hardware: a request for the
offline CPU 5 with a UTCB address of 0 returns BAD_CPU, and a request for CPU 1 with a valid
UTCB address at the occupied selector 3 returns BAD_CAP. -/
theorem sys_create_ec_precedence_witness :
    (∃ out, sys_create_ec hw0 ⟨9, 1, 5, 0, 0, 0, true⟩ k_create = some out
      ∧ ∀ st, out.returns st ↔ st = Status.BAD_CPU)
    ∧ (∃ out, sys_create_ec hw0 ⟨3, 1, 1, 4096, 0, 0, false⟩ k_create = some out
      ∧ ∀ st, out.returns st ↔ st = Status.BAD_CAP) := by
  obtain ⟨o1, h1, s1, -⟩ :=
    sys_create_ec_precedence hw0 ⟨9, 1, 5, 0, 0, 0, true⟩ k_create (by decide)
  obtain ⟨o2, h2, s2, -⟩ :=
    sys_create_ec_precedence hw0 ⟨3, 1, 1, 4096, 0, 0, false⟩ k_create (by decide)
  have e1 : sys_create_ec_status hw0 ⟨9, 1, 5, 0, 0, 0, true⟩ k_create = Status.BAD_CPU := by
    decide
  have e2 : sys_create_ec_status hw0 ⟨3, 1, 1, 4096, 0, 0, false⟩ k_create = Status.BAD_CAP := by
    decide
  rw [e1] at s1
  rw [e2] at s2
  exact ⟨⟨o1, h1, s1⟩, ⟨o2, h2, s2⟩⟩

/-! ## C27: subtype dispatch of `sys_ctrl_pd` -/

/-- C27: for every aligned request: if `validate_take_grant` rejects the two capabilities the
status is BAD_CAP; if it accepts with source subtype `st` and destination subtype `dt`, then
(1) when `st` is HST, the source is the kernel's own host space and the memory attribute
argument is invalid, the status is BAD_PAR whatever `dt` is; (2) otherwise, for the pairs
(HST,HST), (HST,GST), (HST,DMA), (OBJ,OBJ), (PIO,PIO), (MSR,MSR) the syscall is the `delegate`
call of the destination space (with the memory attributes for a host-space source) and its
status is the status that call returns; (3) otherwise, for every other pair, the status is
BAD_CAP. In the cases without delegation the outcome is the same for every `delegate`
operation `d`, so none is invoked. -/
theorem sys_ctrl_pd_subtype_dispatch (hw : Hw) (r : Sys_ctrl_pd) (k : Kern)
    (hal : r.misalignment = 0) :
    (hw.validate_take_grant (ctrl_pd_src r k) (ctrl_pd_dst r k) = none →
      (sys_ctrl_pd hw r k).returns Status.BAD_CAP
      ∧ ∀ d, sys_ctrl_pd { hw with delegate := d } r k = k.finish_status Status.BAD_CAP)
    ∧ ∀ st dt, hw.validate_take_grant (ctrl_pd_src r k) (ctrl_pd_dst r k) = some (st, dt) →
      (own_space_invalid hw r k st →
        (sys_ctrl_pd hw r k).returns Status.BAD_PAR
        ∧ ∀ d, sys_ctrl_pd { hw with delegate := d } r k = k.finish_status Status.BAD_PAR)
      ∧ (¬ own_space_invalid hw r k st → (st, dt) ∈ delegated_pairs →
        sys_ctrl_pd hw r k
            = k.delegate hw ⟨dt, (ctrl_pd_dst r k).obj, (ctrl_pd_src r k).obj, r.ssb, r.dsb,
                r.ord, r.pmm, if st = Subtype.HST then some r.ma else none⟩
        ∧ (sys_ctrl_pd hw r k).returns
            (hw.delegate ⟨dt, (ctrl_pd_dst r k).obj, (ctrl_pd_src r k).obj, r.ssb, r.dsb,
                r.ord, r.pmm, if st = Subtype.HST then some r.ma else none⟩ k).1)
      ∧ (¬ own_space_invalid hw r k st → (st, dt) ∉ delegated_pairs →
        (sys_ctrl_pd hw r k).returns Status.BAD_CAP
        ∧ ∀ d, sys_ctrl_pd { hw with delegate := d } r k = k.finish_status Status.BAD_CAP) := by
  have hret : ∀ S, (k.finish_status S).returns S := fun S => (finish_status_frame k S).1
  have hdel : ∀ a, (k.delegate hw a).returns (hw.delegate a k).1 := fun a =>
    (finish_status_frame (hw.delegate a k).2 (hw.delegate a k).1).1
  have hnone : hw.validate_take_grant (ctrl_pd_src r k) (ctrl_pd_dst r k) = none →
      ∀ d, sys_ctrl_pd { hw with delegate := d } r k = k.finish_status Status.BAD_CAP := by
    intro h d
    unfold ctrl_pd_src ctrl_pd_dst at h
    simp only [sys_ctrl_pd, sys_ctrl_pd_dispatch, hal, ne_eq, not_true_eq_false, if_false, h]
  refine ⟨fun h => ⟨?_, hnone h⟩, ?_⟩
  · have := hnone h hw.delegate
    rw [show ({ hw with delegate := hw.delegate } : Hw) = hw from rfl] at this
    rw [this]
    exact hret _
  intro st dt h
  have hown : own_space_invalid hw r k st →
      ∀ d, sys_ctrl_pd { hw with delegate := d } r k = k.finish_status Status.BAD_PAR := by
    intro ho d
    unfold own_space_invalid ctrl_pd_src at ho
    unfold ctrl_pd_src ctrl_pd_dst at h
    obtain ⟨h1, h2, h3⟩ := ho
    subst h1
    simp only [sys_ctrl_pd, sys_ctrl_pd_dispatch, hal, ne_eq, not_true_eq_false, if_false, h,
      if_true, h2, h3, and_self]
  have hother : ¬ own_space_invalid hw r k st → (st, dt) ∉ delegated_pairs →
      ∀ d, sys_ctrl_pd { hw with delegate := d } r k = k.finish_status Status.BAD_CAP := by
    intro ho hp d
    unfold own_space_invalid ctrl_pd_src at ho
    unfold ctrl_pd_src ctrl_pd_dst at h
    simp only [sys_ctrl_pd, sys_ctrl_pd_dispatch, hal, ne_eq, not_true_eq_false, if_false, h]
    cases st <;> cases dt <;> simp_all [delegated_pairs]
  refine ⟨fun ho => ⟨?_, hown ho⟩, ?_, fun ho hp => ⟨?_, hother ho hp⟩⟩
  · have := hown ho hw.delegate
    rw [show ({ hw with delegate := hw.delegate } : Hw) = hw from rfl] at this
    rw [this]
    exact hret _
  · intro ho hp
    have heq : sys_ctrl_pd hw r k
        = k.delegate hw ⟨dt, (ctrl_pd_dst r k).obj, (ctrl_pd_src r k).obj, r.ssb, r.dsb,
            r.ord, r.pmm, if st = Subtype.HST then some r.ma else none⟩ := by
      unfold own_space_invalid ctrl_pd_src at ho
      unfold ctrl_pd_src ctrl_pd_dst at h
      unfold ctrl_pd_src ctrl_pd_dst
      simp only [sys_ctrl_pd, sys_ctrl_pd_dispatch, hal, ne_eq, not_true_eq_false, if_false, h]
      simp only [delegated_pairs, List.mem_cons, Prod.mk.injEq, List.mem_singleton,
        List.not_mem_nil, or_false] at hp
      rcases hp with ⟨rfl, rfl⟩ | ⟨rfl, rfl⟩ | ⟨rfl, rfl⟩ | ⟨rfl, rfl⟩ | ⟨rfl, rfl⟩ | ⟨rfl, rfl⟩
      · have ho2 : ¬ (Option.map Kobject_ref.ptr
            (k.st.space_obj (k.st.ecs k.st.current).regs.obj r.src).obj = some hw.nova_hst
            ∧ hw.ma_valid r.ma = false) := fun hc => ho ⟨rfl, hc⟩
        simp only [if_true, if_neg ho2]
      · have ho2 : ¬ (Option.map Kobject_ref.ptr
            (k.st.space_obj (k.st.ecs k.st.current).regs.obj r.src).obj = some hw.nova_hst
            ∧ hw.ma_valid r.ma = false) := fun hc => ho ⟨rfl, hc⟩
        simp only [if_true, if_neg ho2, reduceCtorEq, if_false]
      · have ho2 : ¬ (Option.map Kobject_ref.ptr
            (k.st.space_obj (k.st.ecs k.st.current).regs.obj r.src).obj = some hw.nova_hst
            ∧ hw.ma_valid r.ma = false) := fun hc => ho ⟨rfl, hc⟩
        simp only [if_true, if_neg ho2, reduceCtorEq, if_false]
      · simp only [reduceCtorEq, if_false, and_self, if_true]
      · simp only [reduceCtorEq, if_false, and_self, if_true, false_and]
      · simp only [reduceCtorEq, if_false, and_self, if_true, false_and]
    rw [heq]
    exact ⟨rfl, hdel _⟩
  · have := hother ho hp hw.delegate
    rw [show ({ hw with delegate := hw.delegate } : Hw) = hw from rfl] at this
    rw [this]
    exact hret _

/-- C27, applied to the caller of `k_grant`: delegating from its guest space (selector 2) into
its object space is BAD_CAP; delegating from the kernel's own host space (selector 1) with the
invalid memory attribute 5 is BAD_PAR; with the valid attribute 0 and a guest-space
destination it is the status MEM_OBJ of the `delegate` call. -/
theorem sys_ctrl_pd_subtype_dispatch_witness :
    (sys_ctrl_pd hw_grant ⟨2, 3, 0, 0, 0, 0, 0⟩ k_grant).returns Status.BAD_CAP
    ∧ (sys_ctrl_pd hw_grant ⟨1, 2, 0, 0, 0, 0, 5⟩ k_grant).returns Status.BAD_PAR
    ∧ (sys_ctrl_pd hw_grant ⟨1, 2, 0, 0, 0, 0, 0⟩ k_grant).returns Status.MEM_OBJ :=
  ⟨(((sys_ctrl_pd_subtype_dispatch hw_grant ⟨2, 3, 0, 0, 0, 0, 0⟩ k_grant (by decide)).2
      Subtype.GST Subtype.OBJ (by decide)).2.2 (by decide) (by decide)).1,
   (((sys_ctrl_pd_subtype_dispatch hw_grant ⟨1, 2, 0, 0, 0, 0, 5⟩ k_grant (by decide)).2
      Subtype.HST Subtype.GST (by decide)).1 (by decide)).1,
   (((sys_ctrl_pd_subtype_dispatch hw_grant ⟨1, 2, 0, 0, 0, 0, 0⟩ k_grant (by decide)).2
      Subtype.HST Subtype.GST (by decide)).2.1 (by decide) (by decide)).2⟩

/-! ## C28: status precedence of `sys_ctrl_hw` -/

/-- C28: for every caller on the object space of the root PD: an operation other than 0
returns BAD_PAR and nothing else happens (no ACPI transition is attempted); for operation 0,
with `t` the low 16 bits of `desc`: BAD_FTR if `t` is not supported and nothing else happens;
otherwise `Acpi::set_transition (t)` is called, and the status is ABORTED if it fails and
SUCCESS if it succeeds. When the status is SUCCESS the SLEEP hazard has been added to
`Cpu::hazard` and the RKE interrupt has been broadcast once, after the transition; when the
status is not SUCCESS, `Cpu::hazard` is what it was and no interrupt has been sent. -/
theorem sys_ctrl_hw_precedence (hw : Hw) (r : Sys_ctrl_hw) (k : Kern)
    (hroot : (k.st.ecs k.st.current).regs.obj = k.root_obj) :
    (r.op ≠ 0 → sys_ctrl_hw hw r k = k.finish_status Status.BAD_PAR)
    ∧ (r.op = 0 → hw.supported (r.desc % 2 ^ 16) = false →
        sys_ctrl_hw hw r k = k.finish_status Status.BAD_FTR)
    ∧ (r.op = 0 → hw.supported (r.desc % 2 ^ 16) = true →
        hw.set_transition (r.desc % 2 ^ 16) = false →
        sys_ctrl_hw hw r k
          = (k.log (Event.set_transition (r.desc % 2 ^ 16))).finish_status Status.ABORTED)
    ∧ (r.op = 0 → hw.supported (r.desc % 2 ^ 16) = true →
        hw.set_transition (r.desc % 2 ^ 16) = true →
        (sys_ctrl_hw hw r k).returns Status.SUCCESS)
    ∧ (∀ st, (sys_ctrl_hw hw r k).returns st ↔ st =
        (if r.op ≠ 0 then Status.BAD_PAR
         else if hw.supported (r.desc % 2 ^ 16) = false then Status.BAD_FTR
         else if hw.set_transition (r.desc % 2 ^ 16) = false then Status.ABORTED
         else Status.SUCCESS))
    ∧ ((sys_ctrl_hw hw r k).returns Status.SUCCESS →
        (sys_ctrl_hw hw r k).k.cpu_hazard = k.cpu_hazard ||| hw.SLEEP
        ∧ (sys_ctrl_hw hw r k).k.events
            = k.events ++ [Event.set_transition (r.desc % 2 ^ 16), Event.send_exc Request.RKE])
    ∧ (¬ (sys_ctrl_hw hw r k).returns Status.SUCCESS →
        (sys_ctrl_hw hw r k).k.cpu_hazard = k.cpu_hazard
        ∧ ((sys_ctrl_hw hw r k).k.events = k.events
          ∨ (sys_ctrl_hw hw r k).k.events
              = k.events ++ [Event.set_transition (r.desc % 2 ^ 16)])) := by
  simp only [show (2 : Nat) ^ 16 = 65536 by norm_num]
  have hret : ∀ (k1 : Kern) (S st : Status), (k1.finish_status S).returns st ↔ st = S := by
    intro k1 S st
    constructor
    · intro h
      have h1 := (finish_status_frame k1 S).1
      exact to_underlying_injective _ _ (h.2.symm.trans h1.2)
    · intro h
      rw [h]
      exact (finish_status_frame k1 S).1
  have hobj : ((k.st.ecs k.st.current).regs.obj != k.root_obj) = false := by
    simp [hroot]
  by_cases hop : r.op = 0
  · by_cases hsup : hw.supported (r.desc % 65536) = true
    · by_cases htr : hw.set_transition (r.desc % 65536) = true
      · have heq : sys_ctrl_hw hw r k
            = ({ (k.log (Event.set_transition (r.desc % 65536))).log
                  (Event.send_exc Request.RKE) with
                 cpu_hazard := k.cpu_hazard ||| hw.SLEEP } : Kern).finish_status
                Status.SUCCESS := by
          simp [sys_ctrl_hw, hobj, hop, hsup, htr, Kern.log]
        rw [heq]
        refine ⟨fun h => absurd hop h, fun _ h => ?_, fun _ _ h => ?_, fun _ _ _ => ?_, ?_,
          fun _ => ?_, fun h => ?_⟩
        · rw [hsup] at h; exact absurd h (by decide)
        · rw [htr] at h; exact absurd h (by decide)
        · exact (hret _ _ _).mpr rfl
        · intro st
          rw [hret]
          simp [hop, hsup, htr]
        · exact ⟨rfl, by simp [Kern.finish_status, Kern.log]⟩
        · exact absurd ((hret _ _ _).mpr rfl) h
      · have htr' : hw.set_transition (r.desc % 65536) = false := by simpa using htr
        have heq : sys_ctrl_hw hw r k
            = (k.log (Event.set_transition (r.desc % 65536))).finish_status
                Status.ABORTED := by
          simp [sys_ctrl_hw, hobj, hop, hsup, htr']
        rw [heq]
        refine ⟨fun h => absurd hop h, fun _ h => ?_, fun _ _ _ => rfl, fun _ _ h => ?_, ?_,
          fun h => ?_, fun _ => ?_⟩
        · rw [hsup] at h; exact absurd h (by decide)
        · rw [htr'] at h; exact absurd h (by decide)
        · intro st
          rw [hret]
          simp [hop, hsup, htr']
        · exact absurd ((hret _ _ _).mp h) (by decide)
        · exact ⟨rfl, Or.inr rfl⟩
    · have hsup' : hw.supported (r.desc % 65536) = false := by simpa using hsup
      have heq : sys_ctrl_hw hw r k = k.finish_status Status.BAD_FTR := by
        simp [sys_ctrl_hw, hobj, hop, hsup']
      rw [heq]
      refine ⟨fun h => absurd hop h, fun _ _ => rfl, fun _ h => ?_, fun _ h => ?_, ?_,
        fun h => ?_, fun _ => ?_⟩
      · rw [hsup'] at h; exact absurd h (by decide)
      · rw [hsup'] at h; exact absurd h (by decide)
      · intro st
        rw [hret]
        simp [hop, hsup']
      · exact absurd ((hret _ _ _).mp h) (by decide)
      · exact ⟨rfl, Or.inl rfl⟩
  · have heq : sys_ctrl_hw hw r k = k.finish_status Status.BAD_PAR := by
      simp [sys_ctrl_hw, hobj, hop]
    rw [heq]
    refine ⟨fun _ => rfl, fun h => absurd h hop, fun h => absurd h hop, fun h => absurd h hop,
      ?_, fun h => ?_, fun _ => ?_⟩
    · intro st
      rw [hret]
      simp [hop]
    · exact absurd ((hret _ _ _).mp h) (by decide)
    · exact ⟨rfl, Or.inl rfl⟩

/-- C28, applied to the root caller of `k0` on the example hardware: operation 1 returns BAD_PAR
without any call into ACPI, and operation 0 succeeds, adding the SLEEP hazard (bit 1). -/
theorem sys_ctrl_hw_precedence_witness :
    sys_ctrl_hw hw0 ⟨1, 3⟩ k0 = k0.finish_status Status.BAD_PAR
    ∧ (sys_ctrl_hw hw0 ⟨0, 3⟩ k0).returns Status.SUCCESS :=
  ⟨(sys_ctrl_hw_precedence hw0 ⟨1, 3⟩ k0 rfl).1 (by decide),
   (sys_ctrl_hw_precedence hw0 ⟨0, 3⟩ k0 rfl).2.2.2.1 rfl (by decide) (by decide)⟩

/-! ## C29: safety of the partner clearing in `reply` -/

/-- Distance from `r` forward to `w` in a ring of `E` entries. -/
theorem ring_distance (E r w : Nat) (hr : r < E) (hw : w < E) :
    (w + E - r) % E = if r ≤ w then w - r else w + E - r := by
  split
  · next h =>
    have : w + E - r = (w - r) + E := by omega
    rw [this, Nat.add_mod_right, Nat.mod_eq_of_lt (by omega)]
  · next h => exact Nat.mod_eq_of_lt (by omega)

/-- The increment of the read index, computed in `uint32_t`, is the successor in the ring. -/
theorem ring_succ (E r : Nat) (h32 : E < 2 ^ 32) (hr : r < E) :
    (r + 1) % 2 ^ 32 % E = if r + 1 = E then 0 else r + 1 := by
  rw [Nat.mod_eq_of_lt (show r + 1 < 2 ^ 32 by omega)]
  split
  · next h => rw [h, Nat.mod_self]
  · next h => exact Nat.mod_eq_of_lt (by omega)

/-- The replay loop, entered at the read index `r` with `n` slots to go up to the write index
`w`, transmits the characters of these `n` slots in ring order. -/
theorem sync_loop_replay (m : Mbuf_regs) (h32 : m.entries < 2 ^ 32) (w : Nat)
    (hw : w < m.entries) :
    ∀ n r out fuel, r < m.entries → (w + m.entries - r) % m.entries = n → n < fuel →
      sync_loop m fuel r w out
        = some (out ++ (List.range n).map (fun i => Uart_op.tx (m.buffer ((r + i) % m.entries)))) := by
  intro n
  induction n with
  | zero =>
    intro r out fuel hr hn hf
    rw [ring_distance _ _ _ hr hw] at hn
    have hrw : r = w := by split at hn <;> omega
    obtain ⟨f, rfl⟩ : ∃ f, fuel = f + 1 := ⟨fuel - 1, by omega⟩
    simp [sync_loop, hrw]
  | succ n ih =>
    intro r out fuel hr hn hf
    rw [ring_distance _ _ _ hr hw] at hn
    have hrw : r ≠ w := by split at hn <;> omega
    obtain ⟨f, rfl⟩ : ∃ f, fuel = f + 1 := ⟨fuel - 1, by omega⟩
    have hE : m.entries ≠ 0 := by omega
    have hr' : (r + 1) % 2 ^ 32 % m.entries < m.entries := Nat.mod_lt _ (by omega)
    have hn' : (w + m.entries - (r + 1) % 2 ^ 32 % m.entries) % m.entries = n := by
      rw [ring_distance _ _ _ hr' hw, ring_succ _ _ h32 hr]
      split at hn <;> split <;> split <;> omega
    have hstep := ih ((r + 1) % 2 ^ 32 % m.entries) (outc out (m.buffer r)) f hr' hn' (by omega)
    simp only [sync_loop, bne_iff_ne, ne_eq, hrw, not_false_eq_true, if_true, hE, if_false, hstep]
    simp only [outc, List.range_succ_eq_map, List.map_cons, List.map_map, List.append_assoc,
      List.singleton_append, Nat.add_zero, Nat.mod_eq_of_lt hr]
    congr 3
    apply List.map_congr_left
    intro i _
    simp only [Function.comp, Nat.succ_eq_add_one]
    rw [Nat.mod_eq_of_lt (show r + 1 < 2 ^ 32 by omega)]
    congr 2
    rw [Nat.mod_add_mod]
    congr 1
    omega

/-- C30: for a memory-buffer console with `entries > 0` (a `uint32_t`), `r_idx < entries` and
`w_idx < entries`, the replay loop of `Console_uart::sync` terminates (every bound above
`n = (w_idx - r_idx) mod entries` condition evaluations suffices) and transmits exactly the `n`
characters `buffer[(r_idx + i) mod entries]`, `i = 0 .. n - 1`, in that order, before
`enable ()`; these are `n` different slots, the slot after the last one is `w_idx`, and nothing
is transmitted when `r_idx = w_idx`. -/
theorem sync_replay (m : Mbuf_regs) (hent : 0 < m.entries) (h32 : m.entries < 2 ^ 32)
    (hr : m.r_idx < m.entries) (hw : m.w_idx < m.entries) :
    (∀ fuel, (m.w_idx + m.entries - m.r_idx) % m.entries < fuel →
      sync fuel (some m)
        = some ((List.range ((m.w_idx + m.entries - m.r_idx) % m.entries)).map
            (fun i => Uart_op.tx (m.buffer ((m.r_idx + i) % m.entries))) ++ [Uart_op.enable]))
    ∧ (∀ i j, i < (m.w_idx + m.entries - m.r_idx) % m.entries →
        j < (m.w_idx + m.entries - m.r_idx) % m.entries → i ≠ j →
        (m.r_idx + i) % m.entries ≠ (m.r_idx + j) % m.entries)
    ∧ (m.r_idx + (m.w_idx + m.entries - m.r_idx) % m.entries) % m.entries = m.w_idx
    ∧ (m.r_idx = m.w_idx → ∀ fuel, 0 < fuel → sync fuel (some m) = some [Uart_op.enable]) := by
  have hn : (m.w_idx + m.entries - m.r_idx) % m.entries < m.entries := Nat.mod_lt _ hent
  have hring : ∀ i, i < m.entries →
      (m.r_idx + i) % m.entries = if m.r_idx + i < m.entries then m.r_idx + i
        else m.r_idx + i - m.entries := by
    intro i hi
    split
    · next h => exact Nat.mod_eq_of_lt h
    · next h =>
      have : m.r_idx + i = (m.r_idx + i - m.entries) + m.entries := by omega
      rw [this, Nat.add_mod_right, Nat.mod_eq_of_lt (by omega)]
      omega
  refine ⟨?_, ?_, ?_, ?_⟩
  · intro fuel hf
    simp only [sync, sync_loop_replay m h32 m.w_idx hw _ m.r_idx [] fuel hr rfl hf,
      List.nil_append]
  · intro i j hi hj hij
    rw [hring i (by omega), hring j (by omega)]
    split <;> split <;> omega
  · rw [hring _ hn, ring_distance _ _ _ hr hw]
    split <;> split <;> omega
  · intro h fuel hf
    have h0 : (m.w_idx + m.entries - m.r_idx) % m.entries = 0 := by
      rw [ring_distance _ _ _ hr hw, h]; simp
    have := sync_loop_replay m h32 m.w_idx hw 0 m.r_idx [] fuel hr h0 hf
    simp [sync, this]

/-- C30, applied to the console `mbuf0` (4 entries, read index 3, write index 1): the two
characters at the indices 3 and 0 are transmitted, in that order. -/
theorem sync_replay_witness :
    sync 3 (some mbuf0) = some [Uart_op.tx 100, Uart_op.tx 97, Uart_op.enable] :=
  ((sync_replay mbuf0 (by decide) (by decide) (by decide) (by decide)).1 3 (by decide)).trans
    (by decide)

end Nova
